import Mathlib

/-!
# Credential lifecycle of the vault connector

A shallow embedding of `internal/connector/vault/client.go`:
`NewVaultKubernetesClient`, `PeriodicallyRenewLeases`, `renewLeases` and `login`.

The Vault client library (`vaultapi`, `vaultauth`) is outside the repository.  Its
calls are answered by an `Env`: one answer per call, indexed by the number of the call,
so that every deterministic behaviour of the library and of the backend is covered.
The calls the program makes are appended to the `trace` of the `World`.
Lines that only write to the log (`log.Printf`, `log.Println`) are left out;
`log.Fatalf` ends the process and is the `Outcome.fatal` of the loop.

Go pointers that the code dereferences without a test are values here: the `parameters`
argument of `NewVaultKubernetesClient`, the client a successful `NewClient` returns, and
the `info.Secret.Auth` of a renewal notification, whose `LeaseDuration` the log line of
`renewLeases` reads.  Pointers the code tests or passes on (`authToken`, the `authInfo`
of `Login`) are `Option`s.
-/

namespace VaultOperator

/-- A non-nil Go `error`, given by its message; a nil error is `none` at the use sites. -/
abbrev Err := String

/-- The `Parameters` struct of `client.go`. -/
structure Parameters where
  Address : String
  AuthPath : String
  Role : String
  TokenPath : String
deriving DecidableEq, Repr

/-- A `vaultapi.Secret` carrying auth info (library type): the token and its lease. -/
structure Secret where
  ClientToken : String
  LeaseDuration : Int
deriving DecidableEq, Repr

/-- A `vaultapi.Client` (library type), built for one address. -/
structure Client where
  Address : String
deriving DecidableEq, Repr

/-- A `vaultauth.KubernetesAuth` (library type): role, token path, mount path. -/
structure KubernetesAuth where
  roleName : String
  tokenPath : String
  mountPath : String
deriving DecidableEq, Repr

/-- The `Vault` struct of `client.go`. -/
structure Vault where
  Client : VaultOperator.Client
  parameters : Parameters
deriving DecidableEq, Repr

/-- What one pass of the `select` in `renewLeases` can receive: `ctx.Done()` fired,
`DoneCh()` delivered an error value (possibly nil), or `RenewCh()` delivered a renewal
whose secret has the given remaining lease duration. -/
inductive Event
  | ctxDone
  | doneCh (err : Option Err)
  | renewCh (leaseDuration : Int)
deriving DecidableEq, Repr

/-- The calls of the program that are visible outside it. -/
inductive Action
  /-- Entry of the `n`-th invocation of `login`. -/
  | login (n : Nat)
  /-- The call `v.Client.Auth().Login` made by the `n`-th invocation of `login`. -/
  | authLogin (n : Nat) (auth : KubernetesAuth)
  /-- The `w`-th call of `v.Client.NewLifetimeWatcher`, for the given secret. -/
  | newLifetimeWatcher (w : Nat) (secret : Option Secret)
  /-- Watcher `w` is started: `go authTokenWatcher.Start()`. -/
  | watcherStart (w : Nat)
  /-- Watcher `w` is stopped: the deferred `authTokenWatcher.Stop()`. -/
  | watcherStop (w : Nat)
  /-- The `select` of the cycle of watcher `w` received the event. -/
  | recv (w : Nat) (e : Event)
deriving DecidableEq, Repr

/-- The answers of the library and the backend. -/
structure Env where
  /-- Answer of `vaultapi.NewClient` for a config with the given address. -/
  NewClient : String → Except Err Client
  /-- Answer of `vaultauth.NewKubernetesAuth` in the `n`-th invocation of `login`,
  for role, service account token path and mount path. -/
  NewKubernetesAuth : Nat → String → String → String → Except Err KubernetesAuth
  /-- Answer `(authInfo, err)` of `Auth().Login` in the `n`-th invocation of `login`. -/
  AuthLogin : Nat → Client → KubernetesAuth → Option Secret × Option Err
  /-- Error of the `w`-th `NewLifetimeWatcher`, `none` when the watcher is built. -/
  NewLifetimeWatcher : Nat → Client → Option Secret → Option Err
  /-- The events the `select` of the cycle of watcher `w` receives, in order.  When the
  list ends without a terminal event the `select` blocks for ever. -/
  events : Nat → List Event

/-- The state outside the program: how many times `login` and `NewLifetimeWatcher` were
called, and the calls made so far, oldest first. -/
structure World where
  logins : Nat
  watchers : Nat
  trace : List Action
deriving DecidableEq, Repr

/-- Append one action to the trace. -/
def World.record (st : World) (a : Action) : World :=
  { st with trace := st.trace ++ [a] }

/-- The world before the program has done anything. -/
def World.init : World := { logins := 0, watchers := 0, trace := [] }

/-- The type `renewResult`, a `uint8` bitmask. -/
abbrev renewResult := Nat

/-- The bit `renewError`, `1 << iota` at `iota = 0`. -/
def renewError : renewResult := 1 <<< 0

/-- The bit `exitRequested`, `1 << iota` at `iota = 1`. -/
def exitRequested : renewResult := 1 <<< 1

/-- The bit `expiringAuthToken` (the token will be revoked soon), `1 << iota` at `iota = 2`. -/
def expiringAuthToken : renewResult := 1 <<< 2

/-- The method `Vault.login`: the pair `(secret, err)` it returns, the receiver after the
call, and the world after the call. -/
def login (env : Env) (v : Vault) (st : World) :
    (Option Secret × Option Err) × Vault × World :=
  let n := st.logins
  let st1 : World := { st with logins := n + 1, trace := st.trace ++ [Action.login n] }
  match env.NewKubernetesAuth n v.parameters.Role v.parameters.TokenPath
      v.parameters.AuthPath with
  | .error err =>
    ((none, some ("unable to initialize Kubernetes auth method: " ++ err)), v, st1)
  | .ok kubernetesAuth =>
    let st2 := st1.record (Action.authLogin n kubernetesAuth)
    match env.AuthLogin n v.Client kubernetesAuth with
    | (_, some err) =>
      ((none, some ("unable to log in with Kubernetes auth: " ++ err)), v, st2)
    | (none, none) => ((none, some "no auth info was returned after login"), v, st2)
    | (some authInfo, none) => ((some authInfo, none), v, st2)

/-- The function `NewVaultKubernetesClient`: the triple `(vault, token, err)` and the world
after the call. -/
def NewVaultKubernetesClient (env : Env) (parameters : Parameters) (st : World) :
    (Option Vault × Option Secret × Option Err) × World :=
  match env.NewClient parameters.Address with
  | .error err => ((none, none, some ("unable to initialize vault client: " ++ err)), st)
  | .ok client =>
    let vault : Vault := { Client := client, parameters := parameters }
    match login env vault st with
    | ((_, some err), _, st1) => ((none, none, some ("vault login error: " ++ err)), st1)
    | ((token, none), vault1, st1) => ((some vault1, token, none), st1)

/-- The `for { select { ... } }` of `renewLeases` for watcher `w`: `none` when the events
end before a terminal one (the `select` blocks), else the pair `(renewResult, err)`
returned.  Every event received is recorded. -/
def selectLoop (w : Nat) : List Event → World → Option (renewResult × Option Err) × World
  | [], st => (none, st)
  | Event.ctxDone :: _, st =>
    (some (exitRequested, none), st.record (Action.recv w Event.ctxDone))
  | Event.doneCh err :: _, st =>
    (some (expiringAuthToken, err), st.record (Action.recv w (Event.doneCh err)))
  | Event.renewCh d :: rest, st =>
    selectLoop w rest (st.record (Action.recv w (Event.renewCh d)))

/-- The method `Vault.renewLeases`: `none` when it never returns, else the pair
`(renewResult, err)` returned; the deferred `Stop` runs on every return that follows
the `Start`. -/
def renewLeases (env : Env) (v : Vault) (authToken : Option Secret) (st : World) :
    Option (renewResult × Option Err) × World :=
  let w := st.watchers
  let st1 : World :=
    { st with watchers := w + 1, trace := st.trace ++ [Action.newLifetimeWatcher w authToken] }
  match env.NewLifetimeWatcher w v.Client authToken with
  | some err =>
    (some (renewError, some ("unable to initialize auth token lifetime watcher: " ++ err)), st1)
  | none =>
    match selectLoop w (env.events w) (st1.record (Action.watcherStart w)) with
    | (none, st2) => (none, st2)
    | (some r, st2) => (some r, st2.record (Action.watcherStop w))

/-- How `PeriodicallyRenewLeases` ends: it returns, the process exits in `log.Fatalf`,
a `select` blocks for ever, or the fuel of the model is used up. -/
inductive Outcome
  | returned
  | fatal (msg : String)
  | blocked
  | outOfFuel
deriving DecidableEq, Repr

/-- One pass of the `for` of `PeriodicallyRenewLeases`. -/
inductive Step
  /-- The loop goes round again, with this `currentAuthToken`. -/
  | next (v : Vault) (currentAuthToken : Option Secret) (st : World)
  /-- The loop is left. -/
  | halt (o : Outcome) (st : World)
deriving DecidableEq, Repr

/-- The body of the `for` of `PeriodicallyRenewLeases`. -/
def loopBody (env : Env) (v : Vault) (currentAuthToken : Option Secret) (st : World) : Step :=
  match renewLeases env v currentAuthToken st with
  | (none, st1) => Step.halt Outcome.blocked st1
  | (some (_, some err), st1) => Step.halt (Outcome.fatal ("renew error: " ++ err)) st1
  | (some (renewed, none), st1) =>
    if renewed &&& exitRequested ≠ 0 then Step.halt Outcome.returned st1
    else if renewed &&& expiringAuthToken ≠ 0 then
      match login env v st1 with
      | ((_, some err), _, st2) =>
        Step.halt (Outcome.fatal ("login authentication error: " ++ err)) st2
      | ((authToken, none), v1, st2) => Step.next v1 authToken st2
    else Step.next v currentAuthToken st1

/-- The method `Vault.PeriodicallyRenewLeases`, with a bound on the passes of its `for`. -/
def PeriodicallyRenewLeases (env : Env) :
    Nat → Vault → Option Secret → World → Outcome × World
  | 0, _, _, st => (Outcome.outOfFuel, st)
  | fuel + 1, v, authToken, st =>
    match loopBody env v authToken st with
    | Step.halt o st1 => (o, st1)
    | Step.next v1 currentAuthToken st1 =>
      PeriodicallyRenewLeases env fuel v1 currentAuthToken st1

/-! ## Reading traces and environments -/

/-- The answer of `vaultauth.NewKubernetesAuth` in the `n`-th invocation of `login` on `v`. -/
def Env.authMethod (env : Env) (v : Vault) (n : Nat) : Except Err KubernetesAuth :=
  env.NewKubernetesAuth n v.parameters.Role v.parameters.TokenPath v.parameters.AuthPath

/-- Is the action the entry of an invocation of `login`? -/
def Action.isLogin : Action → Bool
  | Action.login _ => true
  | _ => false

/-- Is the action a call of `NewLifetimeWatcher`? -/
def Action.isNewWatcher : Action → Bool
  | Action.newLifetimeWatcher _ _ => true
  | _ => false

/-- The number of calls of `NewLifetimeWatcher` in a trace. -/
def watchersCreated (t : List Action) : Nat := t.countP Action.isNewWatcher

/-- The number of invocations of `login` in a trace. -/
def loginCalls (t : List Action) : Nat := t.countP Action.isLogin

/-- The world a pass of the loop ends in. -/
def Step.world : Step → World
  | Step.next _ _ st => st
  | Step.halt _ st => st

/-- The trace of a cycle of watcher `w` on the secret `tok` that received the events `evs`
and returned: the watcher is built, started, the events are received, it is stopped. -/
def cycleTrace (w : Nat) (tok : Option Secret) (evs : List Event) : List Action :=
  [Action.newLifetimeWatcher w tok, Action.watcherStart w] ++ evs.map (Action.recv w) ++
    [Action.watcherStop w]

/-- The state in which pass `n + 1` of the `for` of `PeriodicallyRenewLeases` starts:
`none` when the loop is left in one of the first `n` passes. -/
def loopState (env : Env) :
    Nat → Vault → Option Secret → World → Option (Vault × Option Secret × World)
  | 0, v, cur, st => some (v, cur, st)
  | n + 1, v, cur, st =>
    match loopBody env v cur st with
    | Step.next v1 cur1 st1 => loopState env n v1 cur1 st1
    | Step.halt _ _ => none

/-- The pair `(secret, err)` the `n`-th invocation of `login` on `v` returns. -/
def loginAnswer (env : Env) (v : Vault) (n : Nat) : Option Secret × Option Err :=
  (login env v { logins := n, watchers := 0, trace := [] }).1

/-- The actions of the `n`-th invocation of `login` on `v`. -/
def loginTrace (env : Env) (v : Vault) (n : Nat) : List Action :=
  Action.login n ::
    (match env.authMethod v n with
      | Except.ok a => [Action.authLogin n a]
      | Except.error _ => [])

/-- The actions one call of `renewLeases` adds to the trace. -/
def cycleTraceOf (env : Env) (v : Vault) (cur : Option Secret) (st : World) : List Action :=
  (renewLeases env v cur st).2.trace.drop st.trace.length

/-- The actions one pass of the loop adds to the trace. -/
def passTrace (env : Env) (v : Vault) (cur : Option Secret) (st : World) : List Action :=
  (loopBody env v cur st).world.trace.drop st.trace.length

/-- The actions a run of `PeriodicallyRenewLeases` adds to the trace. -/
def runTrace (env : Env) (fuel : Nat) (v : Vault) (authToken : Option Secret)
    (st : World) : List Action :=
  (PeriodicallyRenewLeases env fuel v authToken st).2.trace.drop st.trace.length

/-- The watchers that are started and not yet stopped once the actions `t` have happened,
`acc` being those before `t`; the latest one first. -/
def activeAfter : List Nat → List Action → List Nat
  | acc, [] => acc
  | acc, Action.watcherStart w :: t => activeAfter (w :: acc) t
  | acc, Action.watcherStop w :: t => activeAfter (acc.erase w) t
  | acc, Action.login _ :: t => activeAfter acc t
  | acc, Action.authLogin _ _ :: t => activeAfter acc t
  | acc, Action.newLifetimeWatcher _ _ :: t => activeAfter acc t
  | acc, Action.recv _ _ :: t => activeAfter acc t

/-- The watchers that are started and not yet stopped at the end of the trace `t`. -/
def activeWatchers (t : List Action) : List Nat := activeAfter [] t

/-- Along the trace `t`, entered with the active watchers `acc`, there is never more than
one active watcher, and none whenever a watcher is built. -/
def Disciplined : List Nat → List Action → Prop
  | acc, [] => acc.length ≤ 1
  | acc, a :: t =>
    acc.length ≤ 1 ∧ (a.isNewWatcher = true → acc = []) ∧
      Disciplined (activeAfter acc [a]) t

/-- The cycle that `renewLeases` runs from `st` received the value `e` on the done channel
of its watcher. -/
abbrev sawDoneCh (env : Env) (v : Vault) (cur : Option Secret) (st : World)
    (e : Option Err) : Prop :=
  Action.recv st.watchers (Event.doneCh e) ∈ cycleTraceOf env v cur st

/-- The world after a cycle of `renewLeases` that started in `st` on the secret `cur`,
received the events `evs` and returned. -/
def afterCycle (st : World) (cur : Option Secret) (evs : List Event) : World :=
  { logins := st.logins, watchers := st.watchers + 1,
    trace := st.trace ++ cycleTrace st.watchers cur evs }

/-- The world after a cycle as in `afterCycle` and the invocation of `login` on `v` that
follows it. -/
def afterRelogin (env : Env) (v : Vault) (st : World) (cur : Option Secret)
    (evs : List Event) : World :=
  { logins := st.logins + 1, watchers := st.watchers + 1,
    trace := st.trace ++ (cycleTrace st.watchers cur evs ++ loginTrace env v st.logins) }

/-! ## The remote role and its comparison with the spec (`type.go`) -/

namespace v1beta1

/-- The struct `KubernetesRoleSpec` of `api/auth/v1beta1`.  A `[]string` is `none` when
nil; an `int` is an `Int`. -/
structure KubernetesRoleSpec where
  BoundServiceAccountNames : Option (List String)
  BoundServiceAccountNamespaces : Option (List String)
  Audience : String
  AliasNameSource : String
  TokenTTL : Int
  TokenMaxTTL : Int
  TokenPolicies : Option (List String)
  TokenBoundCIDRs : Option (List String)
  TokenExplicitMaxTTL : Int
  TokenNoDefaultPolicy : Bool
  TokenNumUses : Int
  TokenPeriod : Int
  TokenType : String
  AuthPath : String
deriving DecidableEq, Repr

end v1beta1

namespace vault

/-- The struct `Policy` of `type.go`. -/
structure Policy where
  Name : String
  Policy : String
deriving DecidableEq, Repr

/-- The struct `KubernetesRole` of `type.go`. -/
structure KubernetesRole where
  BoundServiceAccountNames : Option (List String)
  BoundServiceAccountNamespaces : Option (List String)
  Audience : String
  AliasNameSource : String
  TokenTTL : Int
  TokenMaxTTL : Int
  TokenPolicies : Option (List String)
  TokenBoundCIDRs : Option (List String)
  TokenExplicitMaxTTL : Int
  TokenNoDefaultPolicy : Bool
  TokenNumUses : Int
  TokenPeriod : Int
  TokenType : String
deriving DecidableEq, Repr

/-- The elements of two slices of the same length are equal one by one. -/
def elementsEqual : List String → List String → Bool
  | [], [] => true
  | a :: as, b :: bs => a == b && elementsEqual as bs
  | _, _ => false

/-- The library function `reflect.DeepEqual` on two `[]string` values: both nil, or both
non-nil with the same length and equal elements. -/
def DeepEqual : Option (List String) → Option (List String) → Bool
  | none, none => true
  | some a, some b => a.length == b.length && elementsEqual a b
  | _, _ => false

/-- The method `KubernetesRole.IsDifferentFromSpec` of `type.go`. -/
def KubernetesRole.IsDifferentFromSpec (k : KubernetesRole) (s : v1beta1.KubernetesRoleSpec) :
    Bool :=
  !DeepEqual k.BoundServiceAccountNames s.BoundServiceAccountNames ||
    !DeepEqual k.BoundServiceAccountNamespaces s.BoundServiceAccountNamespaces ||
    !DeepEqual k.TokenPolicies s.TokenPolicies ||
    !DeepEqual k.TokenBoundCIDRs s.TokenBoundCIDRs ||
    k.Audience != s.Audience ||
    k.AliasNameSource != s.AliasNameSource ||
    k.TokenTTL != s.TokenTTL ||
    k.TokenMaxTTL != s.TokenMaxTTL ||
    k.TokenExplicitMaxTTL != s.TokenExplicitMaxTTL ||
    k.TokenNoDefaultPolicy != s.TokenNoDefaultPolicy ||
    k.TokenNumUses != s.TokenNumUses ||
    k.TokenPeriod != s.TokenPeriod ||
    k.TokenType != s.TokenType

end vault

/-! ## Runs that differ in their renewals -/

/-- The first event of the list that is not a renewal notification: the event on which
the `select` loop of `renewLeases` returns, `none` when there is none. -/
def firstTerminal : List Event → Option Event
  | [] => none
  | Event.renewCh _ :: rest => firstTerminal rest
  | Event.ctxDone :: _ => some Event.ctxDone
  | Event.doneCh err :: _ => some (Event.doneCh err)

/-- Is the action the receipt of a renewal notification? -/
def Action.isRenewal : Action → Bool
  | Action.recv _ (Event.renewCh _) => true
  | _ => false

/-- The trace without the receipts of renewal notifications. -/
def withoutRenewals (t : List Action) : List Action :=
  t.filter (fun a => !a.isRenewal)

/-- Two worlds that agree on everything but the renewal notifications received. -/
def sameButRenewals (st1 st2 : World) : Prop :=
  st1.logins = st2.logins ∧ st1.watchers = st2.watchers ∧
    withoutRenewals st1.trace = withoutRenewals st2.trace

/-! ## The reconcilers (`internal/controller`)

The Kubernetes client, the Vault client and the JSON library are outside the repository.
Within one call of `Reconcile` each of their calls is answered by a function of the calls
made so far (the trace) and of the arguments, so that every deterministic behaviour of
the cluster and of Vault is covered.  `Reconcile` returns `(ctrl.Result, error)` with
`ctrl.Result{}` on every path; only the error is kept here.  Log lines are left out.
-/

/-- A non-nil `error` met by a reconciler: its message and what `apierrors.IsNotFound`
answers on it. -/
structure KErr where
  message : String
  notFound : Bool
deriving DecidableEq, Repr

/-- The library type `types.NamespacedName`, the key of a `ctrl.Request`. -/
structure NamespacedName where
  Namespace : String
  Name : String
deriving DecidableEq, Repr

/-- The library type `metav1.Condition`, without its time stamp and generation. -/
structure Condition where
  Type_ : String
  Status : String
  Reason : String
  Message : String
deriving DecidableEq, Repr

/-- The constant `metav1.ConditionTrue`. -/
def ConditionTrue : String := "True"

/-- The constant `metav1.ConditionFalse`. -/
def ConditionFalse : String := "False"

/-- The constant `metav1.ConditionUnknown`. -/
def ConditionUnknown : String := "Unknown"

/-- The library function `meta.SetStatusCondition`: the first condition of the type of
`newCondition` takes its status, reason and message; when there is none, `newCondition`
is added at the end. -/
def SetStatusCondition : List Condition → Condition → List Condition
  | [], newCondition => [newCondition]
  | c :: rest, newCondition =>
    if c.Type_ = newCondition.Type_ then
      { c with Status := newCondition.Status, Reason := newCondition.Reason,
               Message := newCondition.Message } :: rest
    else c :: SetStatusCondition rest newCondition

/-- The library type `metav1.ObjectMeta`, with the fields the reconcilers read.  The
deletion time stamp is `none` when nil and `some 0` at the zero time. -/
structure ObjectMeta where
  Name : String
  Namespace : String
  UID : String
  DeletionTimestamp : Option Nat
  Finalizers : List String
deriving DecidableEq, Repr

/-- The library method `(*metav1.Time).IsZero`: nil or the zero time. -/
def Time.IsZero : Option Nat → Bool
  | none => true
  | some t => t == 0

/-- The library function `controllerutil.ContainsFinalizer`. -/
def ContainsFinalizer (o : ObjectMeta) (finalizer : String) : Bool :=
  o.Finalizers.any (fun f => f == finalizer)

/-- The library function `controllerutil.AddFinalizer`: adds the finalizer at the end
unless it is there. -/
def AddFinalizer (o : ObjectMeta) (finalizer : String) : ObjectMeta :=
  if o.Finalizers.any (fun f => f == finalizer) then o
  else { o with Finalizers := o.Finalizers ++ [finalizer] }

/-- The library function `controllerutil.RemoveFinalizer`: drops every occurrence. -/
def RemoveFinalizer (o : ObjectMeta) (finalizer : String) : ObjectMeta :=
  { o with Finalizers := o.Finalizers.filter (fun f => f != finalizer) }

/-- The data of a Vault secret, a `map[string]interface{}`, by its JSON text. -/
structure SecretData where
  json : String
deriving DecidableEq, Repr

/-- The library type `vaultapi.EnableAuthOptions`, with the fields that are set. -/
structure EnableAuthOptions where
  Type_ : String
  Description : String
deriving DecidableEq, Repr

/-- The library type `vaultapi.TokenCreateRequest`, with the fields that are set. -/
structure TokenCreateRequest where
  Policies : Option (List String)
  Metadata : Option (List (String × String))
  TTL : String
  ExplicitMaxTTL : String
  Period : String
  NoParent : Bool
  NoDefaultPolicy : Bool
  DisplayName : String
  NumUses : Int
  Renewable : Bool
  Type_ : String
  EntityAlias : String
deriving DecidableEq, Repr

/-- The library type `corev1.Secret`, with what the token reconciler sets and reads: the
owner references by their UIDs, the data by the stored token. -/
structure K8sSecret where
  Name : String
  Namespace : String
  OwnerReferences : List String
  Data : String
deriving DecidableEq, Repr

/-- The calls to Vault that the reconcilers make. -/
inductive VaultCall
  | logicalRead (path : String)
  | logicalWrite (path : String) (data : SecretData)
  | logicalDelete (path : String)
  | getPolicy (name : String)
  | putPolicy (name : String) (rules : String)
  | deletePolicy (name : String)
  | enableAuth (path : String) (options : EnableAuthOptions)
  | getAuth (path : String)
  | disableAuth (path : String)
  | createToken (req : TokenCreateRequest)
  | revokeAccessor (accessor : String)
deriving DecidableEq, Repr

/-- Does the call create or update a resource in Vault? -/
def VaultCall.isWrite : VaultCall → Bool
  | VaultCall.logicalWrite _ _ => true
  | VaultCall.putPolicy _ _ => true
  | VaultCall.enableAuth _ _ => true
  | VaultCall.createToken _ => true
  | _ => false

/-- The calls a reconciler of objects of type `α` makes, in the order it makes them. -/
inductive RAction (α : Type)
  /-- `r.Get` of the reconciled object. -/
  | get (key : NamespacedName)
  /-- `r.Update` of the reconciled object, as it is sent. -/
  | update (obj : α)
  /-- `r.Status().Update` of the reconciled object, as it is sent. -/
  | statusUpdate (obj : α)
  /-- A call to Vault. -/
  | vault (call : VaultCall)
  /-- `r.Get` of a `corev1.Secret`. -/
  | getSecret (key : NamespacedName)
  /-- `r.Delete` of a `corev1.Secret`. -/
  | deleteSecret (secret : K8sSecret)
  /-- `r.Create` of a `corev1.Secret`. -/
  | createSecret (secret : K8sSecret)
deriving DecidableEq, Repr

/-- Is the action a call to Vault? -/
def RAction.isVault {α : Type} : RAction α → Bool
  | RAction.vault _ => true
  | _ => false

/-- Is the action a call that creates or updates a resource in Vault? -/
def RAction.isVaultWrite {α : Type} : RAction α → Bool
  | RAction.vault c => c.isWrite
  | _ => false

/-- Is the action a status update? -/
def RAction.isStatusUpdate {α : Type} : RAction α → Bool
  | RAction.statusUpdate _ => true
  | _ => false

/-- The answers of the Kubernetes client (`client.Client`) to a reconciler of objects of
type `α`, each a function of the trace so far.  `Update` and `Status().Update` answer the
object as the API server stored it. -/
structure KubeClient (α : Type) where
  Get : List (RAction α) → NamespacedName → Except KErr α
  Update : List (RAction α) → α → Except KErr α
  StatusUpdate : List (RAction α) → α → Except KErr α
  GetSecret : List (RAction α) → NamespacedName → Except KErr K8sSecret
  DeleteSecret : List (RAction α) → K8sSecret → Option KErr
  CreateSecret : List (RAction α) → K8sSecret → Option KErr

/-- The library type `vaultapi.AuthMount`, with the field that is read. -/
structure AuthMount where
  Accessor : String
deriving DecidableEq, Repr

/-- The `Auth` part of the secret that `Token().Create` returns, with the fields read. -/
structure TokenAuth where
  ClientToken : String
  Accessor : String
deriving DecidableEq, Repr

/-- The answers of the Vault client (`*vaultapi.Client`), each a function of the trace. -/
structure VaultApi (α : Type) where
  /-- `Logical().ReadWithContext`: the pair `(secret data, err)`, data `none` for nil. -/
  ReadWithContext : List (RAction α) → String → Option SecretData × Option KErr
  /-- `Logical().WriteWithContext`. -/
  WriteWithContext : List (RAction α) → String → SecretData → Option KErr
  /-- `Logical().DeleteWithContext`. -/
  DeleteWithContext : List (RAction α) → String → Option KErr
  /-- `Sys().GetPolicyWithContext`: the pair `(content, err)`. -/
  GetPolicyWithContext : List (RAction α) → String → String × Option KErr
  /-- `Sys().PutPolicyWithContext`. -/
  PutPolicyWithContext : List (RAction α) → String → String → Option KErr
  /-- `Sys().DeletePolicyWithContext`. -/
  DeletePolicyWithContext : List (RAction α) → String → Option KErr
  /-- `Sys().EnableAuthWithOptionsWithContext`. -/
  EnableAuthWithOptionsWithContext : List (RAction α) → String → EnableAuthOptions → Option KErr
  /-- `Sys().GetAuthWithContext`. -/
  GetAuthWithContext : List (RAction α) → String → Except KErr AuthMount
  /-- `Sys().DisableAuthWithContext`. -/
  DisableAuthWithContext : List (RAction α) → String → Option KErr
  /-- `Auth().Token().Create`. -/
  TokenCreate : List (RAction α) → TokenCreateRequest → Except KErr TokenAuth
  /-- `Auth().Token().RevokeAccessorWithContext`. -/
  RevokeAccessorWithContext : List (RAction α) → String → Option KErr

/-- The answers of `encoding/json` on the remote role.  Encoding a `vault.KubernetesRole`
(strings, integers, a boolean and string slices) and decoding the result into a map
cannot fail; `encode_ok` records it. -/
structure Json where
  /-- `json.Marshal` of the data of a secret. -/
  MarshalData : SecretData → Except KErr String
  /-- `json.Unmarshal` into a `vault.KubernetesRole`. -/
  UnmarshalRole : String → Except KErr vault.KubernetesRole
  /-- `json.Marshal` of a `vault.KubernetesRole`. -/
  MarshalRole : vault.KubernetesRole → Except KErr String
  /-- `json.Unmarshal` into a `map[string]interface{}`. -/
  UnmarshalMap : String → Except KErr SecretData
  encode_ok : ∀ k, ∃ b m, MarshalRole k = Except.ok b ∧ UnmarshalMap b = Except.ok m

/-- A reconciler struct (`KubernetesRoleReconciler`, `PolicyReconciler`, `AuthReconciler`,
`TokenReconciler`): the embedded `client.Client` and the `Vault` client; with them the
answers of the libraries it calls. -/
structure Reconciler (α : Type) where
  Client : KubeClient α
  Vault : VaultApi α
  json : Json
  /-- The library function `controllerutil.SetControllerReference` for `r.Scheme`. -/
  SetControllerReference : α → K8sSecret → Except KErr K8sSecret

/-! ### The KubernetesRole reconciler (`kubernetesrole_controller.go`) -/

namespace v1beta1

/-- The struct `KubernetesRoleStatus`. -/
structure KubernetesRoleStatus where
  Conditions : List Condition
deriving DecidableEq, Repr

/-- The struct `KubernetesRole` of `api/auth/v1beta1`. -/
structure KubernetesRole where
  ObjectMeta : VaultOperator.ObjectMeta
  Spec : KubernetesRoleSpec
  Status : KubernetesRoleStatus
deriving DecidableEq, Repr

end v1beta1

/-- The type `KubernetesRoleReconciler`. -/
abbrev KubernetesRoleReconciler := Reconciler v1beta1.KubernetesRole

namespace KubernetesRoleReconciler

/-- The constant `roleFinalizer`. -/
def roleFinalizer : String := "kubernetesrole.auth.toolkit.vault.hopopops.com/finalizer"

/-- The constant `typeConfiguredRole`. -/
def typeConfiguredRole : String := "Configured"

/-- The path `fmt.Sprintf("/auth/%s/role/%s", role.Spec.AuthPath, role.Name)`. -/
def rolePath (role : v1beta1.KubernetesRole) : String :=
  "/auth/" ++ role.Spec.AuthPath ++ "/role/" ++ role.ObjectMeta.Name

/-- The method `deleteVaultKubernetesRole`. -/
def deleteVaultKubernetesRole (r : KubernetesRoleReconciler) (role : v1beta1.KubernetesRole)
    (tr : List (RAction v1beta1.KubernetesRole)) :
    Option KErr × List (RAction v1beta1.KubernetesRole) :=
  (r.Vault.DeleteWithContext tr (rolePath role),
    tr ++ [RAction.vault (VaultCall.logicalDelete (rolePath role))])

/-- The method `fetchVaultKubernetesRole`: the pair `(role, err)` it returns. -/
def fetchVaultKubernetesRole (r : KubernetesRoleReconciler) (role : v1beta1.KubernetesRole)
    (tr : List (RAction v1beta1.KubernetesRole)) :
    (Option vault.KubernetesRole × Option KErr) × List (RAction v1beta1.KubernetesRole) :=
  let tr1 := tr ++ [RAction.vault (VaultCall.logicalRead (rolePath role))]
  match r.Vault.ReadWithContext tr (rolePath role) with
  | (_, some err) => ((none, some err), tr1)
  | (none, none) => ((none, none), tr1)
  | (some s, none) =>
    match r.json.MarshalData s with
    | Except.error err => ((none, some err), tr1)
    | Except.ok jsonBytes =>
      match r.json.UnmarshalRole jsonBytes with
      | Except.error err => ((none, some err), tr1)
      | Except.ok kr => ((some kr, none), tr1)

/-- The method `updateVaultKubernetesRole`. -/
def updateVaultKubernetesRole (r : KubernetesRoleReconciler) (role : v1beta1.KubernetesRole)
    (tr : List (RAction v1beta1.KubernetesRole)) :
    Option KErr × List (RAction v1beta1.KubernetesRole) :=
  match r.json.MarshalRole
      { BoundServiceAccountNames := role.Spec.BoundServiceAccountNames,
        BoundServiceAccountNamespaces := role.Spec.BoundServiceAccountNamespaces,
        Audience := role.Spec.Audience,
        AliasNameSource := role.Spec.AliasNameSource,
        TokenTTL := role.Spec.TokenTTL,
        TokenMaxTTL := role.Spec.TokenMaxTTL,
        TokenPolicies := role.Spec.TokenPolicies,
        TokenBoundCIDRs := role.Spec.TokenBoundCIDRs,
        TokenExplicitMaxTTL := role.Spec.TokenExplicitMaxTTL,
        TokenNoDefaultPolicy := role.Spec.TokenNoDefaultPolicy,
        TokenNumUses := role.Spec.TokenNumUses,
        TokenPeriod := role.Spec.TokenPeriod,
        TokenType := role.Spec.TokenType } with
  | Except.error err => (some err, tr)
  | Except.ok jsonBytes =>
    match r.json.UnmarshalMap jsonBytes with
    | Except.error err => (some err, tr)
    | Except.ok m =>
      (r.Vault.WriteWithContext tr (rolePath role) m,
        tr ++ [RAction.vault (VaultCall.logicalWrite (rolePath role) m)])

/-- The role with the condition `Configured` set as given (`meta.SetStatusCondition` on
`role.Status.Conditions`). -/
def withCondition (role : v1beta1.KubernetesRole) (status reason message : String) :
    v1beta1.KubernetesRole :=
  { role with
    Status :=
      { Conditions := SetStatusCondition role.Status.Conditions
          { Type_ := typeConfiguredRole, Status := status, Reason := reason,
            Message := message } } }

/-- Lines 78 to 89 of `Reconcile`: an object without conditions gets the condition
`Unknown`, its status is updated and it is fetched again.  The result is the error
returned, or the object `Reconcile` goes on with. -/
def initStatus (r : KubernetesRoleReconciler) (req : NamespacedName)
    (role : v1beta1.KubernetesRole) (tr : List (RAction v1beta1.KubernetesRole)) :
    Except KErr v1beta1.KubernetesRole × List (RAction v1beta1.KubernetesRole) :=
  if role.Status.Conditions.length = 0 then
    let role1 := withCondition role ConditionUnknown "Reconciling" "Starting reconciliation"
    let tr1 := tr ++ [RAction.statusUpdate role1]
    match r.Client.StatusUpdate tr role1 with
    | Except.error err => (Except.error err, tr1)
    | Except.ok _ =>
      match r.Client.Get tr1 req with
      | Except.error err => (Except.error err, tr1 ++ [RAction.get req])
      | Except.ok role2 => (Except.ok role2, tr1 ++ [RAction.get req])
  else (Except.ok role, tr)

/-- Lines 92 to 104 of `Reconcile`, for an object that is not being deleted: an object
without the finalizer gets it, is updated and fetched again. -/
def ensureFinalizer (r : KubernetesRoleReconciler) (req : NamespacedName)
    (role : v1beta1.KubernetesRole) (tr : List (RAction v1beta1.KubernetesRole)) :
    Except KErr v1beta1.KubernetesRole × List (RAction v1beta1.KubernetesRole) :=
  if !ContainsFinalizer role.ObjectMeta roleFinalizer then
    let role1 := { role with ObjectMeta := AddFinalizer role.ObjectMeta roleFinalizer }
    let tr1 := tr ++ [RAction.update role1]
    match r.Client.Update tr role1 with
    | Except.error err => (Except.error err, tr1)
    | Except.ok _ =>
      match r.Client.Get tr1 req with
      | Except.error err => (Except.error err, tr1 ++ [RAction.get req])
      | Except.ok role2 => (Except.ok role2, tr1 ++ [RAction.get req])
  else (Except.ok role, tr)

/-- Lines 106 to 120 of `Reconcile`, for an object that is being deleted. -/
def finalize (r : KubernetesRoleReconciler) (role : v1beta1.KubernetesRole)
    (tr : List (RAction v1beta1.KubernetesRole)) :
    Option KErr × List (RAction v1beta1.KubernetesRole) :=
  if ContainsFinalizer role.ObjectMeta roleFinalizer then
    match deleteVaultKubernetesRole r role tr with
    | (some err, tr1) => (some err, tr1)
    | (none, tr1) =>
      let role1 := { role with ObjectMeta := RemoveFinalizer role.ObjectMeta roleFinalizer }
      match r.Client.Update tr1 role1 with
      | Except.error err => (some err, tr1 ++ [RAction.update role1])
      | Except.ok _ => (none, tr1 ++ [RAction.update role1])
  else (none, tr)

/-- Lines 123 to 154 of `Reconcile`: create or update. -/
def createOrUpdate (r : KubernetesRoleReconciler) (role : v1beta1.KubernetesRole)
    (tr : List (RAction v1beta1.KubernetesRole)) :
    Option KErr × List (RAction v1beta1.KubernetesRole) :=
  match fetchVaultKubernetesRole r role tr with
  | ((_, some err), tr1) =>
    let role1 := withCondition role ConditionFalse "FailedToFetch"
      "Failed to fetch kubernetes auth engine role from Vault"
    match r.Client.StatusUpdate tr1 role1 with
    | Except.error err2 => (some err2, tr1 ++ [RAction.statusUpdate role1])
    | Except.ok _ => (some err, tr1 ++ [RAction.statusUpdate role1])
  | ((kr, none), tr1) =>
    if (match kr with
        | none => true
        | some k => k.IsDifferentFromSpec role.Spec) then
      match updateVaultKubernetesRole r role tr1 with
      | (some err, tr2) =>
        let role1 := withCondition role ConditionFalse "FailedToUpdate"
          "Failed to push kubernetes auth engine role to Vault"
        match r.Client.StatusUpdate tr2 role1 with
        | Except.error err2 => (some err2, tr2 ++ [RAction.statusUpdate role1])
        | Except.ok _ => (some err, tr2 ++ [RAction.statusUpdate role1])
      | (none, tr2) =>
        let role1 := withCondition role ConditionTrue "Configured"
          "Successfully pushed kubernetes auth engine role to Vault"
        match r.Client.StatusUpdate tr2 role1 with
        | Except.error err2 => (some err2, tr2 ++ [RAction.statusUpdate role1])
        | Except.ok _ => (none, tr2 ++ [RAction.statusUpdate role1])
    else (none, tr1)

/-- The method `KubernetesRoleReconciler.Reconcile`: the error it returns (`none` for
nil) and the trace after it. -/
def Reconcile (r : KubernetesRoleReconciler) (req : NamespacedName)
    (tr : List (RAction v1beta1.KubernetesRole)) :
    Option KErr × List (RAction v1beta1.KubernetesRole) :=
  match r.Client.Get tr req with
  | Except.error err =>
    if err.notFound then (none, tr ++ [RAction.get req])
    else (some err, tr ++ [RAction.get req])
  | Except.ok role0 =>
    match initStatus r req role0 (tr ++ [RAction.get req]) with
    | (Except.error err, tr1) => (some err, tr1)
    | (Except.ok role1, tr1) =>
      if Time.IsZero role1.ObjectMeta.DeletionTimestamp then
        match ensureFinalizer r req role1 tr1 with
        | (Except.error err, tr2) => (some err, tr2)
        | (Except.ok role, tr2) => createOrUpdate r role tr2
      else finalize r role1 tr1

end KubernetesRoleReconciler

/-! ### The Policy reconciler (`policy_controller.go`) -/

namespace v1beta1

/-- The struct `PolicySpec` of `api/sys/v1beta1`, whose declaration is not among the
sources: the field the reconciler reads, `Policy`, a `*string` that it dereferences. -/
structure PolicySpec where
  Policy : String
deriving DecidableEq, Repr

/-- The struct `PolicyStatus`, by the field the reconciler uses. -/
structure PolicyStatus where
  Conditions : List Condition
deriving DecidableEq, Repr

/-- The struct `Policy` of `api/sys/v1beta1`. -/
structure Policy where
  ObjectMeta : VaultOperator.ObjectMeta
  Spec : PolicySpec
  Status : PolicyStatus
deriving DecidableEq, Repr

end v1beta1

/-- The type `PolicyReconciler`. -/
abbrev PolicyReconciler := Reconciler v1beta1.Policy

namespace PolicyReconciler

/-- The constant `policyFinalizer`. -/
def policyFinalizer : String := "policy.sys.toolkit.vault.hopopops.com/finalizer"

/-- The constant `typeConfiguredPolicy`. -/
def typeConfiguredPolicy : String := "Configured"

/-- The method `deleteVaultPolicy`. -/
def deleteVaultPolicy (r : PolicyReconciler) (policy : v1beta1.Policy)
    (tr : List (RAction v1beta1.Policy)) : Option KErr × List (RAction v1beta1.Policy) :=
  (r.Vault.DeletePolicyWithContext tr policy.ObjectMeta.Name,
    tr ++ [RAction.vault (VaultCall.deletePolicy policy.ObjectMeta.Name)])

/-- The method `fetchVaultPolicy`: the pair `(policy, err)` it returns. -/
def fetchVaultPolicy (r : PolicyReconciler) (policy : v1beta1.Policy)
    (tr : List (RAction v1beta1.Policy)) :
    (Option vault.Policy × Option KErr) × List (RAction v1beta1.Policy) :=
  let tr1 := tr ++ [RAction.vault (VaultCall.getPolicy policy.ObjectMeta.Name)]
  match r.Vault.GetPolicyWithContext tr policy.ObjectMeta.Name with
  | (_, some err) => ((none, some err), tr1)
  | (content, none) =>
    if content = "" then ((some { Name := "", Policy := "" }, none), tr1)
    else ((some { Name := policy.ObjectMeta.Name, Policy := content }, none), tr1)

/-- The method `updateVaultPolicy`. -/
def updateVaultPolicy (r : PolicyReconciler) (policy : v1beta1.Policy)
    (tr : List (RAction v1beta1.Policy)) : Option KErr × List (RAction v1beta1.Policy) :=
  (r.Vault.PutPolicyWithContext tr policy.ObjectMeta.Name policy.Spec.Policy,
    tr ++ [RAction.vault (VaultCall.putPolicy policy.ObjectMeta.Name policy.Spec.Policy)])

/-- The policy with the condition `Configured` set as given. -/
def withCondition (policy : v1beta1.Policy) (status reason message : String) :
    v1beta1.Policy :=
  { policy with
    Status :=
      { Conditions := SetStatusCondition policy.Status.Conditions
          { Type_ := typeConfiguredPolicy, Status := status, Reason := reason,
            Message := message } } }

/-- Lines 76 to 87 of `Reconcile`: the first status of an object without conditions. -/
def initStatus (r : PolicyReconciler) (req : NamespacedName) (policy : v1beta1.Policy)
    (tr : List (RAction v1beta1.Policy)) :
    Except KErr v1beta1.Policy × List (RAction v1beta1.Policy) :=
  if policy.Status.Conditions.length = 0 then
    let policy1 := withCondition policy ConditionUnknown "Reconciling" "Starting reconciliation"
    let tr1 := tr ++ [RAction.statusUpdate policy1]
    match r.Client.StatusUpdate tr policy1 with
    | Except.error err => (Except.error err, tr1)
    | Except.ok _ =>
      match r.Client.Get tr1 req with
      | Except.error err => (Except.error err, tr1 ++ [RAction.get req])
      | Except.ok policy2 => (Except.ok policy2, tr1 ++ [RAction.get req])
  else (Except.ok policy, tr)

/-- Lines 90 to 102 of `Reconcile`, for an object that is not being deleted. -/
def ensureFinalizer (r : PolicyReconciler) (req : NamespacedName) (policy : v1beta1.Policy)
    (tr : List (RAction v1beta1.Policy)) :
    Except KErr v1beta1.Policy × List (RAction v1beta1.Policy) :=
  if !ContainsFinalizer policy.ObjectMeta policyFinalizer then
    let policy1 :=
      { policy with ObjectMeta := AddFinalizer policy.ObjectMeta policyFinalizer }
    let tr1 := tr ++ [RAction.update policy1]
    match r.Client.Update tr policy1 with
    | Except.error err => (Except.error err, tr1)
    | Except.ok _ =>
      match r.Client.Get tr1 req with
      | Except.error err => (Except.error err, tr1 ++ [RAction.get req])
      | Except.ok policy2 => (Except.ok policy2, tr1 ++ [RAction.get req])
  else (Except.ok policy, tr)

/-- Lines 104 to 117 of `Reconcile`, for an object that is being deleted. -/
def finalize (r : PolicyReconciler) (policy : v1beta1.Policy)
    (tr : List (RAction v1beta1.Policy)) : Option KErr × List (RAction v1beta1.Policy) :=
  if ContainsFinalizer policy.ObjectMeta policyFinalizer then
    match deleteVaultPolicy r policy tr with
    | (some err, tr1) => (some err, tr1)
    | (none, tr1) =>
      let policy1 :=
        { policy with ObjectMeta := RemoveFinalizer policy.ObjectMeta policyFinalizer }
      match r.Client.Update tr1 policy1 with
      | Except.error err => (some err, tr1 ++ [RAction.update policy1])
      | Except.ok _ => (none, tr1 ++ [RAction.update policy1])
  else (none, tr)

/-- The value `changed` of line 130:
`p == nil || p.Name != policy.Name || p.Policy != *policy.Spec.Policy`. -/
def changed (p : Option vault.Policy) (policy : v1beta1.Policy) : Bool :=
  match p with
  | none => true
  | some p => p.Name != policy.ObjectMeta.Name || p.Policy != policy.Spec.Policy

/-- Lines 120 to 149 of `Reconcile`: create or update. -/
def createOrUpdate (r : PolicyReconciler) (policy : v1beta1.Policy)
    (tr : List (RAction v1beta1.Policy)) : Option KErr × List (RAction v1beta1.Policy) :=
  match fetchVaultPolicy r policy tr with
  | ((_, some err), tr1) =>
    let policy1 := withCondition policy ConditionFalse "FailedToFetch"
      "Failed to fetch policy from Vault"
    match r.Client.StatusUpdate tr1 policy1 with
    | Except.error err2 => (some err2, tr1 ++ [RAction.statusUpdate policy1])
    | Except.ok _ => (some err, tr1 ++ [RAction.statusUpdate policy1])
  | ((p, none), tr1) =>
    if changed p policy then
      match updateVaultPolicy r policy tr1 with
      | (some err, tr2) =>
        let policy1 := withCondition policy ConditionFalse "FailedToUpdate"
          "Failed to push policy to Vault"
        match r.Client.StatusUpdate tr2 policy1 with
        | Except.error err2 => (some err2, tr2 ++ [RAction.statusUpdate policy1])
        | Except.ok _ => (some err, tr2 ++ [RAction.statusUpdate policy1])
      | (none, tr2) =>
        let policy1 := withCondition policy ConditionTrue "Configured"
          "Successfully pushed policy to Vault"
        match r.Client.StatusUpdate tr2 policy1 with
        | Except.error err2 => (some err2, tr2 ++ [RAction.statusUpdate policy1])
        | Except.ok _ => (none, tr2 ++ [RAction.statusUpdate policy1])
    else (none, tr1)

/-- The method `PolicyReconciler.Reconcile`: the error it returns and the trace after it. -/
def Reconcile (r : PolicyReconciler) (req : NamespacedName)
    (tr : List (RAction v1beta1.Policy)) : Option KErr × List (RAction v1beta1.Policy) :=
  match r.Client.Get tr req with
  | Except.error err =>
    if err.notFound then (none, tr ++ [RAction.get req])
    else (some err, tr ++ [RAction.get req])
  | Except.ok policy0 =>
    match initStatus r req policy0 (tr ++ [RAction.get req]) with
    | (Except.error err, tr1) => (some err, tr1)
    | (Except.ok policy1, tr1) =>
      if Time.IsZero policy1.ObjectMeta.DeletionTimestamp then
        match ensureFinalizer r req policy1 tr1 with
        | (Except.error err, tr2) => (some err, tr2)
        | (Except.ok policy, tr2) => createOrUpdate r policy tr2
      else finalize r policy1 tr1

end PolicyReconciler

/-! ### The Auth reconciler (`auth_controller.go`) -/

namespace v1beta1

/-- The struct `AuthSpec` of `api/sys/v1beta1`; the two `*string` fields, which the
reconciler dereferences, by their values. -/
structure AuthSpec where
  Description : String
  Type_ : String
deriving DecidableEq, Repr

/-- The struct `AuthStatus`.  The declaration in `auth_types.go` has only `Conditions`;
the field `Accessor`, a string that `Reconcile` reads and writes as
`auth.Status.Accessor`, is taken from that use, as `TokenStatus` declares it. -/
structure AuthStatus where
  Conditions : List Condition
  Accessor : String
deriving DecidableEq, Repr

/-- The struct `Auth` of `api/sys/v1beta1`. -/
structure Auth where
  ObjectMeta : VaultOperator.ObjectMeta
  Spec : AuthSpec
  Status : AuthStatus
deriving DecidableEq, Repr

end v1beta1

/-- The type `AuthReconciler`. -/
abbrev AuthReconciler := Reconciler v1beta1.Auth

namespace AuthReconciler

/-- The constant `authFinalizer`. -/
def authFinalizer : String := "auth.sys.toolkit.vault.hopopops.com/finalizer"

/-- The constant `typeConfiguredAuth`. -/
def typeConfiguredAuth : String := "Configured"

/-- The method `deleteVaultAuth`. -/
def deleteVaultAuth (r : AuthReconciler) (auth : v1beta1.Auth)
    (tr : List (RAction v1beta1.Auth)) : Option KErr × List (RAction v1beta1.Auth) :=
  (r.Vault.DisableAuthWithContext tr auth.ObjectMeta.Name,
    tr ++ [RAction.vault (VaultCall.disableAuth auth.ObjectMeta.Name)])

/-- The method `createVaultAuth`. -/
def createVaultAuth (r : AuthReconciler) (auth : v1beta1.Auth)
    (tr : List (RAction v1beta1.Auth)) : Option KErr × List (RAction v1beta1.Auth) :=
  (r.Vault.EnableAuthWithOptionsWithContext tr auth.ObjectMeta.Name
      { Type_ := auth.Spec.Type_, Description := auth.Spec.Description },
    tr ++ [RAction.vault (VaultCall.enableAuth auth.ObjectMeta.Name
      { Type_ := auth.Spec.Type_, Description := auth.Spec.Description })])

/-- The auth object with the condition `Configured` set as given. -/
def withCondition (auth : v1beta1.Auth) (status reason message : String) : v1beta1.Auth :=
  { auth with
    Status :=
      { auth.Status with
        Conditions := SetStatusCondition auth.Status.Conditions
          { Type_ := typeConfiguredAuth, Status := status, Reason := reason,
            Message := message } } }

/-- Lines 79 to 90 of `Reconcile`: the first status of an object without conditions. -/
def initStatus (r : AuthReconciler) (req : NamespacedName) (auth : v1beta1.Auth)
    (tr : List (RAction v1beta1.Auth)) :
    Except KErr v1beta1.Auth × List (RAction v1beta1.Auth) :=
  if auth.Status.Conditions.length = 0 then
    let auth1 := withCondition auth ConditionUnknown "Reconciling" "Starting reconciliation"
    let tr1 := tr ++ [RAction.statusUpdate auth1]
    match r.Client.StatusUpdate tr auth1 with
    | Except.error err => (Except.error err, tr1)
    | Except.ok _ =>
      match r.Client.Get tr1 req with
      | Except.error err => (Except.error err, tr1 ++ [RAction.get req])
      | Except.ok auth2 => (Except.ok auth2, tr1 ++ [RAction.get req])
  else (Except.ok auth, tr)

/-- Lines 93 to 105 of `Reconcile`, for an object that is not being deleted. -/
def ensureFinalizer (r : AuthReconciler) (req : NamespacedName) (auth : v1beta1.Auth)
    (tr : List (RAction v1beta1.Auth)) :
    Except KErr v1beta1.Auth × List (RAction v1beta1.Auth) :=
  if !ContainsFinalizer auth.ObjectMeta authFinalizer then
    let auth1 := { auth with ObjectMeta := AddFinalizer auth.ObjectMeta authFinalizer }
    let tr1 := tr ++ [RAction.update auth1]
    match r.Client.Update tr auth1 with
    | Except.error err => (Except.error err, tr1)
    | Except.ok _ =>
      match r.Client.Get tr1 req with
      | Except.error err => (Except.error err, tr1 ++ [RAction.get req])
      | Except.ok auth2 => (Except.ok auth2, tr1 ++ [RAction.get req])
  else (Except.ok auth, tr)

/-- Lines 107 to 121 of `Reconcile`, for an object that is being deleted. -/
def finalize (r : AuthReconciler) (auth : v1beta1.Auth)
    (tr : List (RAction v1beta1.Auth)) : Option KErr × List (RAction v1beta1.Auth) :=
  if ContainsFinalizer auth.ObjectMeta authFinalizer then
    match deleteVaultAuth r auth tr with
    | (some err, tr1) => (some err, tr1)
    | (none, tr1) =>
      let auth1 := { auth with ObjectMeta := RemoveFinalizer auth.ObjectMeta authFinalizer }
      match r.Client.Update tr1 auth1 with
      | Except.error err => (some err, tr1 ++ [RAction.update auth1])
      | Except.ok _ => (none, tr1 ++ [RAction.update auth1])
  else (none, tr)

/-- Lines 124 to 152 of `Reconcile`: create, never update. -/
def create (r : AuthReconciler) (auth : v1beta1.Auth)
    (tr : List (RAction v1beta1.Auth)) : Option KErr × List (RAction v1beta1.Auth) :=
  if auth.Status.Accessor = "" then
    match createVaultAuth r auth tr with
    | (some err, tr1) =>
      let auth1 := withCondition auth ConditionFalse "FailedToCreate"
        "Failed to create auth engine in Vault"
      match r.Client.StatusUpdate tr1 auth1 with
      | Except.error err2 => (some err2, tr1 ++ [RAction.statusUpdate auth1])
      | Except.ok _ => (some err, tr1 ++ [RAction.statusUpdate auth1])
    | (none, tr1) =>
      let tr2 := tr1 ++ [RAction.vault (VaultCall.getAuth auth.ObjectMeta.Name)]
      match r.Vault.GetAuthWithContext tr1 auth.ObjectMeta.Name with
      | Except.error err => (some err, tr2)
      | Except.ok ae =>
        let auth1 := withCondition
          { auth with Status := { auth.Status with Accessor := ae.Accessor } }
          ConditionTrue "Configured" "Successfully created auth engine in Vault"
        match r.Client.StatusUpdate tr2 auth1 with
        | Except.error err2 => (some err2, tr2 ++ [RAction.statusUpdate auth1])
        | Except.ok _ => (none, tr2 ++ [RAction.statusUpdate auth1])
  else (none, tr)

/-- The method `AuthReconciler.Reconcile`: the error it returns and the trace after it. -/
def Reconcile (r : AuthReconciler) (req : NamespacedName)
    (tr : List (RAction v1beta1.Auth)) : Option KErr × List (RAction v1beta1.Auth) :=
  match r.Client.Get tr req with
  | Except.error err =>
    if err.notFound then (none, tr ++ [RAction.get req])
    else (some err, tr ++ [RAction.get req])
  | Except.ok auth0 =>
    match initStatus r req auth0 (tr ++ [RAction.get req]) with
    | (Except.error err, tr1) => (some err, tr1)
    | (Except.ok auth1, tr1) =>
      if Time.IsZero auth1.ObjectMeta.DeletionTimestamp then
        match ensureFinalizer r req auth1 tr1 with
        | (Except.error err, tr2) => (some err, tr2)
        | (Except.ok auth, tr2) => create r auth tr2
      else finalize r auth1 tr1

end AuthReconciler

/-! ### The Token reconciler (`token_controller.go`) -/

namespace v1beta1

/-- The struct `TokenTarget`. -/
structure TokenTarget where
  Name : String
  DeletionPolicy : String
deriving DecidableEq, Repr

/-- The struct `TokenSpec`.  A nil slice or map is `none`. -/
structure TokenSpec where
  Target : TokenTarget
  RoleName : String
  Policies : Option (List String)
  Meta : Option (List (String × String))
  NoParent : Bool
  NoDefaultPolicy : Bool
  Renewable : Bool
  TTL : String
  Type_ : String
  ExplicitMaxTTL : String
  NumUses : Int
  Period : String
  EntityAlias : String
deriving DecidableEq, Repr

/-- The struct `TokenStatus`. -/
structure TokenStatus where
  Conditions : List Condition
  Accessor : String
deriving DecidableEq, Repr

/-- The struct `Token` of `api/auth/v1beta1`. -/
structure Token where
  ObjectMeta : VaultOperator.ObjectMeta
  Spec : TokenSpec
  Status : TokenStatus
deriving DecidableEq, Repr

end v1beta1

/-- The type `TokenReconciler`. -/
abbrev TokenReconciler := Reconciler v1beta1.Token

namespace TokenReconciler

/-- The constant `tokenFinalizer`. -/
def tokenFinalizer : String := "token.auth.toolkit.vault.hopopops.com/finalizer"

/-- The constant `typeConfiguredToken`. -/
def typeConfiguredToken : String := "Configured"

/-- The error `fmt.Errorf(msg + ": %w", err)`. -/
def wrap (msg : String) (err : KErr) : KErr :=
  { message := msg ++ ": " ++ err.message, notFound := err.notFound }

/-- The key of the target Secret of a token. -/
def targetKey (token : v1beta1.Token) : NamespacedName :=
  { Name := token.Spec.Target.Name, Namespace := token.ObjectMeta.Namespace }

/-- The method `deleteK8sSecret`: a Secret that is not found, or that the token does not
own, is left alone and is no error. -/
def deleteK8sSecret (r : TokenReconciler) (token : v1beta1.Token)
    (tr : List (RAction v1beta1.Token)) : Option KErr × List (RAction v1beta1.Token) :=
  let tr1 := tr ++ [RAction.getSecret (targetKey token)]
  match r.Client.GetSecret tr (targetKey token) with
  | Except.error err =>
    if err.notFound then (none, tr1) else (some (wrap "failed to get secret" err), tr1)
  | Except.ok secret =>
    if secret.OwnerReferences.any (fun uid => uid == token.ObjectMeta.UID) then
      match r.Client.DeleteSecret tr1 secret with
      | some err =>
        (some (wrap "failed to delete secret" err), tr1 ++ [RAction.deleteSecret secret])
      | none => (none, tr1 ++ [RAction.deleteSecret secret])
    else (none, tr1)

/-- The error `apierrors.NewAlreadyExists(corev1.Resource("secrets"), name)`. -/
def alreadyExists (name : String) : KErr :=
  { message := "secrets \"" ++ name ++ "\" already exists", notFound := false }

/-- The method `createK8sSecret`. -/
def createK8sSecret (r : TokenReconciler) (token : v1beta1.Token) (data : String)
    (tr : List (RAction v1beta1.Token)) : Option KErr × List (RAction v1beta1.Token) :=
  match r.SetControllerReference token
      { Name := token.Spec.Target.Name, Namespace := token.ObjectMeta.Namespace,
        OwnerReferences := [], Data := data } with
  | Except.error err => (some (wrap "failed to set controller reference" err), tr)
  | Except.ok secret =>
    let key : NamespacedName := { Name := secret.Name, Namespace := secret.Namespace }
    let tr1 := tr ++ [RAction.getSecret key]
    match r.Client.GetSecret tr key with
    | Except.error err =>
      if err.notFound then
        (r.Client.CreateSecret tr1 secret, tr1 ++ [RAction.createSecret secret])
      else (some err, tr1)
    | Except.ok _ => (some (alreadyExists secret.Name), tr1)

/-- The token with the condition `Configured` set as given. -/
def withCondition (token : v1beta1.Token) (status reason message : String) : v1beta1.Token :=
  { token with
    Status :=
      { token.Status with
        Conditions := SetStatusCondition token.Status.Conditions
          { Type_ := typeConfiguredToken, Status := status, Reason := reason,
            Message := message } } }

/-- Lines 87 to 97 of `Reconcile`: with the deletion policy `Delete` the Secret is deleted
and then the accessor revoked; the result is the error on which `Reconcile` returns. -/
def cleanup (r : TokenReconciler) (token : v1beta1.Token)
    (tr : List (RAction v1beta1.Token)) : Option KErr × List (RAction v1beta1.Token) :=
  if token.Spec.Target.DeletionPolicy = "Delete" then
    match deleteK8sSecret r token tr with
    | (some err, tr1) => (some err, tr1)
    | (none, tr1) =>
      (r.Vault.RevokeAccessorWithContext tr1 token.Status.Accessor,
        tr1 ++ [RAction.vault (VaultCall.revokeAccessor token.Status.Accessor)])
  else (none, tr)

/-- Lines 86 to 105 of `Reconcile`, for a token that is marked to be deleted. -/
def finalize (r : TokenReconciler) (token : v1beta1.Token)
    (tr : List (RAction v1beta1.Token)) : Option KErr × List (RAction v1beta1.Token) :=
  if ContainsFinalizer token.ObjectMeta tokenFinalizer then
    match cleanup r token tr with
    | (some err, tr1) => (some err, tr1)
    | (none, tr1) =>
      let token1 :=
        { token with ObjectMeta := RemoveFinalizer token.ObjectMeta tokenFinalizer }
      match r.Client.Update tr1 token1 with
      | Except.error err => (some err, tr1 ++ [RAction.update token1])
      | Except.ok _ => (none, tr1 ++ [RAction.update token1])
  else (none, tr)

/-- Lines 109 to 116 of `Reconcile`: a token without the finalizer gets it, with the
condition `Unknown`, and is updated; `Reconcile` goes on with the token as stored. -/
def addFinalizer (r : TokenReconciler) (token : v1beta1.Token)
    (tr : List (RAction v1beta1.Token)) :
    Except KErr v1beta1.Token × List (RAction v1beta1.Token) :=
  if !ContainsFinalizer token.ObjectMeta tokenFinalizer then
    let token1 := withCondition
      { token with ObjectMeta := AddFinalizer token.ObjectMeta tokenFinalizer }
      ConditionUnknown "Reconciling" "Starting reconciliation"
    match r.Client.Update tr token1 with
    | Except.error err => (Except.error err, tr ++ [RAction.update token1])
    | Except.ok token2 => (Except.ok token2, tr ++ [RAction.update token1])
  else (Except.ok token, tr)

/-- The request of line 119. -/
def createRequest (token : v1beta1.Token) : TokenCreateRequest :=
  { Policies := token.Spec.Policies,
    Metadata := token.Spec.Meta,
    TTL := token.Spec.TTL,
    ExplicitMaxTTL := token.Spec.ExplicitMaxTTL,
    Period := token.Spec.Period,
    NoParent := token.Spec.NoParent,
    NoDefaultPolicy := token.Spec.NoDefaultPolicy,
    DisplayName := token.ObjectMeta.Namespace ++ "/" ++ token.ObjectMeta.Name,
    NumUses := token.Spec.NumUses,
    Renewable := token.Spec.Renewable,
    Type_ := token.Spec.Type_,
    EntityAlias := token.Spec.EntityAlias }

/-- Lines 118 to 159 of `Reconcile`: a token without accessor is created in Vault and
stored in its Secret. -/
def create (r : TokenReconciler) (token : v1beta1.Token)
    (tr : List (RAction v1beta1.Token)) : Option KErr × List (RAction v1beta1.Token) :=
  if token.Status.Accessor = "" then
    let tr1 := tr ++ [RAction.vault (VaultCall.createToken (createRequest token))]
    match r.Vault.TokenCreate tr (createRequest token) with
    | Except.error err =>
      let token1 := withCondition token ConditionFalse "FailedToCreate"
        "Failed to create token engine in Vault"
      match r.Client.StatusUpdate tr1 token1 with
      | Except.error err2 => (some err2, tr1 ++ [RAction.statusUpdate token1])
      | Except.ok _ => (some err, tr1 ++ [RAction.statusUpdate token1])
    | Except.ok t =>
      match createK8sSecret r token t.ClientToken tr1 with
      | (some err, tr2) =>
        let token1 := withCondition token ConditionFalse "FailedToCreate"
          ("Failed to create k8s secret " ++ token.Spec.Target.Name)
        match r.Client.StatusUpdate tr2 token1 with
        | Except.error err2 => (some err2, tr2 ++ [RAction.statusUpdate token1])
        | Except.ok _ => (some err, tr2 ++ [RAction.statusUpdate token1])
      | (none, tr2) =>
        let token1 := withCondition
          { token with Status := { token.Status with Accessor := t.Accessor } }
          ConditionTrue "Configured" "Successfully created token engine in Vault"
        match r.Client.StatusUpdate tr2 token1 with
        | Except.error err2 => (some err2, tr2 ++ [RAction.statusUpdate token1])
        | Except.ok _ => (none, tr2 ++ [RAction.statusUpdate token1])
  else (none, tr)

/-- The method `TokenReconciler.Reconcile`: the error it returns and the trace after it.
A token is marked to be deleted when its deletion time stamp is not nil. -/
def Reconcile (r : TokenReconciler) (req : NamespacedName)
    (tr : List (RAction v1beta1.Token)) : Option KErr × List (RAction v1beta1.Token) :=
  match r.Client.Get tr req with
  | Except.error err =>
    if err.notFound then (none, tr ++ [RAction.get req])
    else (some err, tr ++ [RAction.get req])
  | Except.ok token0 =>
    if token0.ObjectMeta.DeletionTimestamp ≠ none then
      finalize r token0 (tr ++ [RAction.get req])
    else
      match addFinalizer r token0 (tr ++ [RAction.get req]) with
      | (Except.error err, tr1) => (some err, tr1)
      | (Except.ok token, tr1) => create r token tr1

end TokenReconciler

/-- The status of the first condition of the given type, if there is one. -/
def conditionStatus (conditions : List Condition) (conditionType : String) : Option String :=
  (conditions.find? (fun c => c.Type_ == conditionType)).map (fun c => c.Status)

/-- The struct literal of lines 187 to 201 of `updateVaultKubernetesRole`: the
`vault.KubernetesRole` that the method builds from the spec of the role and encodes. -/
def KubernetesRoleReconciler.builtRole (spec : v1beta1.KubernetesRoleSpec) :
    vault.KubernetesRole :=
  { BoundServiceAccountNames := spec.BoundServiceAccountNames,
    BoundServiceAccountNamespaces := spec.BoundServiceAccountNamespaces,
    Audience := spec.Audience,
    AliasNameSource := spec.AliasNameSource,
    TokenTTL := spec.TokenTTL,
    TokenMaxTTL := spec.TokenMaxTTL,
    TokenPolicies := spec.TokenPolicies,
    TokenBoundCIDRs := spec.TokenBoundCIDRs,
    TokenExplicitMaxTTL := spec.TokenExplicitMaxTTL,
    TokenNoDefaultPolicy := spec.TokenNoDefaultPolicy,
    TokenNumUses := spec.TokenNumUses,
    TokenPeriod := spec.TokenPeriod,
    TokenType := spec.TokenType }

/-- A client for the address `vault:8200`. -/
def demoClient : Client := { Address := "vault:8200" }

/-- Parameters of a client for `vault:8200`. -/
def demoParameters : Parameters :=
  { Address := "vault:8200", AuthPath := "kubernetes", Role := "operator",
    TokenPath := "/var/run/secrets/kubernetes.io/serviceaccount/token" }

/-- A `Vault` value for `demoParameters`. -/
def demoVault : Vault := { Client := demoClient, parameters := demoParameters }

/-- The secret the `n`-th successful login of the concrete environments returns. -/
def demoSecret (n : Nat) : Secret := { ClientToken := "token", LeaseDuration := 3600 + n }

/-- An environment where every library call succeeds and every watcher reports two
renewals and then a nil terminal value on its done channel. -/
def demoEnv : Env where
  NewClient := fun a => Except.ok { Address := a }
  NewKubernetesAuth := fun _ r t m => Except.ok { roleName := r, tokenPath := t, mountPath := m }
  AuthLogin := fun n _ _ => (some (demoSecret n), none)
  NewLifetimeWatcher := fun _ _ _ => none
  events := fun _ => [Event.renewCh 3600, Event.renewCh 3600, Event.doneCh none]

/-- An environment where the first watcher reports a renewal and then nil on its done
channel, every login succeeds, and every later watcher sees a renewal, then the
cancellation, then events that are never received. -/
def cancelEnv : Env where
  NewClient := fun a => Except.ok { Address := a }
  NewKubernetesAuth := fun _ r t m => Except.ok { roleName := r, tokenPath := t, mountPath := m }
  AuthLogin := fun n _ _ => (some (demoSecret n), none)
  NewLifetimeWatcher := fun _ _ _ => none
  events := fun w =>
    if w = 0 then [Event.renewCh 3600, Event.doneCh none]
    else [Event.renewCh 3600, Event.ctxDone, Event.renewCh 1800, Event.doneCh none]

/-- An environment where the renewal of the first token fails: the done channel of the
watcher delivers a non-nil error. -/
def failedRenewalEnv : Env where
  NewClient := fun a => Except.ok { Address := a }
  NewKubernetesAuth := fun _ r t m => Except.ok { roleName := r, tokenPath := t, mountPath := m }
  AuthLogin := fun n _ _ => (some (demoSecret n), none)
  NewLifetimeWatcher := fun _ _ _ => none
  events := fun _ => [Event.doneCh (some "renewal failed")]

/-- An environment where every watcher reports nil on its done channel at once, and the
backend refuses the first three logins and accepts the fourth. -/
def flakyLoginEnv : Env where
  NewClient := fun a => Except.ok { Address := a }
  NewKubernetesAuth := fun _ r t m => Except.ok { roleName := r, tokenPath := t, mountPath := m }
  AuthLogin := fun n _ _ =>
    if n < 3 then (none, some "connection refused") else (some (demoSecret n), none)
  NewLifetimeWatcher := fun _ _ _ => none
  events := fun _ => [Event.doneCh none]

/-- An environment where no lifetime watcher can be built. -/
def noWatcherEnv : Env where
  NewClient := fun a => Except.ok { Address := a }
  NewKubernetesAuth := fun _ r t m => Except.ok { roleName := r, tokenPath := t, mountPath := m }
  AuthLogin := fun n _ _ => (some (demoSecret n), none)
  NewLifetimeWatcher := fun _ _ _ => some "missing secret"
  events := fun _ => [Event.doneCh none]

/-- The world of `demoEnv` after `k` passes of the loop started in `World.init` on a nil
token. -/
def demoCycles (k : Nat) : World :=
  (PeriodicallyRenewLeases demoEnv k demoVault none World.init).2

/-! ### Concrete reconcilers -/

/-- Answers of `encoding/json` for the concrete reconcilers: every secret decodes to the
remote role given. -/
def demoJson (remote : vault.KubernetesRole) : Json where
  MarshalData := fun d => Except.ok d.json
  UnmarshalRole := fun _ => Except.ok remote
  MarshalRole := fun _ => Except.ok "role"
  UnmarshalMap := fun b => Except.ok { json := b }
  encode_ok := fun _ => ⟨"role", { json := "role" }, rfl, rfl⟩

/-- A Kubernetes client that returns `obj` on every `Get`, stores what it is sent, and
knows no Secret. -/
def demoKube {α : Type} (obj : α) : KubeClient α where
  Get := fun _ _ => Except.ok obj
  Update := fun _ o => Except.ok o
  StatusUpdate := fun _ o => Except.ok o
  GetSecret := fun _ _ => Except.error { message := "not found", notFound := true }
  DeleteSecret := fun _ _ => none
  CreateSecret := fun _ _ => none

/-- A Vault where every call succeeds: the role read is there, the policy has the given
content. -/
def demoVaultApi (α : Type) (content : String) : VaultApi α where
  ReadWithContext := fun _ _ => (some { json := "role" }, none)
  WriteWithContext := fun _ _ _ => none
  DeleteWithContext := fun _ _ => none
  GetPolicyWithContext := fun _ _ => (content, none)
  PutPolicyWithContext := fun _ _ _ => none
  DeletePolicyWithContext := fun _ _ => none
  EnableAuthWithOptionsWithContext := fun _ _ _ => none
  GetAuthWithContext := fun _ _ => Except.ok { Accessor := "auth_kubernetes_1" }
  DisableAuthWithContext := fun _ _ => none
  TokenCreate := fun _ _ => Except.ok { ClientToken := "hvs.token", Accessor := "accessor-1" }
  RevokeAccessorWithContext := fun _ _ => none

/-- An error of Vault or of the API server. -/
def demoErr (message : String) : KErr := { message := message, notFound := false }

/-- A reconciler whose cluster holds `obj`, whose Vault holds the remote role `remote` and
a policy with the given content, and where every call succeeds. -/
def demoReconciler {α : Type} (obj : α) (remote : vault.KubernetesRole) (content : String) :
    Reconciler α where
  Client := demoKube obj
  Vault := demoVaultApi α content
  json := demoJson remote
  SetControllerReference := fun _ s => Except.ok s

/-- The request for the object `demo` of the namespace `default`. -/
def demoReq : NamespacedName := { Namespace := "default", Name := "demo" }

/-- A role spec. -/
def demoRoleSpec : v1beta1.KubernetesRoleSpec :=
  { BoundServiceAccountNames := some ["operator"],
    BoundServiceAccountNamespaces := some ["default"],
    Audience := "vault", AliasNameSource := "serviceaccount_uid",
    TokenTTL := 3600, TokenMaxTTL := 7200,
    TokenPolicies := some ["read"], TokenBoundCIDRs := none,
    TokenExplicitMaxTTL := 0, TokenNoDefaultPolicy := false,
    TokenNumUses := 0, TokenPeriod := 0, TokenType := "service",
    AuthPath := "kubernetes" }

/-- The remote role that equals `demoRoleSpec`. -/
def demoRemoteRole : vault.KubernetesRole :=
  { BoundServiceAccountNames := some ["operator"],
    BoundServiceAccountNamespaces := some ["default"],
    Audience := "vault", AliasNameSource := "serviceaccount_uid",
    TokenTTL := 3600, TokenMaxTTL := 7200,
    TokenPolicies := some ["read"], TokenBoundCIDRs := none,
    TokenExplicitMaxTTL := 0, TokenNoDefaultPolicy := false,
    TokenNumUses := 0, TokenPeriod := 0, TokenType := "service" }

/-- Object metadata: the deletion time stamp and the finalizers are given. -/
def demoMeta (deletion : Option Nat) (finalizers : List String) : ObjectMeta :=
  { Name := "demo", Namespace := "default", UID := "uid-1",
    DeletionTimestamp := deletion, Finalizers := finalizers }

/-- The condition `Configured` with the status `True`. -/
def demoConfigured : Condition :=
  { Type_ := "Configured", Status := "True", Reason := "Configured", Message := "done" }

/-- A role object that is not being deleted, carries the finalizer, and has the given
conditions. -/
def demoRole (conditions : List Condition) : v1beta1.KubernetesRole :=
  { ObjectMeta := demoMeta none [KubernetesRoleReconciler.roleFinalizer],
    Spec := demoRoleSpec, Status := { Conditions := conditions } }

/-- A policy object that is not being deleted, carries the finalizer, has been configured
before, and asks for the given policy text. -/
def demoPolicy (text : String) : v1beta1.Policy :=
  { ObjectMeta := demoMeta none [PolicyReconciler.policyFinalizer],
    Spec := { Policy := text }, Status := { Conditions := [demoConfigured] } }

/-- An auth object that is not being deleted, carries the finalizer, and has the given
accessor and conditions. -/
def demoAuth (accessor : String) (conditions : List Condition) : v1beta1.Auth :=
  { ObjectMeta := demoMeta none [AuthReconciler.authFinalizer],
    Spec := { Description := "kubernetes auth", Type_ := "kubernetes" },
    Status := { Conditions := conditions, Accessor := accessor } }

/-- A reconciler whose cluster holds `obj` and whose Vault refuses to enable an auth
engine; the API server refuses status updates when `statusFails`. -/
def refusingAuthReconciler (obj : v1beta1.Auth) (statusFails : Bool) : AuthReconciler where
  Client :=
    { demoKube obj with
      StatusUpdate := fun _ o =>
        if statusFails then Except.error (demoErr "conflict") else Except.ok o }
  Vault :=
    { demoVaultApi v1beta1.Auth "" with
      EnableAuthWithOptionsWithContext := fun _ _ _ => some (demoErr "permission denied") }
  json := demoJson demoRemoteRole
  SetControllerReference := fun _ s => Except.ok s

/-- A token object that is being deleted, carries the finalizer, has an accessor recorded
and asks for the given deletion policy of its target Secret `demo-token`. -/
def demoToken (policy : String) : v1beta1.Token :=
  { ObjectMeta := demoMeta (some 5) [TokenReconciler.tokenFinalizer],
    Spec :=
      { Target := { Name := "demo-token", DeletionPolicy := policy },
        RoleName := "", Policies := some ["read"], Meta := none, NoParent := false,
        NoDefaultPolicy := false, Renewable := true, TTL := "1h", Type_ := "service",
        ExplicitMaxTTL := "", NumUses := 0, Period := "", EntityAlias := "" },
    Status := { Conditions := [demoConfigured], Accessor := "accessor-1" } }

/-- The target Secret of `demoToken`, with the given owners. -/
def demoTargetSecret (owners : List String) : K8sSecret :=
  { Name := "demo-token", Namespace := "default", OwnerReferences := owners,
    Data := "hvs.token" }

/-- A reconciler whose cluster holds the token `obj` and the Secret `secret`, and where
every call succeeds. -/
def secretReconciler (obj : v1beta1.Token) (secret : K8sSecret) : TokenReconciler where
  Client := { demoKube obj with GetSecret := fun _ _ => Except.ok secret }
  Vault := demoVaultApi v1beta1.Token ""
  json := demoJson demoRemoteRole
  SetControllerReference := fun _ s => Except.ok s

/-- A role object that is being deleted and carries the finalizer. -/
def demoDeletedRole : v1beta1.KubernetesRole :=
  { ObjectMeta := demoMeta (some 5) [KubernetesRoleReconciler.roleFinalizer],
    Spec := demoRoleSpec, Status := { Conditions := [demoConfigured] } }

/-- A role object that is not being deleted and has the given finalizers. -/
def demoNewRole (finalizers : List String) : v1beta1.KubernetesRole :=
  { ObjectMeta := demoMeta none finalizers,
    Spec := demoRoleSpec, Status := { Conditions := [demoConfigured] } }

/-- A reconciler whose cluster holds `obj` and whose API server refuses every update of
the object. -/
def readOnlyReconciler {α : Type} (obj : α) : Reconciler α where
  Client := { demoKube obj with Update := fun _ _ => Except.error (demoErr "forbidden") }
  Vault := demoVaultApi α ""
  json := demoJson demoRemoteRole
  SetControllerReference := fun _ s => Except.ok s

/-- A token object that is not being deleted, with the given finalizers and accessor. -/
def demoLiveToken (finalizers : List String) (accessor : String) : v1beta1.Token :=
  { ObjectMeta := demoMeta none finalizers,
    Spec :=
      { Target := { Name := "demo-token", DeletionPolicy := "Retain" },
        RoleName := "", Policies := some ["read"], Meta := none, NoParent := false,
        NoDefaultPolicy := false, Renewable := true, TTL := "1h", Type_ := "service",
        ExplicitMaxTTL := "", NumUses := 0, Period := "", EntityAlias := "" },
    Status := { Conditions := [demoConfigured], Accessor := accessor } }

/-- A reconciler whose cluster holds the token `obj` and already holds a Secret with the
name of its target; Vault creates tokens, and the API server refuses status updates when
`statusFails`. -/
def occupiedReconciler (obj : v1beta1.Token) (statusFails : Bool) : TokenReconciler where
  Client :=
    { demoKube obj with
      GetSecret := fun _ _ => Except.ok (demoTargetSecret ["uid-2"])
      StatusUpdate := fun _ o =>
        if statusFails then Except.error (demoErr "conflict") else Except.ok o }
  Vault := demoVaultApi v1beta1.Token ""
  json := demoJson demoRemoteRole
  SetControllerReference := fun _ s => Except.ok s

/-- An environment that answers a nil secret as the library does, `NewLifetimeWatcher`
refuses it, and where the renewal of every token fails: the done channel of each watcher
delivers a non-nil error. -/
def rejectedRenewalEnv : Env where
  NewClient := fun a => Except.ok { Address := a }
  NewKubernetesAuth := fun _ r t m => Except.ok { roleName := r, tokenPath := t, mountPath := m }
  AuthLogin := fun n _ _ => (some (demoSecret n), none)
  NewLifetimeWatcher := fun _ _ tok =>
    match tok with
    | none => some "missing secret"
    | some _ => none
  events := fun _ => [Event.doneCh (some "renewal failed")]

/-- A secret whose token the backend does not renew. -/
def staleSecret : Secret := { ClientToken := "", LeaseDuration := 0 }

/-! ## Lemmas -/

/-- The `select` loop passes over renewal notifications, recording each. -/
theorem selectLoop_renewals (w : Nat) (ds : List Int) (rest : List Event) (st : World) :
    selectLoop w (ds.map Event.renewCh ++ rest) st =
      selectLoop w rest
        { st with trace := st.trace ++ (ds.map Event.renewCh).map (Action.recv w) } := by
  induction ds generalizing st with
  | nil => simp
  | cons d ds ih =>
    simp only [List.map_cons, List.cons_append, selectLoop, List.append_eq]
    rw [ih]
    simp [World.record]

/-- What the `select` loop does on any list of events: it receives some renewals and then
blocks, or receives the cancellation, or receives the value of the done channel. -/
theorem selectLoop_shape (w : Nat) (evs : List Event) (st : World) :
    ∃ ds : List Int,
      (selectLoop w evs st =
        (none, { st with trace := st.trace ++ (ds.map Event.renewCh).map (Action.recv w) })) ∨
      (selectLoop w evs st =
        (some (exitRequested, none),
          { st with trace := st.trace ++
            (ds.map Event.renewCh ++ [Event.ctxDone]).map (Action.recv w) })) ∨
      (∃ e, selectLoop w evs st =
        (some (expiringAuthToken, e),
          { st with trace := st.trace ++
            (ds.map Event.renewCh ++ [Event.doneCh e]).map (Action.recv w) })) := by
  induction evs generalizing st with
  | nil => exact ⟨[], Or.inl (by simp [selectLoop])⟩
  | cons ev evs ih =>
    cases ev with
    | ctxDone => exact ⟨[], Or.inr (Or.inl (by simp [selectLoop, World.record]))⟩
    | doneCh e => exact ⟨[], Or.inr (Or.inr ⟨e, by simp [selectLoop, World.record]⟩)⟩
    | renewCh d =>
      obtain ⟨ds, h⟩ := ih (st.record (Action.recv w (Event.renewCh d)))
      refine ⟨d :: ds, ?_⟩
      simp only [selectLoop]
      rcases h with h | h | ⟨e, h⟩
      · exact Or.inl (by rw [h]; simp [World.record])
      · exact Or.inr (Or.inl (by rw [h]; simp [World.record]))
      · exact Or.inr (Or.inr ⟨e, by rw [h]; simp [World.record]⟩)

/-- What `renewLeases` does in any state: the watcher cannot be built, or the `select`
blocks after some renewals, or the cycle ends on the cancellation, or it ends on the
value of the done channel.  In the last two cases the trace grows by a whole cycle. -/
theorem renewLeases_shape (env : Env) (v : Vault) (tok : Option Secret) (st : World) :
    (∃ e, env.NewLifetimeWatcher st.watchers v.Client tok = some e ∧
      renewLeases env v tok st =
        (some (renewError, some ("unable to initialize auth token lifetime watcher: " ++ e)),
          { logins := st.logins, watchers := st.watchers + 1,
            trace := st.trace ++ [Action.newLifetimeWatcher st.watchers tok] })) ∨
    (env.NewLifetimeWatcher st.watchers v.Client tok = none ∧ ∃ ds : List Int,
      (renewLeases env v tok st =
        (none,
          { logins := st.logins, watchers := st.watchers + 1,
            trace := st.trace ++ ([Action.newLifetimeWatcher st.watchers tok,
            Action.watcherStart st.watchers] ++
            (ds.map Event.renewCh).map (Action.recv st.watchers)) })) ∨
      (renewLeases env v tok st =
        (some (exitRequested, none),
          { logins := st.logins, watchers := st.watchers + 1,
            trace := st.trace ++
            cycleTrace st.watchers tok (ds.map Event.renewCh ++ [Event.ctxDone]) })) ∨
      (∃ e, renewLeases env v tok st =
        (some (expiringAuthToken, e),
          { logins := st.logins, watchers := st.watchers + 1,
            trace := st.trace ++
            cycleTrace st.watchers tok (ds.map Event.renewCh ++ [Event.doneCh e]) }))) := by
  cases hw : env.NewLifetimeWatcher st.watchers v.Client tok with
  | some e => exact Or.inl ⟨e, rfl, by simp [renewLeases, hw]⟩
  | none =>
    refine Or.inr ⟨rfl, ?_⟩
    obtain ⟨ds, h⟩ := selectLoop_shape st.watchers (env.events st.watchers)
      (World.record
        { logins := st.logins, watchers := st.watchers + 1,
          trace := st.trace ++ [Action.newLifetimeWatcher st.watchers tok] }
        (Action.watcherStart st.watchers))
    refine ⟨ds, ?_⟩
    simp only [renewLeases, hw]
    rcases h with h | h | ⟨e, h⟩
    · exact Or.inl (by rw [h]; simp [World.record])
    · exact Or.inr (Or.inl (by rw [h]; simp [World.record, cycleTrace]))
    · exact Or.inr (Or.inr ⟨e, by rw [h]; simp [World.record, cycleTrace]⟩)

/-- The answer of `login` depends on the world only through the number of the invocation. -/
theorem login_answer (env : Env) (v : Vault) (st : World) :
    (login env v st).1 = loginAnswer env v st.logins := by
  unfold loginAnswer login
  cases h : env.NewKubernetesAuth st.logins v.parameters.Role v.parameters.TokenPath
      v.parameters.AuthPath with
  | error e => simp [h]
  | ok a =>
    rcases h2 : env.AuthLogin st.logins v.Client a with ⟨_ | s, _ | e⟩ <;> simp [h, h2]

/-- The world after `login`: one more invocation, the trace longer by its actions. -/
theorem login_world (env : Env) (v : Vault) (st : World) :
    (login env v st).2.2 =
      { logins := st.logins + 1, watchers := st.watchers,
        trace := st.trace ++ loginTrace env v st.logins } := by
  unfold loginTrace Env.authMethod login
  cases h : env.NewKubernetesAuth st.logins v.parameters.Role v.parameters.TokenPath
      v.parameters.AuthPath with
  | error e => simp [h]
  | ok a =>
    rcases h2 : env.AuthLogin st.logins v.Client a with ⟨_ | s, _ | e⟩ <;>
      simp [h, h2, World.record]

/-- `login` hands its receiver back as it was. -/
theorem login_receiver (env : Env) (v : Vault) (st : World) : (login env v st).2.1 = v := by
  unfold login
  cases h : env.NewKubernetesAuth st.logins v.parameters.Role v.parameters.TokenPath
      v.parameters.AuthPath with
  | error e => simp [h]
  | ok a =>
    rcases h2 : env.AuthLogin st.logins v.Client a with ⟨_ | s, _ | e⟩ <;> simp [h, h2]

/-- `login` returns a nil secret exactly when it returns a non-nil error. -/
theorem login_nil_secret_iff (env : Env) (v : Vault) (st : World) :
    (login env v st).1.1 = none ↔ (login env v st).1.2 ≠ none := by
  unfold login
  cases h : env.NewKubernetesAuth st.logins v.parameters.Role v.parameters.TokenPath
      v.parameters.AuthPath with
  | error e => simp [h]
  | ok a =>
    rcases h2 : env.AuthLogin st.logins v.Client a with ⟨_ | s, _ | e⟩ <;> simp [h, h2]

/-- A pass whose cycle never returns never ends. -/
theorem loopBody_of_blocked {env : Env} {v : Vault} {cur : Option Secret} {st st1 : World}
    (h : renewLeases env v cur st = (none, st1)) :
    loopBody env v cur st = Step.halt Outcome.blocked st1 := by
  simp [loopBody, h]

/-- A pass whose cycle returns a non-nil error ends the process. -/
theorem loopBody_of_error {env : Env} {v : Vault} {cur : Option Secret} {st st1 : World}
    {r : renewResult} {e : Err} (h : renewLeases env v cur st = (some (r, some e), st1)) :
    loopBody env v cur st = Step.halt (Outcome.fatal ("renew error: " ++ e)) st1 := by
  simp [loopBody, h]

/-- A pass whose cycle returns `exitRequested` leaves the loop. -/
theorem loopBody_of_exit {env : Env} {v : Vault} {cur : Option Secret} {st st1 : World}
    (h : renewLeases env v cur st = (some (exitRequested, none), st1)) :
    loopBody env v cur st = Step.halt Outcome.returned st1 := by
  simp [loopBody, h, exitRequested]

/-- A pass whose cycle returns `expiringAuthToken` and a nil error logs in again, and
ends the process when that login fails. -/
theorem loopBody_of_expiring {env : Env} {v : Vault} {cur : Option Secret} {st st1 : World}
    (h : renewLeases env v cur st = (some (expiringAuthToken, none), st1)) :
    loopBody env v cur st =
      match loginAnswer env v st1.logins with
      | (_, some err) =>
        Step.halt (Outcome.fatal ("login authentication error: " ++ err)) (login env v st1).2.2
      | (tok, none) => Step.next v tok (login env v st1).2.2 := by
  have ha := login_answer env v st1
  have hv := login_receiver env v st1
  have h42 : (4 : Nat) &&& 2 = 0 := by decide
  rcases hl : login env v st1 with ⟨⟨tok, _ | err⟩, v1, st2⟩ <;>
    · rw [hl] at ha hv
      simp only at ha hv
      subst hv
      simp [loopBody, h, exitRequested, expiringAuthToken, hl, ← ha, h42]

/-- Every pass of the loop is of one of six kinds: the watcher cannot be built (fatal),
the `select` blocks, the cancellation is received (return), the done channel delivers
an error (fatal), or it delivers nil and the login that follows fails (fatal) or
succeeds (next pass, on the new secret). -/
theorem loopBody_cases (env : Env) (v : Vault) (cur : Option Secret) (st : World) :
    ∃ ds : List Int,
      (∃ e, env.NewLifetimeWatcher st.watchers v.Client cur = some e ∧
        renewLeases env v cur st =
          (some (renewError, some ("unable to initialize auth token lifetime watcher: " ++ e)),
            { logins := st.logins, watchers := st.watchers + 1,
              trace := st.trace ++ [Action.newLifetimeWatcher st.watchers cur] }) ∧
        loopBody env v cur st =
          Step.halt
            (Outcome.fatal
              ("renew error: " ++ ("unable to initialize auth token lifetime watcher: " ++ e)))
            { logins := st.logins, watchers := st.watchers + 1,
              trace := st.trace ++ [Action.newLifetimeWatcher st.watchers cur] }) ∨
      (env.NewLifetimeWatcher st.watchers v.Client cur = none ∧
        renewLeases env v cur st =
          (none,
            { logins := st.logins, watchers := st.watchers + 1,
              trace := st.trace ++ ([Action.newLifetimeWatcher st.watchers cur,
                Action.watcherStart st.watchers] ++
                (ds.map Event.renewCh).map (Action.recv st.watchers)) }) ∧
        loopBody env v cur st =
          Step.halt Outcome.blocked
            { logins := st.logins, watchers := st.watchers + 1,
              trace := st.trace ++ ([Action.newLifetimeWatcher st.watchers cur,
                Action.watcherStart st.watchers] ++
                (ds.map Event.renewCh).map (Action.recv st.watchers)) }) ∨
      (env.NewLifetimeWatcher st.watchers v.Client cur = none ∧
        renewLeases env v cur st =
          (some (exitRequested, none),
            afterCycle st cur (ds.map Event.renewCh ++ [Event.ctxDone])) ∧
        loopBody env v cur st =
          Step.halt Outcome.returned
            (afterCycle st cur (ds.map Event.renewCh ++ [Event.ctxDone]))) ∨
      (∃ e, env.NewLifetimeWatcher st.watchers v.Client cur = none ∧
        renewLeases env v cur st =
          (some (expiringAuthToken, some e),
            afterCycle st cur (ds.map Event.renewCh ++ [Event.doneCh (some e)])) ∧
        loopBody env v cur st =
          Step.halt (Outcome.fatal ("renew error: " ++ e))
            (afterCycle st cur (ds.map Event.renewCh ++ [Event.doneCh (some e)]))) ∨
      (∃ err, env.NewLifetimeWatcher st.watchers v.Client cur = none ∧
        renewLeases env v cur st =
          (some (expiringAuthToken, none),
            afterCycle st cur (ds.map Event.renewCh ++ [Event.doneCh none])) ∧
        loginAnswer env v st.logins = (none, some err) ∧
        loopBody env v cur st =
          Step.halt (Outcome.fatal ("login authentication error: " ++ err))
            (afterRelogin env v st cur (ds.map Event.renewCh ++ [Event.doneCh none]))) ∨
      (∃ s, env.NewLifetimeWatcher st.watchers v.Client cur = none ∧
        renewLeases env v cur st =
          (some (expiringAuthToken, none),
            afterCycle st cur (ds.map Event.renewCh ++ [Event.doneCh none])) ∧
        loginAnswer env v st.logins = (some s, none) ∧
        loopBody env v cur st =
          Step.next v (some s)
            (afterRelogin env v st cur (ds.map Event.renewCh ++ [Event.doneCh none]))) := by
  rcases renewLeases_shape env v cur st with ⟨e, hw, h⟩ | ⟨hw, ds, h | h | ⟨e, h⟩⟩
  · exact ⟨[], Or.inl ⟨e, hw, h, loopBody_of_error h⟩⟩
  · exact ⟨ds, Or.inr (Or.inl ⟨hw, h, loopBody_of_blocked h⟩)⟩
  · exact ⟨ds, Or.inr (Or.inr (Or.inl ⟨hw, h, loopBody_of_exit h⟩))⟩
  · refine ⟨ds, Or.inr (Or.inr (Or.inr ?_))⟩
    cases e with
    | some e => exact Or.inl ⟨e, hw, h, loopBody_of_error h⟩
    | none =>
      refine Or.inr ?_
      have hb := loopBody_of_expiring h
      have hlw := login_world env v
        { logins := st.logins, watchers := st.watchers + 1,
          trace := st.trace ++
            cycleTrace st.watchers cur (ds.map Event.renewCh ++ [Event.doneCh none]) }
      have hnil := login_nil_secret_iff env v
        { logins := st.logins, watchers := st.watchers + 1,
          trace := st.trace ++
            cycleTrace st.watchers cur (ds.map Event.renewCh ++ [Event.doneCh none]) }
      rw [login_answer] at hnil
      simp only at hnil
      rw [hlw] at hb
      simp only [List.append_assoc] at hb
      rcases ha : loginAnswer env v st.logins with ⟨tok, _ | err⟩
      · rw [ha] at hnil hb
        cases tok with
        | none => simp at hnil
        | some s => exact Or.inr ⟨s, hw, h, rfl, hb⟩
      · rw [ha] at hnil hb
        cases tok with
        | none => exact Or.inl ⟨err, hw, h, rfl, hb⟩
        | some s => simp at hnil

/-- The loop run for `n + m` passes is the loop run for `m` passes from the state in
which pass `n + 1` starts. -/
theorem PeriodicallyRenewLeases_of_loopState (env : Env) (n m : Nat) (v0 : Vault)
    (a0 : Option Secret) (st0 : World) (v : Vault) (cur : Option Secret) (st : World)
    (h : loopState env n v0 a0 st0 = some (v, cur, st)) :
    PeriodicallyRenewLeases env (n + m) v0 a0 st0 = PeriodicallyRenewLeases env m v cur st := by
  induction n generalizing v0 a0 st0 with
  | zero =>
    simp only [loopState, Option.some.injEq, Prod.mk.injEq] at h
    obtain ⟨rfl, rfl, rfl⟩ := h
    simp
  | succ n ih =>
    rw [Nat.add_right_comm]
    simp only [loopState, PeriodicallyRenewLeases] at h ⊢
    cases hb : loopBody env v0 a0 st0 with
    | halt o st1 => simp [hb] at h
    | next v1 cur1 st1 =>
      rw [hb] at h
      exact ih v1 cur1 st1 h

/-- One pass of the loop, run by `PeriodicallyRenewLeases` with fuel for one pass. -/
theorem PeriodicallyRenewLeases_one (env : Env) (v : Vault) (cur : Option Secret)
    (st : World) :
    (PeriodicallyRenewLeases env 1 v cur st).2 = (loopBody env v cur st).world := by
  simp only [PeriodicallyRenewLeases]
  cases loopBody env v cur st <;> simp [Step.world, PeriodicallyRenewLeases]

/-- A pass that leaves the loop ends `PeriodicallyRenewLeases`, whatever fuel is left. -/
theorem PeriodicallyRenewLeases_of_halt (env : Env) (fuel : Nat) (v : Vault)
    (cur : Option Secret) (st : World) (o : Outcome) (st1 : World)
    (h : loopBody env v cur st = Step.halt o st1) :
    PeriodicallyRenewLeases env (fuel + 1) v cur st = (o, st1) := by
  simp [PeriodicallyRenewLeases, h]

/-- A cycle contains no invocation of `login`. -/
theorem loginCalls_cycleTrace (w : Nat) (cur : Option Secret) (evs : List Event) :
    loginCalls (cycleTrace w cur evs) = 0 := by
  simp [loginCalls, cycleTrace, List.countP_eq_zero, Action.isLogin]

/-- A cycle builds one watcher. -/
theorem watchersCreated_cycleTrace (w : Nat) (cur : Option Secret) (evs : List Event) :
    watchersCreated (cycleTrace w cur evs) = 1 := by
  have h : List.countP Action.isNewWatcher (evs.map (Action.recv w)) = 0 := by
    simp [List.countP_eq_zero, Action.isNewWatcher]
  simp [watchersCreated, cycleTrace, List.countP_append, List.countP_cons, h,
    Action.isNewWatcher]

/-- An invocation of `login` is one invocation of `login`. -/
theorem loginCalls_loginTrace (env : Env) (v : Vault) (n : Nat) :
    loginCalls (loginTrace env v n) = 1 := by
  unfold loginTrace loginCalls
  cases env.authMethod v n <;> simp [List.countP_cons, Action.isLogin]

/-- An invocation of `login` builds no watcher. -/
theorem watchersCreated_loginTrace (env : Env) (v : Vault) (n : Nat) :
    watchersCreated (loginTrace env v n) = 0 := by
  unfold loginTrace watchersCreated
  cases env.authMethod v n <;> simp [List.countP_cons, Action.isNewWatcher]

/-- The done channel's value is received in a returned cycle exactly when it is the
terminal event of the cycle. -/
theorem recv_doneCh_mem_cycleTrace (w : Nat) (cur : Option Secret) (ds : List Int)
    (t : Event) (e : Option Err) :
    Action.recv w (Event.doneCh e) ∈ cycleTrace w cur (ds.map Event.renewCh ++ [t]) ↔
      t = Event.doneCh e := by
  simp [cycleTrace, eq_comm]

/-- A pass after which the loop goes round again: its cycle ended on a nil value of the
done channel and the login that followed returned the secret of the next pass. -/
theorem loopBody_next {env : Env} {v : Vault} {cur : Option Secret} {st : World}
    {v1 : Vault} {c1 : Option Secret} {st1 : World}
    (h : loopBody env v cur st = Step.next v1 c1 st1) :
    v1 = v ∧ (∃ s, c1 = some s ∧ loginAnswer env v st.logins = (some s, none)) ∧
    ∃ ds : List Int,
      st1 = afterRelogin env v st cur (ds.map Event.renewCh ++ [Event.doneCh none]) := by
  obtain ⟨ds, hc⟩ := loopBody_cases env v cur st
  rcases hc with ⟨e, _, _, hb⟩ | ⟨_, _, hb⟩ | ⟨_, _, hb⟩ | ⟨e, _, _, hb⟩ |
    ⟨err, _, _, _, hb⟩ | ⟨s, _, _, ha, hb⟩
  · rw [hb] at h
    cases h
  · rw [hb] at h
    cases h
  · rw [hb] at h
    cases h
  · rw [hb] at h
    cases h
  · rw [hb] at h
    cases h
  · rw [hb] at h
    cases h
    exact ⟨rfl, ⟨s, rfl, ha⟩, ds, rfl⟩

/-- The trace after a pass is the trace before it followed by `passTrace`. -/
theorem loopBody_trace (env : Env) (v : Vault) (cur : Option Secret) (st : World) :
    (loopBody env v cur st).world.trace = st.trace ++ passTrace env v cur st := by
  have key : ∃ X, (loopBody env v cur st).world.trace = st.trace ++ X := by
    obtain ⟨ds, hc⟩ := loopBody_cases env v cur st
    rcases hc with ⟨e, _, _, hb⟩ | ⟨_, _, hb⟩ | ⟨_, _, hb⟩ | ⟨e, _, _, hb⟩ |
      ⟨err, _, _, _, hb⟩ | ⟨s, _, _, _, hb⟩ <;>
    · rw [hb]
      exact ⟨_, rfl⟩
  obtain ⟨X, hX⟩ := key
  rw [passTrace, hX, List.drop_left]

/-- The trace of a pass starts with the call that builds its watcher, for the secret the
pass was given, and builds no other watcher. -/
theorem passTrace_head (env : Env) (v : Vault) (cur : Option Secret) (st : World) :
    ∃ tail, passTrace env v cur st = Action.newLifetimeWatcher st.watchers cur :: tail ∧
      watchersCreated tail = 0 := by
  have h2 := watchersCreated_loginTrace env v st.logins
  unfold passTrace
  obtain ⟨ds, hc⟩ := loopBody_cases env v cur st
  rcases hc with ⟨e, _, _, hb⟩ | ⟨_, _, hb⟩ | ⟨_, _, hb⟩ | ⟨e, _, _, hb⟩ |
    ⟨err, _, _, _, hb⟩ | ⟨s, _, _, _, hb⟩ <;>
  · rw [hb]
    simp only [Step.world, afterCycle, afterRelogin, List.drop_left, cycleTrace,
      List.cons_append, List.nil_append]
    refine ⟨_, rfl, ?_⟩
    simp only [watchersCreated, List.countP_append, List.countP_cons] at h2 ⊢
    simp [List.countP_eq_zero, Action.isNewWatcher, h2]

/-- The state at the start of pass `k + 1`: the `Vault` value is the one given, `k`
watchers were built and `k` logins made since the start, and the current token is the
argument (`k = 0`) or the secret the latest login returned. -/
theorem loopState_invariant (env : Env) (k : Nat) (v0 : Vault) (a0 : Option Secret)
    (st0 : World) (v : Vault) (cur : Option Secret) (st : World)
    (hk : loopState env k v0 a0 st0 = some (v, cur, st)) :
    v = v0 ∧ st.watchers = st0.watchers + k ∧ st.logins = st0.logins + k ∧
    (k = 0 → cur = a0) ∧
    (∀ j, k = j + 1 →
      ∃ s, cur = some s ∧ loginAnswer env v0 (st0.logins + j) = (some s, none)) := by
  induction k generalizing v0 a0 st0 with
  | zero =>
    simp only [loopState, Option.some.injEq, Prod.mk.injEq] at hk
    obtain ⟨rfl, rfl, rfl⟩ := hk
    simp
  | succ k ih =>
    simp only [loopState] at hk
    cases hb : loopBody env v0 a0 st0 with
    | halt o st1 => simp [hb] at hk
    | next v1 c1 st1 =>
      rw [hb] at hk
      obtain ⟨hv, ⟨s, hs, ha⟩, ds, hst⟩ := loopBody_next hb
      obtain ⟨h1, h2, h3, h4, h5⟩ := ih v1 c1 st1 hk
      subst hv
      have hw1 : st1.watchers = st0.watchers + 1 := by rw [hst]; rfl
      have hl1 : st1.logins = st0.logins + 1 := by rw [hst]; rfl
      refine ⟨h1, by omega, by omega, by omega, ?_⟩
      intro j hj
      have hkj : k = j := by omega
      subst hkj
      cases k with
      | zero => exact ⟨s, (h4 rfl).trans hs, by simpa using ha⟩
      | succ k' =>
        obtain ⟨s2, hs2, ha2⟩ := h5 k' rfl
        refine ⟨s2, hs2, ?_⟩
        rw [← ha2, hl1]
        congr 1
        omega

/-- The trace after a run is the trace before it followed by `runTrace`. -/
theorem PeriodicallyRenewLeases_trace (env : Env) (fuel : Nat) (v : Vault)
    (cur : Option Secret) (st : World) :
    (PeriodicallyRenewLeases env fuel v cur st).2.trace =
      st.trace ++ runTrace env fuel v cur st := by
  have key : ∃ X, (PeriodicallyRenewLeases env fuel v cur st).2.trace = st.trace ++ X := by
    induction fuel generalizing v cur st with
    | zero => exact ⟨[], by simp [PeriodicallyRenewLeases]⟩
    | succ fuel ih =>
      have ht := loopBody_trace env v cur st
      simp only [PeriodicallyRenewLeases]
      cases hb : loopBody env v cur st with
      | halt o st1 =>
        rw [hb] at ht
        exact ⟨_, ht⟩
      | next v1 c1 st1 =>
        rw [hb] at ht
        obtain ⟨X, hX⟩ := ih v1 c1 st1
        simp only [Step.world] at ht
        refine ⟨passTrace env v cur st ++ X, ?_⟩
        simp only [hX, ht, List.append_assoc]
  obtain ⟨X, hX⟩ := key
  rw [runTrace, hX, List.drop_left]

/-- The trace of a run whose first pass leaves the loop. -/
theorem runTrace_halt (env : Env) (fuel : Nat) (v : Vault) (cur : Option Secret) (st : World)
    (o : Outcome) (st1 : World) (hb : loopBody env v cur st = Step.halt o st1) :
    runTrace env (fuel + 1) v cur st = passTrace env v cur st := by
  simp [runTrace, passTrace, PeriodicallyRenewLeases, hb, Step.world]

/-- The trace of a run whose first pass goes round again. -/
theorem runTrace_next (env : Env) (fuel : Nat) (v : Vault) (cur : Option Secret) (st : World)
    (v1 : Vault) (c1 : Option Secret) (st1 : World)
    (hb : loopBody env v cur st = Step.next v1 c1 st1) :
    runTrace env (fuel + 1) v cur st =
      passTrace env v cur st ++ runTrace env fuel v1 c1 st1 := by
  have ht := loopBody_trace env v cur st
  rw [hb] at ht
  simp only [Step.world] at ht
  have hr := PeriodicallyRenewLeases_trace env fuel v1 c1 st1
  rw [ht, List.append_assoc] at hr
  have e1 : PeriodicallyRenewLeases env (fuel + 1) v cur st =
      PeriodicallyRenewLeases env fuel v1 c1 st1 := by
    simp [PeriodicallyRenewLeases, hb]
  rw [runTrace, e1, hr, List.drop_left]

/-- Every watcher built during a run is built at the start of a pass, as watcher number
`k` of the run in pass `k + 1`, for the token current in that pass. -/
theorem newLifetimeWatcher_mem_runTrace (env : Env) (fuel : Nat) (v0 : Vault)
    (a0 : Option Secret) (st0 : World) (w : Nat) (s : Option Secret)
    (h : Action.newLifetimeWatcher w s ∈ runTrace env fuel v0 a0 st0) :
    ∃ k v cur st, loopState env k v0 a0 st0 = some (v, cur, st) ∧
      w = st0.watchers + k ∧ s = cur := by
  induction fuel generalizing v0 a0 st0 with
  | zero => simp [runTrace, PeriodicallyRenewLeases] at h
  | succ fuel ih =>
    have hpass : Action.newLifetimeWatcher w s ∈ passTrace env v0 a0 st0 →
        ∃ k v cur st, loopState env k v0 a0 st0 = some (v, cur, st) ∧
          w = st0.watchers + k ∧ s = cur := by
      intro hm
      obtain ⟨tail, ht, h0⟩ := passTrace_head env v0 a0 st0
      rw [ht, List.mem_cons] at hm
      rcases hm with hm | hm
      · injection hm with h1 h2
        exact ⟨0, v0, a0, st0, rfl, by simpa using h1, h2⟩
      · exfalso
        simp only [watchersCreated, List.countP_eq_zero] at h0
        exact h0 _ hm rfl
    cases hb : loopBody env v0 a0 st0 with
    | halt o st1 =>
      rw [runTrace_halt env fuel v0 a0 st0 o st1 hb] at h
      exact hpass h
    | next v1 c1 st1 =>
      rw [runTrace_next env fuel v0 a0 st0 v1 c1 st1 hb, List.mem_append] at h
      rcases h with h | h
      · exact hpass h
      · obtain ⟨k, v, cur, st, hk, hw, hs⟩ := ih v1 c1 st1 h
        obtain ⟨_, _, ds, hst⟩ := loopBody_next hb
        have hw1 : st1.watchers = st0.watchers + 1 := by rw [hst]; rfl
        refine ⟨k + 1, v, cur, st, ?_, by omega, hs⟩
        simp only [loopState, hb]
        exact hk

/-- The active watchers after two traces in a row. -/
theorem activeAfter_append (acc : List Nat) (t1 t2 : List Action) :
    activeAfter acc (t1 ++ t2) = activeAfter (activeAfter acc t1) t2 := by
  induction t1 generalizing acc with
  | nil => rfl
  | cons a t1 ih => cases a <;> simp [activeAfter, ih]

/-- The active watchers after a first action and a trace. -/
theorem activeAfter_cons (acc : List Nat) (a : Action) (t : List Action) :
    activeAfter acc (a :: t) = activeAfter (activeAfter acc [a]) t :=
  activeAfter_append acc [a] t

/-- Two disciplined traces in a row are disciplined. -/
theorem disciplined_append (acc : List Nat) (t1 t2 : List Action)
    (h1 : Disciplined acc t1) (h2 : Disciplined (activeAfter acc t1) t2) :
    Disciplined acc (t1 ++ t2) := by
  induction t1 generalizing acc with
  | nil => exact h2
  | cons a t1 ih =>
    obtain ⟨ha, hb, hc⟩ := h1
    rw [activeAfter_cons] at h2
    exact ⟨ha, hb, ih _ hc h2⟩

/-- What discipline means at every point of the trace: after every initial part of it at
most one watcher is active, and none is when the next action builds a watcher. -/
theorem disciplined_sound (acc : List Nat) (t : List Action) (h : Disciplined acc t)
    (p : List Action) (hp : p <+: t) :
    (activeAfter acc p).length ≤ 1 ∧
    ∀ w s, p ++ [Action.newLifetimeWatcher w s] <+: t → activeAfter acc p = [] := by
  induction t generalizing acc p with
  | nil =>
    rw [List.prefix_nil] at hp
    subst hp
    exact ⟨h, fun w s hw => by simp at hw⟩
  | cons a t ih =>
    obtain ⟨ha, hb, hc⟩ := h
    cases p with
    | nil =>
      refine ⟨ha, fun w s hw => ?_⟩
      simp only [List.nil_append, List.cons_prefix_cons] at hw
      exact hb (by rw [← hw.1]; rfl)
    | cons b p =>
      rw [List.cons_prefix_cons] at hp
      obtain ⟨rfl, hp⟩ := hp
      rw [activeAfter_cons]
      refine ⟨(ih _ hc p hp).1, fun w s hw => ?_⟩
      rw [List.cons_append, List.cons_prefix_cons] at hw
      exact (ih _ hc p hp).2 w s hw.2

/-- Receiving events changes no watcher. -/
theorem activeAfter_recv (acc : List Nat) (w : Nat) (evs : List Event) :
    activeAfter acc (evs.map (Action.recv w)) = acc := by
  induction evs with
  | nil => rfl
  | cons e evs ih => simpa [activeAfter] using ih

/-- Receiving events keeps the discipline. -/
theorem disciplined_recv (acc : List Nat) (w : Nat) (evs : List Event)
    (h : acc.length ≤ 1) : Disciplined acc (evs.map (Action.recv w)) := by
  induction evs with
  | nil => exact h
  | cons e evs ih =>
    exact ⟨h, by simp [Action.isNewWatcher], by simpa [activeAfter] using ih⟩

/-- An invocation of `login` changes no watcher. -/
theorem activeAfter_loginTrace (env : Env) (v : Vault) (n : Nat) (acc : List Nat) :
    activeAfter acc (loginTrace env v n) = acc := by
  unfold loginTrace
  cases env.authMethod v n <;> simp [activeAfter]

/-- An invocation of `login` keeps the discipline. -/
theorem disciplined_loginTrace (env : Env) (v : Vault) (n : Nat) (acc : List Nat)
    (h : acc.length ≤ 1) : Disciplined acc (loginTrace env v n) := by
  unfold loginTrace
  cases env.authMethod v n <;> simp [Disciplined, activeAfter, Action.isNewWatcher, h]

/-- A returned cycle is disciplined and leaves no watcher active. -/
theorem disciplined_cycleTrace (w : Nat) (cur : Option Secret) (evs : List Event) :
    Disciplined [] (cycleTrace w cur evs) ∧ activeAfter [] (cycleTrace w cur evs) = [] := by
  have h1 : activeAfter [] ([Action.newLifetimeWatcher w cur, Action.watcherStart w] ++
      evs.map (Action.recv w)) = [w] := by
    rw [activeAfter_append, activeAfter_recv]
    rfl
  have h2 : Disciplined [] ([Action.newLifetimeWatcher w cur, Action.watcherStart w] ++
      evs.map (Action.recv w)) := by
    refine disciplined_append _ _ _ ?_ (disciplined_recv _ w evs (by simp [activeAfter]))
    simp [Disciplined, activeAfter, Action.isNewWatcher]
  unfold cycleTrace
  refine ⟨disciplined_append _ _ _ h2 ?_, ?_⟩
  · rw [h1]
    simp [Disciplined, activeAfter, Action.isNewWatcher]
  · rw [activeAfter_append, h1]
    simp [activeAfter]

/-- Every pass is disciplined, and leaves no watcher active unless its `select` blocks. -/
theorem disciplined_passTrace (env : Env) (v : Vault) (cur : Option Secret) (st : World) :
    Disciplined [] (passTrace env v cur st) ∧
    ((∀ st1, loopBody env v cur st ≠ Step.halt Outcome.blocked st1) →
      activeAfter [] (passTrace env v cur st) = []) := by
  have hc := fun evs => disciplined_cycleTrace st.watchers cur evs
  unfold passTrace
  obtain ⟨ds, h⟩ := loopBody_cases env v cur st
  rcases h with ⟨e, _, _, hb⟩ | ⟨_, _, hb⟩ | ⟨_, _, hb⟩ | ⟨e, _, _, hb⟩ |
    ⟨err, _, _, _, hb⟩ | ⟨s, _, _, _, hb⟩
  · rw [hb]
    simp [Step.world, Disciplined, activeAfter, Action.isNewWatcher]
  · rw [hb]
    simp only [Step.world, List.drop_left]
    refine ⟨disciplined_append _ _ _ ?_ (disciplined_recv _ _ _ (by simp [activeAfter])),
      fun hne => absurd rfl (hne _)⟩
    simp [Disciplined, activeAfter, Action.isNewWatcher]
  · rw [hb]
    simp only [Step.world, afterCycle, List.drop_left]
    exact ⟨(hc _).1, fun _ => (hc _).2⟩
  · rw [hb]
    simp only [Step.world, afterCycle, List.drop_left]
    exact ⟨(hc _).1, fun _ => (hc _).2⟩
  · rw [hb]
    simp only [Step.world, afterRelogin, List.drop_left]
    refine ⟨disciplined_append _ _ _ (hc _).1 ?_, fun _ => ?_⟩
    · rw [(hc _).2]
      exact disciplined_loginTrace env v _ _ (by simp)
    · rw [activeAfter_append, (hc _).2, activeAfter_loginTrace]
  · rw [hb]
    simp only [Step.world, afterRelogin, List.drop_left]
    refine ⟨disciplined_append _ _ _ (hc _).1 ?_, fun _ => ?_⟩
    · rw [(hc _).2]
      exact disciplined_loginTrace env v _ _ (by simp)
    · rw [activeAfter_append, (hc _).2, activeAfter_loginTrace]

/-- Every run is disciplined, and leaves no watcher active unless a `select` blocks. -/
theorem disciplined_runTrace (env : Env) (fuel : Nat) (v : Vault) (cur : Option Secret)
    (st : World) :
    Disciplined [] (runTrace env fuel v cur st) ∧
    ((PeriodicallyRenewLeases env fuel v cur st).1 ≠ Outcome.blocked →
      activeAfter [] (runTrace env fuel v cur st) = []) := by
  induction fuel generalizing v cur st with
  | zero => simp [runTrace, PeriodicallyRenewLeases, Disciplined, activeAfter]
  | succ fuel ih =>
    obtain ⟨hd, ha⟩ := disciplined_passTrace env v cur st
    cases hb : loopBody env v cur st with
    | halt o st1 =>
      rw [runTrace_halt env fuel v cur st o st1 hb]
      refine ⟨hd, fun hne => ha ?_⟩
      intro st2 h2
      rw [hb] at h2
      simp only [PeriodicallyRenewLeases, hb] at hne
      cases h2
      exact hne rfl
    | next v1 c1 st1 =>
      have h0 := ha (by rw [hb]; intro st2 h2; cases h2)
      obtain ⟨hd1, ha1⟩ := ih v1 c1 st1
      rw [runTrace_next env fuel v cur st v1 c1 st1 hb]
      refine ⟨disciplined_append _ _ _ hd (by rw [h0]; exact hd1), fun hne => ?_⟩
      rw [activeAfter_append, h0]
      apply ha1
      simpa [PeriodicallyRenewLeases, hb] using hne

/-- Two slices have equal elements, one by one, exactly when they are the same list. -/
theorem elementsEqual_iff (a b : List String) : vault.elementsEqual a b = true ↔ a = b := by
  induction a generalizing b with
  | nil => cases b <;> simp [vault.elementsEqual]
  | cons x xs ih => cases b <;> simp [vault.elementsEqual, ih]

/-- `reflect.DeepEqual` on `[]string` is equality of the slices, nil-ness included. -/
theorem deepEqual_iff (a b : Option (List String)) : vault.DeepEqual a b = true ↔ a = b := by
  cases a <;> cases b <;> simp [vault.DeepEqual, elementsEqual_iff]
  intro h
  rw [h]

/-- The `select` loop returns what its first terminal event decides, and adds to the trace,
renewals apart, the receipt of that event. -/
theorem selectLoop_firstTerminal (w : Nat) (evs : List Event) (st : World) :
    (selectLoop w evs st).1 =
      (match firstTerminal evs with
        | some Event.ctxDone => some (exitRequested, none)
        | some (Event.doneCh e) => some (expiringAuthToken, e)
        | _ => none) ∧
    (selectLoop w evs st).2.logins = st.logins ∧
    (selectLoop w evs st).2.watchers = st.watchers ∧
    withoutRenewals (selectLoop w evs st).2.trace =
      withoutRenewals st.trace ++ (firstTerminal evs).toList.map (Action.recv w) := by
  induction evs generalizing st with
  | nil => simp [selectLoop, firstTerminal]
  | cons ev evs ih =>
    cases ev with
    | ctxDone =>
      simp [selectLoop, firstTerminal, World.record, withoutRenewals, Action.isRenewal]
    | doneCh e =>
      simp [selectLoop, firstTerminal, World.record, withoutRenewals, Action.isRenewal]
    | renewCh d =>
      obtain ⟨h1, h2, h3, h4⟩ := ih (st.record (Action.recv w (Event.renewCh d)))
      simp only [selectLoop, firstTerminal]
      refine ⟨h1, h2, h3, ?_⟩
      rw [h4]
      simp [World.record, withoutRenewals, Action.isRenewal]

/-- Two cycles whose events have the same first terminal event, run from worlds that
agree but for renewals, return the same and leave worlds that agree but for renewals. -/
theorem renewLeases_sameButRenewals (env : Env) (events2 : Nat → List Event) (v : Vault)
    (tok : Option Secret) (st1 st2 : World)
    (h : ∀ w, firstTerminal (env.events w) = firstTerminal (events2 w))
    (hs : sameButRenewals st1 st2) :
    (renewLeases env v tok st1).1 = (renewLeases { env with events := events2 } v tok st2).1 ∧
    sameButRenewals (renewLeases env v tok st1).2
      (renewLeases { env with events := events2 } v tok st2).2 := by
  obtain ⟨hl, hw, ht⟩ := hs
  simp only [renewLeases, ← hw]
  cases env.NewLifetimeWatcher st1.watchers v.Client tok with
  | some e =>
    refine ⟨rfl, hl, by simp [hw], ?_⟩
    simp only [withoutRenewals, List.filter_append] at ht ⊢
    rw [ht]
  | none =>
    have a1 := selectLoop_firstTerminal st1.watchers (env.events st1.watchers)
      (World.record
        { logins := st1.logins, watchers := st1.watchers + 1,
          trace := st1.trace ++ [Action.newLifetimeWatcher st1.watchers tok] }
        (Action.watcherStart st1.watchers))
    have a2 := selectLoop_firstTerminal st1.watchers (events2 st1.watchers)
      (World.record
        { logins := st2.logins, watchers := st1.watchers + 1,
          trace := st2.trace ++ [Action.newLifetimeWatcher st1.watchers tok] }
        (Action.watcherStart st1.watchers))
    rw [← h] at a2
    obtain ⟨b1, b2, b3, b4⟩ := a1
    obtain ⟨c1, c2, c3, c4⟩ := a2
    have hres := b1.trans c1.symm
    have htr : withoutRenewals
        (World.record
          { logins := st1.logins, watchers := st1.watchers + 1,
            trace := st1.trace ++ [Action.newLifetimeWatcher st1.watchers tok] }
          (Action.watcherStart st1.watchers)).trace =
        withoutRenewals
          (World.record
            { logins := st2.logins, watchers := st1.watchers + 1,
              trace := st2.trace ++ [Action.newLifetimeWatcher st1.watchers tok] }
            (Action.watcherStart st1.watchers)).trace := by
      simp only [World.record, withoutRenewals, List.filter_append] at ht ⊢
      rw [ht]
    rw [htr] at b4
    have htr2 := b4.trans c4.symm
    simp only at hres htr2 b2 b3 c2 c3 ⊢
    rcases h1 : selectLoop st1.watchers (env.events st1.watchers)
      (World.record
        { logins := st1.logins, watchers := st1.watchers + 1,
          trace := st1.trace ++ [Action.newLifetimeWatcher st1.watchers tok] }
        (Action.watcherStart st1.watchers)) with ⟨r1, w1⟩
    rcases h2 : selectLoop st1.watchers (events2 st1.watchers)
      (World.record
        { logins := st2.logins, watchers := st1.watchers + 1,
          trace := st2.trace ++ [Action.newLifetimeWatcher st1.watchers tok] }
        (Action.watcherStart st1.watchers)) with ⟨r2, w2⟩
    rw [h1] at hres htr2 b2 b3
    rw [h2] at hres htr2 c2 c3
    simp only [World.record] at hres htr2 b2 b3 c2 c3
    subst hres
    cases r1 with
    | none => exact ⟨rfl, by rw [b2, c2, hl], by rw [b3, c3], htr2⟩
    | some r =>
      refine ⟨rfl, by simp [World.record, b2, c2, hl], by simp [World.record, b3, c3], ?_⟩
      simp only [World.record, withoutRenewals, List.filter_append] at htr2 ⊢
      rw [htr2]

/-- Two passes of the loop whose cycles have the same first terminal events, run from
worlds that agree but for renewals, end alike. -/
theorem loopBody_sameButRenewals (env : Env) (events2 : Nat → List Event) (v : Vault)
    (tok : Option Secret) (st1 st2 : World)
    (h : ∀ w, firstTerminal (env.events w) = firstTerminal (events2 w))
    (hs : sameButRenewals st1 st2) :
    (∃ o w1 w2, loopBody env v tok st1 = Step.halt o w1 ∧
      loopBody { env with events := events2 } v tok st2 = Step.halt o w2 ∧
      sameButRenewals w1 w2) ∨
    (∃ v1 c1 w1 w2, loopBody env v tok st1 = Step.next v1 c1 w1 ∧
      loopBody { env with events := events2 } v tok st2 = Step.next v1 c1 w2 ∧
      sameButRenewals w1 w2) := by
  obtain ⟨hr, hw⟩ := renewLeases_sameButRenewals env events2 v tok st1 st2 h hs
  rcases h1 : renewLeases env v tok st1 with ⟨r1, w1⟩
  rcases h2 : renewLeases { env with events := events2 } v tok st2 with ⟨r2, w2⟩
  rw [h1, h2] at hr hw
  simp only at hr hw
  subst hr
  have hlogin : sameButRenewals (login env v w1).2.2
      (login { env with events := events2 } v w2).2.2 := by
    have e2 : login { env with events := events2 } v w2 = login env v w2 := rfl
    obtain ⟨a, b, c⟩ := hw
    rw [e2, login_world, login_world]
    refine ⟨by simp [a], b, ?_⟩
    simp only [withoutRenewals, List.filter_append] at c ⊢
    rw [c, a]
  have hans : (login env v w1).1 = (login { env with events := events2 } v w2).1 := by
    have e2 : login { env with events := events2 } v w2 = login env v w2 := rfl
    rw [e2, login_answer, login_answer, hw.1]
  have hrec : (login env v w1).2.1 = (login { env with events := events2 } v w2).2.1 := by
    have e2 : login { env with events := events2 } v w2 = login env v w2 := rfl
    rw [e2, login_receiver, login_receiver]
  simp only [loopBody, h1, h2]
  rcases r1 with _ | ⟨r, _ | e⟩
  · exact Or.inl ⟨_, _, _, rfl, rfl, hw⟩
  · by_cases hx : r &&& exitRequested ≠ 0
    · simp only [if_pos hx]
      exact Or.inl ⟨_, _, _, rfl, rfl, hw⟩
    · simp only [if_neg hx]
      by_cases hy : r &&& expiringAuthToken ≠ 0
      · simp only [if_pos hy]
        rcases l1 : login env v w1 with ⟨⟨t1, e1⟩, v1, x1⟩
        rcases l2 : login { env with events := events2 } v w2 with ⟨⟨t2, e2⟩, v2, x2⟩
        rw [l1, l2] at hlogin hans hrec
        simp only [Prod.mk.injEq] at hans hrec
        obtain ⟨rfl, rfl⟩ := hans
        subst hrec
        cases e1 with
        | none => exact Or.inr ⟨_, _, _, _, rfl, rfl, hlogin⟩
        | some e => exact Or.inl ⟨_, _, _, rfl, rfl, hlogin⟩
      · simp only [if_neg hy]
        exact Or.inr ⟨_, _, _, _, rfl, rfl, hw⟩
  · exact Or.inl ⟨_, _, _, rfl, rfl, hw⟩

/-- Two runs whose cycles have the same first terminal events, started in worlds that
agree but for renewals, end the same way in worlds that agree but for renewals. -/
theorem PeriodicallyRenewLeases_sameButRenewals (env : Env) (events2 : Nat → List Event)
    (fuel : Nat) (v : Vault) (tok : Option Secret) (st1 st2 : World)
    (h : ∀ w, firstTerminal (env.events w) = firstTerminal (events2 w))
    (hs : sameButRenewals st1 st2) :
    (PeriodicallyRenewLeases env fuel v tok st1).1 =
      (PeriodicallyRenewLeases { env with events := events2 } fuel v tok st2).1 ∧
    sameButRenewals (PeriodicallyRenewLeases env fuel v tok st1).2
      (PeriodicallyRenewLeases { env with events := events2 } fuel v tok st2).2 := by
  induction fuel generalizing v tok st1 st2 with
  | zero => exact ⟨rfl, hs⟩
  | succ fuel ih =>
    simp only [PeriodicallyRenewLeases]
    rcases loopBody_sameButRenewals env events2 v tok st1 st2 h hs with
      ⟨o, w1, w2, h1, h2, hw⟩ | ⟨v1, c1, w1, w2, h1, h2, hw⟩
    · rw [h1, h2]
      exact ⟨rfl, hw⟩
    · rw [h1, h2]
      exact ih v1 c1 w1 w2 hw

/-- Login calls are kept when the renewals are taken out of a trace. -/
theorem filter_isLogin_withoutRenewals (t : List Action) :
    (withoutRenewals t).filter Action.isLogin = t.filter Action.isLogin := by
  simp only [withoutRenewals, List.filter_filter]
  congr 1
  funext a
  cases a <;> simp [Action.isLogin, Action.isRenewal]

/-- Watcher creations are kept when the renewals are taken out of a trace. -/
theorem filter_isNewWatcher_withoutRenewals (t : List Action) :
    (withoutRenewals t).filter Action.isNewWatcher = t.filter Action.isNewWatcher := by
  simp only [withoutRenewals, List.filter_filter]
  congr 1
  funext a
  cases a <;> simp [Action.isNewWatcher, Action.isRenewal]

/-- After `RemoveFinalizer` the finalizer is not on the object. -/
theorem containsFinalizer_removeFinalizer (o : ObjectMeta) (finalizer : String) :
    ContainsFinalizer (RemoveFinalizer o finalizer) finalizer = false := by
  simp [ContainsFinalizer, RemoveFinalizer]

/-- After `AddFinalizer` the finalizer is on the object. -/
theorem containsFinalizer_addFinalizer (o : ObjectMeta) (finalizer : String) :
    ContainsFinalizer (AddFinalizer o finalizer) finalizer = true := by
  unfold AddFinalizer
  split
  · rename_i h
    exact h
  · simp [ContainsFinalizer]

/-- A call that writes to Vault is a call to Vault. -/
theorem isVault_of_isVaultWrite {α : Type} (a : RAction α) (h : a.isVaultWrite = true) :
    a.isVault = true := by
  cases a <;> simp_all [RAction.isVaultWrite, RAction.isVault]

/-- What is not a call to Vault does not write to Vault. -/
theorem isVaultWrite_of_not_isVault {α : Type} (a : RAction α) (h : a.isVault = false) :
    a.isVaultWrite = false := by
  cases a <;> simp_all [RAction.isVaultWrite, RAction.isVault]

/-- The first status of a KubernetesRole object: what lines 78 to 89 add to the trace contains no
call to Vault, and one status update exactly when the object had no conditions. -/
theorem role_initStatus_trace (r : KubernetesRoleReconciler) (req : NamespacedName)
    (o : v1beta1.KubernetesRole) (tr : List (RAction v1beta1.KubernetesRole)) :
    ∃ pre, (KubernetesRoleReconciler.initStatus r req o tr).2 = tr ++ pre ∧
      (∀ a ∈ pre, a.isVault = false) ∧
      pre.filter RAction.isStatusUpdate =
        (if o.Status.Conditions.length = 0 then
          [RAction.statusUpdate
            (KubernetesRoleReconciler.withCondition o ConditionUnknown "Reconciling" "Starting reconciliation")]
        else []) := by
  unfold KubernetesRoleReconciler.initStatus
  split
  · rename_i h
    simp only [h, if_true]
    split
    · exact ⟨[RAction.statusUpdate _], rfl, by simp [RAction.isVault],
        by simp [RAction.isStatusUpdate]⟩
    · split <;>
        exact ⟨[RAction.statusUpdate _, RAction.get req], List.append_assoc _ _ _,
          by simp [RAction.isVault], by simp [RAction.isStatusUpdate]⟩
  · rename_i h
    exact ⟨[], by simp, by simp, by simp [h]⟩

/-- Adding the finalizer to a KubernetesRole object: what lines 92 to 104 add to the trace contains
no call to Vault and no status update. -/
theorem role_ensureFinalizer_trace (r : KubernetesRoleReconciler) (req : NamespacedName)
    (o : v1beta1.KubernetesRole) (tr : List (RAction v1beta1.KubernetesRole)) :
    ∃ pre, (KubernetesRoleReconciler.ensureFinalizer r req o tr).2 = tr ++ pre ∧
      (∀ a ∈ pre, a.isVault = false ∧ a.isStatusUpdate = false) := by
  unfold KubernetesRoleReconciler.ensureFinalizer
  split
  · dsimp only
    split
    · exact ⟨[RAction.update _], rfl, by simp [RAction.isVault, RAction.isStatusUpdate]⟩
    · split <;>
        exact ⟨[RAction.update _, RAction.get req], List.append_assoc _ _ _,
          by simp [RAction.isVault, RAction.isStatusUpdate]⟩
  · exact ⟨[], by simp, by simp⟩

/-- A KubernetesRole object that is being deleted and carries the finalizer: the remote resource is
deleted first; when that fails its error is returned and nothing else is done; when it
succeeds the object is updated without the finalizer. -/
theorem role_deleting (r : KubernetesRoleReconciler) (req : NamespacedName)
    (tr : List (RAction v1beta1.KubernetesRole)) (o0 o : v1beta1.KubernetesRole)
    (tr1 : List (RAction v1beta1.KubernetesRole))
    (hget : r.Client.Get tr req = Except.ok o0)
    (hinit : KubernetesRoleReconciler.initStatus r req o0 (tr ++ [RAction.get req]) = (Except.ok o, tr1))
    (hz : Time.IsZero o.ObjectMeta.DeletionTimestamp = false)
    (hf : ContainsFinalizer o.ObjectMeta KubernetesRoleReconciler.roleFinalizer = true) :
    (∀ err, r.Vault.DeleteWithContext tr1 (KubernetesRoleReconciler.rolePath o) = some err →
      KubernetesRoleReconciler.Reconcile r req tr = (some err, tr1 ++ [RAction.vault (VaultCall.logicalDelete (KubernetesRoleReconciler.rolePath o))])) ∧
    (r.Vault.DeleteWithContext tr1 (KubernetesRoleReconciler.rolePath o) = none →
      (KubernetesRoleReconciler.Reconcile r req tr).2 =
        tr1 ++ [RAction.vault (VaultCall.logicalDelete (KubernetesRoleReconciler.rolePath o)),
          RAction.update
            { o with ObjectMeta := RemoveFinalizer o.ObjectMeta KubernetesRoleReconciler.roleFinalizer }] ∧
      (KubernetesRoleReconciler.Reconcile r req tr).1 =
        (match r.Client.Update (tr1 ++ [RAction.vault (VaultCall.logicalDelete (KubernetesRoleReconciler.rolePath o))])
            { o with ObjectMeta := RemoveFinalizer o.ObjectMeta KubernetesRoleReconciler.roleFinalizer } with
          | Except.error err => some err
          | Except.ok _ => none)) ∧
    ContainsFinalizer (RemoveFinalizer o.ObjectMeta KubernetesRoleReconciler.roleFinalizer) KubernetesRoleReconciler.roleFinalizer = false ∧
    (∀ a ∈ (KubernetesRoleReconciler.Reconcile r req tr).2.drop tr.length, a.isVaultWrite = false) := by
  obtain ⟨pre, hpre, hv, _⟩ := role_initStatus_trace r req o0 (tr ++ [RAction.get req])
  rw [hinit] at hpre
  simp only at hpre
  have hrec : KubernetesRoleReconciler.Reconcile r req tr = KubernetesRoleReconciler.finalize r o tr1 := by
    simp [KubernetesRoleReconciler.Reconcile, hget, hinit, hz]
  rw [hrec]
  simp only [KubernetesRoleReconciler.finalize, hf, if_true, KubernetesRoleReconciler.deleteVaultKubernetesRole]
  refine ⟨?_, ?_, containsFinalizer_removeFinalizer _ _, ?_⟩
  · intro err he
    simp [he]
  · intro he
    simp only [he]
    split <;> simp
  · have hw : ∀ a ∈ pre, a.isVaultWrite = false :=
      fun a ha => isVaultWrite_of_not_isVault a (hv a ha)
    cases hd : r.Vault.DeleteWithContext tr1 (KubernetesRoleReconciler.rolePath o) with
    | some err =>
      simp only [hpre, List.append_assoc, List.drop_left]
      intro a ha
      simp only [List.mem_append, List.mem_singleton] at ha
      rcases ha with rfl | ha | rfl
      · rfl
      · exact hw a ha
      · rfl
    | none =>
      simp only
      split <;>
      · simp only [hpre, List.append_assoc, List.drop_left]
        intro a ha
        simp only [List.mem_append, List.mem_singleton] at ha
        rcases ha with rfl | ha | rfl | rfl
        · rfl
        · exact hw a ha
        · rfl
        · rfl

/-- The first status of a Policy object: what lines 76 to 87 add to the trace contains no
call to Vault, and one status update exactly when the object had no conditions. -/
theorem policy_initStatus_trace (r : PolicyReconciler) (req : NamespacedName)
    (o : v1beta1.Policy) (tr : List (RAction v1beta1.Policy)) :
    ∃ pre, (PolicyReconciler.initStatus r req o tr).2 = tr ++ pre ∧
      (∀ a ∈ pre, a.isVault = false) ∧
      pre.filter RAction.isStatusUpdate =
        (if o.Status.Conditions.length = 0 then
          [RAction.statusUpdate
            (PolicyReconciler.withCondition o ConditionUnknown "Reconciling" "Starting reconciliation")]
        else []) := by
  unfold PolicyReconciler.initStatus
  split
  · rename_i h
    simp only [h, if_true]
    split
    · exact ⟨[RAction.statusUpdate _], rfl, by simp [RAction.isVault],
        by simp [RAction.isStatusUpdate]⟩
    · split <;>
        exact ⟨[RAction.statusUpdate _, RAction.get req], List.append_assoc _ _ _,
          by simp [RAction.isVault], by simp [RAction.isStatusUpdate]⟩
  · rename_i h
    exact ⟨[], by simp, by simp, by simp [h]⟩

/-- Adding the finalizer to a Policy object: what lines 90 to 102 add to the trace contains
no call to Vault and no status update. -/
theorem policy_ensureFinalizer_trace (r : PolicyReconciler) (req : NamespacedName)
    (o : v1beta1.Policy) (tr : List (RAction v1beta1.Policy)) :
    ∃ pre, (PolicyReconciler.ensureFinalizer r req o tr).2 = tr ++ pre ∧
      (∀ a ∈ pre, a.isVault = false ∧ a.isStatusUpdate = false) := by
  unfold PolicyReconciler.ensureFinalizer
  split
  · dsimp only
    split
    · exact ⟨[RAction.update _], rfl, by simp [RAction.isVault, RAction.isStatusUpdate]⟩
    · split <;>
        exact ⟨[RAction.update _, RAction.get req], List.append_assoc _ _ _,
          by simp [RAction.isVault, RAction.isStatusUpdate]⟩
  · exact ⟨[], by simp, by simp⟩

/-- A Policy object that is being deleted and carries the finalizer: the remote resource is
deleted first; when that fails its error is returned and nothing else is done; when it
succeeds the object is updated without the finalizer. -/
theorem policy_deleting (r : PolicyReconciler) (req : NamespacedName)
    (tr : List (RAction v1beta1.Policy)) (o0 o : v1beta1.Policy)
    (tr1 : List (RAction v1beta1.Policy))
    (hget : r.Client.Get tr req = Except.ok o0)
    (hinit : PolicyReconciler.initStatus r req o0 (tr ++ [RAction.get req]) = (Except.ok o, tr1))
    (hz : Time.IsZero o.ObjectMeta.DeletionTimestamp = false)
    (hf : ContainsFinalizer o.ObjectMeta PolicyReconciler.policyFinalizer = true) :
    (∀ err, r.Vault.DeletePolicyWithContext tr1 o.ObjectMeta.Name = some err →
      PolicyReconciler.Reconcile r req tr = (some err, tr1 ++ [RAction.vault (VaultCall.deletePolicy o.ObjectMeta.Name)])) ∧
    (r.Vault.DeletePolicyWithContext tr1 o.ObjectMeta.Name = none →
      (PolicyReconciler.Reconcile r req tr).2 =
        tr1 ++ [RAction.vault (VaultCall.deletePolicy o.ObjectMeta.Name),
          RAction.update
            { o with ObjectMeta := RemoveFinalizer o.ObjectMeta PolicyReconciler.policyFinalizer }] ∧
      (PolicyReconciler.Reconcile r req tr).1 =
        (match r.Client.Update (tr1 ++ [RAction.vault (VaultCall.deletePolicy o.ObjectMeta.Name)])
            { o with ObjectMeta := RemoveFinalizer o.ObjectMeta PolicyReconciler.policyFinalizer } with
          | Except.error err => some err
          | Except.ok _ => none)) ∧
    ContainsFinalizer (RemoveFinalizer o.ObjectMeta PolicyReconciler.policyFinalizer) PolicyReconciler.policyFinalizer = false ∧
    (∀ a ∈ (PolicyReconciler.Reconcile r req tr).2.drop tr.length, a.isVaultWrite = false) := by
  obtain ⟨pre, hpre, hv, _⟩ := policy_initStatus_trace r req o0 (tr ++ [RAction.get req])
  rw [hinit] at hpre
  simp only at hpre
  have hrec : PolicyReconciler.Reconcile r req tr = PolicyReconciler.finalize r o tr1 := by
    simp [PolicyReconciler.Reconcile, hget, hinit, hz]
  rw [hrec]
  simp only [PolicyReconciler.finalize, hf, if_true, PolicyReconciler.deleteVaultPolicy]
  refine ⟨?_, ?_, containsFinalizer_removeFinalizer _ _, ?_⟩
  · intro err he
    simp [he]
  · intro he
    simp only [he]
    split <;> simp
  · have hw : ∀ a ∈ pre, a.isVaultWrite = false :=
      fun a ha => isVaultWrite_of_not_isVault a (hv a ha)
    cases hd : r.Vault.DeletePolicyWithContext tr1 o.ObjectMeta.Name with
    | some err =>
      simp only [hpre, List.append_assoc, List.drop_left]
      intro a ha
      simp only [List.mem_append, List.mem_singleton] at ha
      rcases ha with rfl | ha | rfl
      · rfl
      · exact hw a ha
      · rfl
    | none =>
      simp only
      split <;>
      · simp only [hpre, List.append_assoc, List.drop_left]
        intro a ha
        simp only [List.mem_append, List.mem_singleton] at ha
        rcases ha with rfl | ha | rfl | rfl
        · rfl
        · exact hw a ha
        · rfl
        · rfl

/-- The first status of an Auth object: what lines 79 to 90 add to the trace contains no
call to Vault, and one status update exactly when the object had no conditions. -/
theorem auth_initStatus_trace (r : AuthReconciler) (req : NamespacedName)
    (o : v1beta1.Auth) (tr : List (RAction v1beta1.Auth)) :
    ∃ pre, (AuthReconciler.initStatus r req o tr).2 = tr ++ pre ∧
      (∀ a ∈ pre, a.isVault = false) ∧
      pre.filter RAction.isStatusUpdate =
        (if o.Status.Conditions.length = 0 then
          [RAction.statusUpdate
            (AuthReconciler.withCondition o ConditionUnknown "Reconciling" "Starting reconciliation")]
        else []) := by
  unfold AuthReconciler.initStatus
  split
  · rename_i h
    simp only [h, if_true]
    split
    · exact ⟨[RAction.statusUpdate _], rfl, by simp [RAction.isVault],
        by simp [RAction.isStatusUpdate]⟩
    · split <;>
        exact ⟨[RAction.statusUpdate _, RAction.get req], List.append_assoc _ _ _,
          by simp [RAction.isVault], by simp [RAction.isStatusUpdate]⟩
  · rename_i h
    exact ⟨[], by simp, by simp, by simp [h]⟩

/-- Adding the finalizer to an Auth object: what lines 93 to 105 add to the trace contains
no call to Vault and no status update. -/
theorem auth_ensureFinalizer_trace (r : AuthReconciler) (req : NamespacedName)
    (o : v1beta1.Auth) (tr : List (RAction v1beta1.Auth)) :
    ∃ pre, (AuthReconciler.ensureFinalizer r req o tr).2 = tr ++ pre ∧
      (∀ a ∈ pre, a.isVault = false ∧ a.isStatusUpdate = false) := by
  unfold AuthReconciler.ensureFinalizer
  split
  · dsimp only
    split
    · exact ⟨[RAction.update _], rfl, by simp [RAction.isVault, RAction.isStatusUpdate]⟩
    · split <;>
        exact ⟨[RAction.update _, RAction.get req], List.append_assoc _ _ _,
          by simp [RAction.isVault, RAction.isStatusUpdate]⟩
  · exact ⟨[], by simp, by simp⟩

/-- An Auth object that is being deleted and carries the finalizer: the remote resource is
deleted first; when that fails its error is returned and nothing else is done; when it
succeeds the object is updated without the finalizer. -/
theorem auth_deleting (r : AuthReconciler) (req : NamespacedName)
    (tr : List (RAction v1beta1.Auth)) (o0 o : v1beta1.Auth)
    (tr1 : List (RAction v1beta1.Auth))
    (hget : r.Client.Get tr req = Except.ok o0)
    (hinit : AuthReconciler.initStatus r req o0 (tr ++ [RAction.get req]) = (Except.ok o, tr1))
    (hz : Time.IsZero o.ObjectMeta.DeletionTimestamp = false)
    (hf : ContainsFinalizer o.ObjectMeta AuthReconciler.authFinalizer = true) :
    (∀ err, r.Vault.DisableAuthWithContext tr1 o.ObjectMeta.Name = some err →
      AuthReconciler.Reconcile r req tr = (some err, tr1 ++ [RAction.vault (VaultCall.disableAuth o.ObjectMeta.Name)])) ∧
    (r.Vault.DisableAuthWithContext tr1 o.ObjectMeta.Name = none →
      (AuthReconciler.Reconcile r req tr).2 =
        tr1 ++ [RAction.vault (VaultCall.disableAuth o.ObjectMeta.Name),
          RAction.update
            { o with ObjectMeta := RemoveFinalizer o.ObjectMeta AuthReconciler.authFinalizer }] ∧
      (AuthReconciler.Reconcile r req tr).1 =
        (match r.Client.Update (tr1 ++ [RAction.vault (VaultCall.disableAuth o.ObjectMeta.Name)])
            { o with ObjectMeta := RemoveFinalizer o.ObjectMeta AuthReconciler.authFinalizer } with
          | Except.error err => some err
          | Except.ok _ => none)) ∧
    ContainsFinalizer (RemoveFinalizer o.ObjectMeta AuthReconciler.authFinalizer) AuthReconciler.authFinalizer = false ∧
    (∀ a ∈ (AuthReconciler.Reconcile r req tr).2.drop tr.length, a.isVaultWrite = false) := by
  obtain ⟨pre, hpre, hv, _⟩ := auth_initStatus_trace r req o0 (tr ++ [RAction.get req])
  rw [hinit] at hpre
  simp only at hpre
  have hrec : AuthReconciler.Reconcile r req tr = AuthReconciler.finalize r o tr1 := by
    simp [AuthReconciler.Reconcile, hget, hinit, hz]
  rw [hrec]
  simp only [AuthReconciler.finalize, hf, if_true, AuthReconciler.deleteVaultAuth]
  refine ⟨?_, ?_, containsFinalizer_removeFinalizer _ _, ?_⟩
  · intro err he
    simp [he]
  · intro he
    simp only [he]
    split <;> simp
  · have hw : ∀ a ∈ pre, a.isVaultWrite = false :=
      fun a ha => isVaultWrite_of_not_isVault a (hv a ha)
    cases hd : r.Vault.DisableAuthWithContext tr1 o.ObjectMeta.Name with
    | some err =>
      simp only [hpre, List.append_assoc, List.drop_left]
      intro a ha
      simp only [List.mem_append, List.mem_singleton] at ha
      rcases ha with rfl | ha | rfl
      · rfl
      · exact hw a ha
      · rfl
    | none =>
      simp only
      split <;>
      · simp only [hpre, List.append_assoc, List.drop_left]
        intro a ha
        simp only [List.mem_append, List.mem_singleton] at ha
        rcases ha with rfl | ha | rfl | rfl
        · rfl
        · exact hw a ha
        · rfl
        · rfl

/-- A KubernetesRole object that is not being deleted: without the finalizer it is first updated
with the finalizer added and fetched again, and an error of either is returned at once;
every call to Vault comes after that, or is made for an object fetched with the
finalizer. -/
theorem role_finalizer_first (r : KubernetesRoleReconciler) (req : NamespacedName)
    (tr : List (RAction v1beta1.KubernetesRole)) (o0 o1 : v1beta1.KubernetesRole)
    (tr1 : List (RAction v1beta1.KubernetesRole))
    (hget : r.Client.Get tr req = Except.ok o0)
    (hinit : KubernetesRoleReconciler.initStatus r req o0 (tr ++ [RAction.get req]) = (Except.ok o1, tr1))
    (hz : Time.IsZero o1.ObjectMeta.DeletionTimestamp = true) :
    (ContainsFinalizer o1.ObjectMeta KubernetesRoleReconciler.roleFinalizer = false →
      ContainsFinalizer (AddFinalizer o1.ObjectMeta KubernetesRoleReconciler.roleFinalizer) KubernetesRoleReconciler.roleFinalizer = true ∧
      (∀ err, r.Client.Update tr1
          { o1 with ObjectMeta := AddFinalizer o1.ObjectMeta KubernetesRoleReconciler.roleFinalizer } = Except.error err →
        KubernetesRoleReconciler.Reconcile r req tr =
          (some err, tr1 ++ [RAction.update
            { o1 with ObjectMeta := AddFinalizer o1.ObjectMeta KubernetesRoleReconciler.roleFinalizer }])) ∧
      (∀ s err, r.Client.Update tr1
          { o1 with ObjectMeta := AddFinalizer o1.ObjectMeta KubernetesRoleReconciler.roleFinalizer } = Except.ok s →
        r.Client.Get (tr1 ++ [RAction.update
          { o1 with ObjectMeta := AddFinalizer o1.ObjectMeta KubernetesRoleReconciler.roleFinalizer }]) req =
            Except.error err →
        KubernetesRoleReconciler.Reconcile r req tr =
          (some err, tr1 ++ [RAction.update
            { o1 with ObjectMeta := AddFinalizer o1.ObjectMeta KubernetesRoleReconciler.roleFinalizer },
            RAction.get req])) ∧
      (∀ s o, r.Client.Update tr1
          { o1 with ObjectMeta := AddFinalizer o1.ObjectMeta KubernetesRoleReconciler.roleFinalizer } = Except.ok s →
        r.Client.Get (tr1 ++ [RAction.update
          { o1 with ObjectMeta := AddFinalizer o1.ObjectMeta KubernetesRoleReconciler.roleFinalizer }]) req =
            Except.ok o →
        KubernetesRoleReconciler.Reconcile r req tr =
          KubernetesRoleReconciler.createOrUpdate r o (tr1 ++ [RAction.update
            { o1 with ObjectMeta := AddFinalizer o1.ObjectMeta KubernetesRoleReconciler.roleFinalizer },
            RAction.get req]))) ∧
    (ContainsFinalizer o1.ObjectMeta KubernetesRoleReconciler.roleFinalizer = true →
      KubernetesRoleReconciler.Reconcile r req tr = KubernetesRoleReconciler.createOrUpdate r o1 tr1) ∧
    (∃ pre, tr1 = tr ++ pre ∧ ∀ a ∈ pre, a.isVault = false) ∧
    ((∃ a ∈ (KubernetesRoleReconciler.Reconcile r req tr).2.drop tr.length, a.isVault = true) →
      ContainsFinalizer o1.ObjectMeta KubernetesRoleReconciler.roleFinalizer = true ∨
      ∃ s o, r.Client.Update tr1
          { o1 with ObjectMeta := AddFinalizer o1.ObjectMeta KubernetesRoleReconciler.roleFinalizer } = Except.ok s ∧
        r.Client.Get (tr1 ++ [RAction.update
          { o1 with ObjectMeta := AddFinalizer o1.ObjectMeta KubernetesRoleReconciler.roleFinalizer }]) req =
            Except.ok o) := by
  obtain ⟨pre, hpre, hv, _⟩ := role_initStatus_trace r req o0 (tr ++ [RAction.get req])
  rw [hinit] at hpre
  simp only at hpre
  have hpre2 : tr1 = tr ++ ([RAction.get req] ++ pre) := by
    rw [hpre, List.append_assoc]
  have hv2 : ∀ a ∈ [RAction.get req] ++ pre, a.isVault = false := by
    intro a ha
    simp only [List.mem_append, List.mem_singleton] at ha
    rcases ha with rfl | ha
    · rfl
    · exact hv a ha
  have hrec : KubernetesRoleReconciler.Reconcile r req tr =
      (match KubernetesRoleReconciler.ensureFinalizer r req o1 tr1 with
        | (Except.error err, tr2) => (some err, tr2)
        | (Except.ok o, tr2) => KubernetesRoleReconciler.createOrUpdate r o tr2) := by
    simp [KubernetesRoleReconciler.Reconcile, hget, hinit, hz]
  have e1 : ∀ err, r.Client.Update tr1
      { o1 with ObjectMeta := AddFinalizer o1.ObjectMeta KubernetesRoleReconciler.roleFinalizer } = Except.error err →
      ContainsFinalizer o1.ObjectMeta KubernetesRoleReconciler.roleFinalizer = false →
      KubernetesRoleReconciler.Reconcile r req tr =
        (some err, tr1 ++ [RAction.update
          { o1 with ObjectMeta := AddFinalizer o1.ObjectMeta KubernetesRoleReconciler.roleFinalizer }]) := by
    intro err he hc
    rw [hrec]
    simp [KubernetesRoleReconciler.ensureFinalizer, hc, he]
  have e2 : ∀ s err, r.Client.Update tr1
      { o1 with ObjectMeta := AddFinalizer o1.ObjectMeta KubernetesRoleReconciler.roleFinalizer } = Except.ok s →
      r.Client.Get (tr1 ++ [RAction.update
        { o1 with ObjectMeta := AddFinalizer o1.ObjectMeta KubernetesRoleReconciler.roleFinalizer }]) req =
          Except.error err →
      ContainsFinalizer o1.ObjectMeta KubernetesRoleReconciler.roleFinalizer = false →
      KubernetesRoleReconciler.Reconcile r req tr =
        (some err, tr1 ++ [RAction.update
          { o1 with ObjectMeta := AddFinalizer o1.ObjectMeta KubernetesRoleReconciler.roleFinalizer },
          RAction.get req]) := by
    intro s err he hg hc
    rw [hrec]
    simp [KubernetesRoleReconciler.ensureFinalizer, hc, he, hg]
  refine ⟨fun hc => ⟨containsFinalizer_addFinalizer _ _, fun err he => e1 err he hc,
    fun s err he hg => e2 s err he hg hc, ?_⟩, ?_, ⟨_, hpre2, hv2⟩, ?_⟩
  · intro s o he hg
    rw [hrec]
    simp [KubernetesRoleReconciler.ensureFinalizer, hc, he, hg]
  · intro hc
    rw [hrec]
    simp [KubernetesRoleReconciler.ensureFinalizer, hc]
  · rintro ⟨a, ha, hav⟩
    have key : ∀ l : List (RAction v1beta1.KubernetesRole), (∀ x ∈ l, x.isVault = false) → a ∈ l →
        False := by
      intro l hl hal
      rw [hl a hal] at hav
      cases hav
    cases hc : ContainsFinalizer o1.ObjectMeta KubernetesRoleReconciler.roleFinalizer with
    | true => exact Or.inl rfl
    | false =>
      refine Or.inr ?_
      cases he : r.Client.Update tr1
          { o1 with ObjectMeta := AddFinalizer o1.ObjectMeta KubernetesRoleReconciler.roleFinalizer } with
      | error err =>
        exfalso
        rw [e1 err he hc, hpre] at ha
        simp only [List.append_assoc, List.drop_left] at ha
        refine key _ ?_ ha
        intro x hx
        simp only [List.mem_append, List.mem_singleton] at hx
        rcases hx with rfl | hx | rfl
        · rfl
        · exact hv x hx
        · rfl
      | ok s =>
        cases hg : r.Client.Get (tr1 ++ [RAction.update
            { o1 with ObjectMeta := AddFinalizer o1.ObjectMeta KubernetesRoleReconciler.roleFinalizer }]) req with
        | error err =>
          exfalso
          rw [e2 s err he hg hc, hpre] at ha
          simp only [List.append_assoc, List.drop_left] at ha
          refine key _ ?_ ha
          intro x hx
          simp only [List.mem_append, List.mem_cons, List.mem_singleton, List.not_mem_nil,
            or_false] at hx
          rcases hx with rfl | hx | rfl | rfl
          · rfl
          · exact hv x hx
          · rfl
          · rfl
        | ok o => exact ⟨s, o, rfl, rfl⟩

/-- A Policy object that is not being deleted: without the finalizer it is first updated
with the finalizer added and fetched again, and an error of either is returned at once;
every call to Vault comes after that, or is made for an object fetched with the
finalizer. -/
theorem policy_finalizer_first (r : PolicyReconciler) (req : NamespacedName)
    (tr : List (RAction v1beta1.Policy)) (o0 o1 : v1beta1.Policy)
    (tr1 : List (RAction v1beta1.Policy))
    (hget : r.Client.Get tr req = Except.ok o0)
    (hinit : PolicyReconciler.initStatus r req o0 (tr ++ [RAction.get req]) = (Except.ok o1, tr1))
    (hz : Time.IsZero o1.ObjectMeta.DeletionTimestamp = true) :
    (ContainsFinalizer o1.ObjectMeta PolicyReconciler.policyFinalizer = false →
      ContainsFinalizer (AddFinalizer o1.ObjectMeta PolicyReconciler.policyFinalizer) PolicyReconciler.policyFinalizer = true ∧
      (∀ err, r.Client.Update tr1
          { o1 with ObjectMeta := AddFinalizer o1.ObjectMeta PolicyReconciler.policyFinalizer } = Except.error err →
        PolicyReconciler.Reconcile r req tr =
          (some err, tr1 ++ [RAction.update
            { o1 with ObjectMeta := AddFinalizer o1.ObjectMeta PolicyReconciler.policyFinalizer }])) ∧
      (∀ s err, r.Client.Update tr1
          { o1 with ObjectMeta := AddFinalizer o1.ObjectMeta PolicyReconciler.policyFinalizer } = Except.ok s →
        r.Client.Get (tr1 ++ [RAction.update
          { o1 with ObjectMeta := AddFinalizer o1.ObjectMeta PolicyReconciler.policyFinalizer }]) req =
            Except.error err →
        PolicyReconciler.Reconcile r req tr =
          (some err, tr1 ++ [RAction.update
            { o1 with ObjectMeta := AddFinalizer o1.ObjectMeta PolicyReconciler.policyFinalizer },
            RAction.get req])) ∧
      (∀ s o, r.Client.Update tr1
          { o1 with ObjectMeta := AddFinalizer o1.ObjectMeta PolicyReconciler.policyFinalizer } = Except.ok s →
        r.Client.Get (tr1 ++ [RAction.update
          { o1 with ObjectMeta := AddFinalizer o1.ObjectMeta PolicyReconciler.policyFinalizer }]) req =
            Except.ok o →
        PolicyReconciler.Reconcile r req tr =
          PolicyReconciler.createOrUpdate r o (tr1 ++ [RAction.update
            { o1 with ObjectMeta := AddFinalizer o1.ObjectMeta PolicyReconciler.policyFinalizer },
            RAction.get req]))) ∧
    (ContainsFinalizer o1.ObjectMeta PolicyReconciler.policyFinalizer = true →
      PolicyReconciler.Reconcile r req tr = PolicyReconciler.createOrUpdate r o1 tr1) ∧
    (∃ pre, tr1 = tr ++ pre ∧ ∀ a ∈ pre, a.isVault = false) ∧
    ((∃ a ∈ (PolicyReconciler.Reconcile r req tr).2.drop tr.length, a.isVault = true) →
      ContainsFinalizer o1.ObjectMeta PolicyReconciler.policyFinalizer = true ∨
      ∃ s o, r.Client.Update tr1
          { o1 with ObjectMeta := AddFinalizer o1.ObjectMeta PolicyReconciler.policyFinalizer } = Except.ok s ∧
        r.Client.Get (tr1 ++ [RAction.update
          { o1 with ObjectMeta := AddFinalizer o1.ObjectMeta PolicyReconciler.policyFinalizer }]) req =
            Except.ok o) := by
  obtain ⟨pre, hpre, hv, _⟩ := policy_initStatus_trace r req o0 (tr ++ [RAction.get req])
  rw [hinit] at hpre
  simp only at hpre
  have hpre2 : tr1 = tr ++ ([RAction.get req] ++ pre) := by
    rw [hpre, List.append_assoc]
  have hv2 : ∀ a ∈ [RAction.get req] ++ pre, a.isVault = false := by
    intro a ha
    simp only [List.mem_append, List.mem_singleton] at ha
    rcases ha with rfl | ha
    · rfl
    · exact hv a ha
  have hrec : PolicyReconciler.Reconcile r req tr =
      (match PolicyReconciler.ensureFinalizer r req o1 tr1 with
        | (Except.error err, tr2) => (some err, tr2)
        | (Except.ok o, tr2) => PolicyReconciler.createOrUpdate r o tr2) := by
    simp [PolicyReconciler.Reconcile, hget, hinit, hz]
  have e1 : ∀ err, r.Client.Update tr1
      { o1 with ObjectMeta := AddFinalizer o1.ObjectMeta PolicyReconciler.policyFinalizer } = Except.error err →
      ContainsFinalizer o1.ObjectMeta PolicyReconciler.policyFinalizer = false →
      PolicyReconciler.Reconcile r req tr =
        (some err, tr1 ++ [RAction.update
          { o1 with ObjectMeta := AddFinalizer o1.ObjectMeta PolicyReconciler.policyFinalizer }]) := by
    intro err he hc
    rw [hrec]
    simp [PolicyReconciler.ensureFinalizer, hc, he]
  have e2 : ∀ s err, r.Client.Update tr1
      { o1 with ObjectMeta := AddFinalizer o1.ObjectMeta PolicyReconciler.policyFinalizer } = Except.ok s →
      r.Client.Get (tr1 ++ [RAction.update
        { o1 with ObjectMeta := AddFinalizer o1.ObjectMeta PolicyReconciler.policyFinalizer }]) req =
          Except.error err →
      ContainsFinalizer o1.ObjectMeta PolicyReconciler.policyFinalizer = false →
      PolicyReconciler.Reconcile r req tr =
        (some err, tr1 ++ [RAction.update
          { o1 with ObjectMeta := AddFinalizer o1.ObjectMeta PolicyReconciler.policyFinalizer },
          RAction.get req]) := by
    intro s err he hg hc
    rw [hrec]
    simp [PolicyReconciler.ensureFinalizer, hc, he, hg]
  refine ⟨fun hc => ⟨containsFinalizer_addFinalizer _ _, fun err he => e1 err he hc,
    fun s err he hg => e2 s err he hg hc, ?_⟩, ?_, ⟨_, hpre2, hv2⟩, ?_⟩
  · intro s o he hg
    rw [hrec]
    simp [PolicyReconciler.ensureFinalizer, hc, he, hg]
  · intro hc
    rw [hrec]
    simp [PolicyReconciler.ensureFinalizer, hc]
  · rintro ⟨a, ha, hav⟩
    have key : ∀ l : List (RAction v1beta1.Policy), (∀ x ∈ l, x.isVault = false) → a ∈ l →
        False := by
      intro l hl hal
      rw [hl a hal] at hav
      cases hav
    cases hc : ContainsFinalizer o1.ObjectMeta PolicyReconciler.policyFinalizer with
    | true => exact Or.inl rfl
    | false =>
      refine Or.inr ?_
      cases he : r.Client.Update tr1
          { o1 with ObjectMeta := AddFinalizer o1.ObjectMeta PolicyReconciler.policyFinalizer } with
      | error err =>
        exfalso
        rw [e1 err he hc, hpre] at ha
        simp only [List.append_assoc, List.drop_left] at ha
        refine key _ ?_ ha
        intro x hx
        simp only [List.mem_append, List.mem_singleton] at hx
        rcases hx with rfl | hx | rfl
        · rfl
        · exact hv x hx
        · rfl
      | ok s =>
        cases hg : r.Client.Get (tr1 ++ [RAction.update
            { o1 with ObjectMeta := AddFinalizer o1.ObjectMeta PolicyReconciler.policyFinalizer }]) req with
        | error err =>
          exfalso
          rw [e2 s err he hg hc, hpre] at ha
          simp only [List.append_assoc, List.drop_left] at ha
          refine key _ ?_ ha
          intro x hx
          simp only [List.mem_append, List.mem_cons, List.mem_singleton, List.not_mem_nil,
            or_false] at hx
          rcases hx with rfl | hx | rfl | rfl
          · rfl
          · exact hv x hx
          · rfl
          · rfl
        | ok o => exact ⟨s, o, rfl, rfl⟩

/-- An Auth object that is not being deleted: without the finalizer it is first updated
with the finalizer added and fetched again, and an error of either is returned at once;
every call to Vault comes after that, or is made for an object fetched with the
finalizer. -/
theorem auth_finalizer_first (r : AuthReconciler) (req : NamespacedName)
    (tr : List (RAction v1beta1.Auth)) (o0 o1 : v1beta1.Auth)
    (tr1 : List (RAction v1beta1.Auth))
    (hget : r.Client.Get tr req = Except.ok o0)
    (hinit : AuthReconciler.initStatus r req o0 (tr ++ [RAction.get req]) = (Except.ok o1, tr1))
    (hz : Time.IsZero o1.ObjectMeta.DeletionTimestamp = true) :
    (ContainsFinalizer o1.ObjectMeta AuthReconciler.authFinalizer = false →
      ContainsFinalizer (AddFinalizer o1.ObjectMeta AuthReconciler.authFinalizer) AuthReconciler.authFinalizer = true ∧
      (∀ err, r.Client.Update tr1
          { o1 with ObjectMeta := AddFinalizer o1.ObjectMeta AuthReconciler.authFinalizer } = Except.error err →
        AuthReconciler.Reconcile r req tr =
          (some err, tr1 ++ [RAction.update
            { o1 with ObjectMeta := AddFinalizer o1.ObjectMeta AuthReconciler.authFinalizer }])) ∧
      (∀ s err, r.Client.Update tr1
          { o1 with ObjectMeta := AddFinalizer o1.ObjectMeta AuthReconciler.authFinalizer } = Except.ok s →
        r.Client.Get (tr1 ++ [RAction.update
          { o1 with ObjectMeta := AddFinalizer o1.ObjectMeta AuthReconciler.authFinalizer }]) req =
            Except.error err →
        AuthReconciler.Reconcile r req tr =
          (some err, tr1 ++ [RAction.update
            { o1 with ObjectMeta := AddFinalizer o1.ObjectMeta AuthReconciler.authFinalizer },
            RAction.get req])) ∧
      (∀ s o, r.Client.Update tr1
          { o1 with ObjectMeta := AddFinalizer o1.ObjectMeta AuthReconciler.authFinalizer } = Except.ok s →
        r.Client.Get (tr1 ++ [RAction.update
          { o1 with ObjectMeta := AddFinalizer o1.ObjectMeta AuthReconciler.authFinalizer }]) req =
            Except.ok o →
        AuthReconciler.Reconcile r req tr =
          AuthReconciler.create r o (tr1 ++ [RAction.update
            { o1 with ObjectMeta := AddFinalizer o1.ObjectMeta AuthReconciler.authFinalizer },
            RAction.get req]))) ∧
    (ContainsFinalizer o1.ObjectMeta AuthReconciler.authFinalizer = true →
      AuthReconciler.Reconcile r req tr = AuthReconciler.create r o1 tr1) ∧
    (∃ pre, tr1 = tr ++ pre ∧ ∀ a ∈ pre, a.isVault = false) ∧
    ((∃ a ∈ (AuthReconciler.Reconcile r req tr).2.drop tr.length, a.isVault = true) →
      ContainsFinalizer o1.ObjectMeta AuthReconciler.authFinalizer = true ∨
      ∃ s o, r.Client.Update tr1
          { o1 with ObjectMeta := AddFinalizer o1.ObjectMeta AuthReconciler.authFinalizer } = Except.ok s ∧
        r.Client.Get (tr1 ++ [RAction.update
          { o1 with ObjectMeta := AddFinalizer o1.ObjectMeta AuthReconciler.authFinalizer }]) req =
            Except.ok o) := by
  obtain ⟨pre, hpre, hv, _⟩ := auth_initStatus_trace r req o0 (tr ++ [RAction.get req])
  rw [hinit] at hpre
  simp only at hpre
  have hpre2 : tr1 = tr ++ ([RAction.get req] ++ pre) := by
    rw [hpre, List.append_assoc]
  have hv2 : ∀ a ∈ [RAction.get req] ++ pre, a.isVault = false := by
    intro a ha
    simp only [List.mem_append, List.mem_singleton] at ha
    rcases ha with rfl | ha
    · rfl
    · exact hv a ha
  have hrec : AuthReconciler.Reconcile r req tr =
      (match AuthReconciler.ensureFinalizer r req o1 tr1 with
        | (Except.error err, tr2) => (some err, tr2)
        | (Except.ok o, tr2) => AuthReconciler.create r o tr2) := by
    simp [AuthReconciler.Reconcile, hget, hinit, hz]
  have e1 : ∀ err, r.Client.Update tr1
      { o1 with ObjectMeta := AddFinalizer o1.ObjectMeta AuthReconciler.authFinalizer } = Except.error err →
      ContainsFinalizer o1.ObjectMeta AuthReconciler.authFinalizer = false →
      AuthReconciler.Reconcile r req tr =
        (some err, tr1 ++ [RAction.update
          { o1 with ObjectMeta := AddFinalizer o1.ObjectMeta AuthReconciler.authFinalizer }]) := by
    intro err he hc
    rw [hrec]
    simp [AuthReconciler.ensureFinalizer, hc, he]
  have e2 : ∀ s err, r.Client.Update tr1
      { o1 with ObjectMeta := AddFinalizer o1.ObjectMeta AuthReconciler.authFinalizer } = Except.ok s →
      r.Client.Get (tr1 ++ [RAction.update
        { o1 with ObjectMeta := AddFinalizer o1.ObjectMeta AuthReconciler.authFinalizer }]) req =
          Except.error err →
      ContainsFinalizer o1.ObjectMeta AuthReconciler.authFinalizer = false →
      AuthReconciler.Reconcile r req tr =
        (some err, tr1 ++ [RAction.update
          { o1 with ObjectMeta := AddFinalizer o1.ObjectMeta AuthReconciler.authFinalizer },
          RAction.get req]) := by
    intro s err he hg hc
    rw [hrec]
    simp [AuthReconciler.ensureFinalizer, hc, he, hg]
  refine ⟨fun hc => ⟨containsFinalizer_addFinalizer _ _, fun err he => e1 err he hc,
    fun s err he hg => e2 s err he hg hc, ?_⟩, ?_, ⟨_, hpre2, hv2⟩, ?_⟩
  · intro s o he hg
    rw [hrec]
    simp [AuthReconciler.ensureFinalizer, hc, he, hg]
  · intro hc
    rw [hrec]
    simp [AuthReconciler.ensureFinalizer, hc]
  · rintro ⟨a, ha, hav⟩
    have key : ∀ l : List (RAction v1beta1.Auth), (∀ x ∈ l, x.isVault = false) → a ∈ l →
        False := by
      intro l hl hal
      rw [hl a hal] at hav
      cases hav
    cases hc : ContainsFinalizer o1.ObjectMeta AuthReconciler.authFinalizer with
    | true => exact Or.inl rfl
    | false =>
      refine Or.inr ?_
      cases he : r.Client.Update tr1
          { o1 with ObjectMeta := AddFinalizer o1.ObjectMeta AuthReconciler.authFinalizer } with
      | error err =>
        exfalso
        rw [e1 err he hc, hpre] at ha
        simp only [List.append_assoc, List.drop_left] at ha
        refine key _ ?_ ha
        intro x hx
        simp only [List.mem_append, List.mem_singleton] at hx
        rcases hx with rfl | hx | rfl
        · rfl
        · exact hv x hx
        · rfl
      | ok s =>
        cases hg : r.Client.Get (tr1 ++ [RAction.update
            { o1 with ObjectMeta := AddFinalizer o1.ObjectMeta AuthReconciler.authFinalizer }]) req with
        | error err =>
          exfalso
          rw [e2 s err he hg hc, hpre] at ha
          simp only [List.append_assoc, List.drop_left] at ha
          refine key _ ?_ ha
          intro x hx
          simp only [List.mem_append, List.mem_cons, List.mem_singleton, List.not_mem_nil,
            or_false] at hx
          rcases hx with rfl | hx | rfl | rfl
          · rfl
          · exact hv x hx
          · rfl
          · rfl
        | ok o => exact ⟨s, o, rfl, rfl⟩

/-- The remote fetch of a role adds the read of its path to the trace. -/
theorem role_fetch_trace (r : KubernetesRoleReconciler) (role : v1beta1.KubernetesRole)
    (tr : List (RAction v1beta1.KubernetesRole)) :
    (KubernetesRoleReconciler.fetchVaultKubernetesRole r role tr).2 =
      tr ++ [RAction.vault (VaultCall.logicalRead (KubernetesRoleReconciler.rolePath role))] := by
  unfold KubernetesRoleReconciler.fetchVaultKubernetesRole
  dsimp only
  split
  · rfl
  · rfl
  · split
    · rfl
    · split <;> rfl

/-- The push of a role to Vault writes its path: the encoding cannot fail. -/
theorem role_update_trace (r : KubernetesRoleReconciler) (role : v1beta1.KubernetesRole)
    (tr : List (RAction v1beta1.KubernetesRole)) :
    ∃ m, KubernetesRoleReconciler.updateVaultKubernetesRole r role tr =
      (r.Vault.WriteWithContext tr (KubernetesRoleReconciler.rolePath role) m,
        tr ++ [RAction.vault
          (VaultCall.logicalWrite (KubernetesRoleReconciler.rolePath role) m)]) := by
  obtain ⟨b, m, hb, hm⟩ := r.json.encode_ok
    { BoundServiceAccountNames := role.Spec.BoundServiceAccountNames,
      BoundServiceAccountNamespaces := role.Spec.BoundServiceAccountNamespaces,
      Audience := role.Spec.Audience,
      AliasNameSource := role.Spec.AliasNameSource,
      TokenTTL := role.Spec.TokenTTL,
      TokenMaxTTL := role.Spec.TokenMaxTTL,
      TokenPolicies := role.Spec.TokenPolicies,
      TokenBoundCIDRs := role.Spec.TokenBoundCIDRs,
      TokenExplicitMaxTTL := role.Spec.TokenExplicitMaxTTL,
      TokenNoDefaultPolicy := role.Spec.TokenNoDefaultPolicy,
      TokenNumUses := role.Spec.TokenNumUses,
      TokenPeriod := role.Spec.TokenPeriod,
      TokenType := role.Spec.TokenType }
  exact ⟨m, by simp [KubernetesRoleReconciler.updateVaultKubernetesRole, hb, hm]⟩

/-- What create-or-update of a role adds to the trace when the remote role was fetched:
the read alone when the remote role is there and equal to the spec, else the read, a
write and a status update. -/
theorem role_createOrUpdate_trace (r : KubernetesRoleReconciler) (role : v1beta1.KubernetesRole)
    (tr tr3 : List (RAction v1beta1.KubernetesRole)) (kr : Option vault.KubernetesRole)
    (hfetch : KubernetesRoleReconciler.fetchVaultKubernetesRole r role tr = ((kr, none), tr3)) :
    (∀ k, kr = some k → k.IsDifferentFromSpec role.Spec = false →
      KubernetesRoleReconciler.createOrUpdate r role tr =
        (none, tr ++ [RAction.vault
          (VaultCall.logicalRead (KubernetesRoleReconciler.rolePath role))])) ∧
    ((kr = none ∨ ∃ k, kr = some k ∧ k.IsDifferentFromSpec role.Spec = true) →
      ∃ m o, (KubernetesRoleReconciler.createOrUpdate r role tr).2 =
        tr ++ [RAction.vault (VaultCall.logicalRead (KubernetesRoleReconciler.rolePath role)),
          RAction.vault (VaultCall.logicalWrite (KubernetesRoleReconciler.rolePath role) m),
          RAction.statusUpdate o]) := by
  have ht := role_fetch_trace r role tr
  rw [hfetch] at ht
  simp only at ht
  subst ht
  obtain ⟨m, hm⟩ := role_update_trace r role
    (tr ++ [RAction.vault (VaultCall.logicalRead (KubernetesRoleReconciler.rolePath role))])
  refine ⟨?_, ?_⟩
  · intro k hk hd
    subst hk
    simp [KubernetesRoleReconciler.createOrUpdate, hfetch, hd]
  · intro h
    have tail : ∃ m o,
        (match KubernetesRoleReconciler.updateVaultKubernetesRole r role
            (tr ++ [RAction.vault
              (VaultCall.logicalRead (KubernetesRoleReconciler.rolePath role))]) with
          | (some err, tr2) =>
            match r.Client.StatusUpdate tr2
                (KubernetesRoleReconciler.withCondition role ConditionFalse "FailedToUpdate"
                  "Failed to push kubernetes auth engine role to Vault") with
            | Except.error err2 =>
              (some err2, tr2 ++ [RAction.statusUpdate
                (KubernetesRoleReconciler.withCondition role ConditionFalse "FailedToUpdate"
                  "Failed to push kubernetes auth engine role to Vault")])
            | Except.ok _ =>
              (some err, tr2 ++ [RAction.statusUpdate
                (KubernetesRoleReconciler.withCondition role ConditionFalse "FailedToUpdate"
                  "Failed to push kubernetes auth engine role to Vault")])
          | (none, tr2) =>
            match r.Client.StatusUpdate tr2
                (KubernetesRoleReconciler.withCondition role ConditionTrue "Configured"
                  "Successfully pushed kubernetes auth engine role to Vault") with
            | Except.error err2 =>
              (some err2, tr2 ++ [RAction.statusUpdate
                (KubernetesRoleReconciler.withCondition role ConditionTrue "Configured"
                  "Successfully pushed kubernetes auth engine role to Vault")])
            | Except.ok _ =>
              ((none : Option KErr), tr2 ++ [RAction.statusUpdate
                (KubernetesRoleReconciler.withCondition role ConditionTrue "Configured"
                  "Successfully pushed kubernetes auth engine role to Vault")])).2 =
          tr ++ [RAction.vault
              (VaultCall.logicalRead (KubernetesRoleReconciler.rolePath role)),
            RAction.vault
              (VaultCall.logicalWrite (KubernetesRoleReconciler.rolePath role) m),
            RAction.statusUpdate o] := by
      rw [hm]
      cases r.Vault.WriteWithContext
          (tr ++ [RAction.vault
            (VaultCall.logicalRead (KubernetesRoleReconciler.rolePath role))])
          (KubernetesRoleReconciler.rolePath role) m with
      | some err =>
        refine ⟨m, KubernetesRoleReconciler.withCondition role ConditionFalse "FailedToUpdate"
          "Failed to push kubernetes auth engine role to Vault", ?_⟩
        dsimp only
        split <;> simp
      | none =>
        refine ⟨m, KubernetesRoleReconciler.withCondition role ConditionTrue "Configured"
          "Successfully pushed kubernetes auth engine role to Vault", ?_⟩
        dsimp only
        split <;> simp
    rcases h with rfl | ⟨k, rfl, hk⟩
    · simpa [KubernetesRoleReconciler.createOrUpdate, hfetch] using tail
    · simpa [KubernetesRoleReconciler.createOrUpdate, hfetch, hk] using tail

/-- What create-or-update of a policy with a non-empty name adds to the trace when the
remote content was fetched: the fetch alone when the content is non-empty and equal to
the text of the spec, else the fetch, the write of the text and a status update. -/
theorem policy_createOrUpdate_trace (r : PolicyReconciler) (policy : v1beta1.Policy)
    (tr : List (RAction v1beta1.Policy)) (content : String)
    (hname : policy.ObjectMeta.Name ≠ "")
    (hfetch : r.Vault.GetPolicyWithContext tr policy.ObjectMeta.Name = (content, none)) :
    (content ≠ "" → content = policy.Spec.Policy →
      PolicyReconciler.createOrUpdate r policy tr =
        (none, tr ++ [RAction.vault (VaultCall.getPolicy policy.ObjectMeta.Name)])) ∧
    ((content = "" ∨ content ≠ policy.Spec.Policy) →
      ∃ o, (PolicyReconciler.createOrUpdate r policy tr).2 =
        tr ++ [RAction.vault (VaultCall.getPolicy policy.ObjectMeta.Name),
          RAction.vault (VaultCall.putPolicy policy.ObjectMeta.Name policy.Spec.Policy),
          RAction.statusUpdate o]) := by
  refine ⟨?_, ?_⟩
  · intro hc he
    subst he
    simp [PolicyReconciler.createOrUpdate, PolicyReconciler.fetchVaultPolicy, hfetch, hc,
      PolicyReconciler.changed]
  · intro h
    have hch : PolicyReconciler.changed
        (if content = "" then some { Name := "", Policy := "" }
          else some { Name := policy.ObjectMeta.Name, Policy := content }) policy = true := by
      by_cases hc : content = ""
      · simp [hc, PolicyReconciler.changed, Ne.symm hname]
      · rcases h with h | h
        · exact absurd h hc
        · simp [hc, PolicyReconciler.changed, h]
    by_cases hc : content = ""
    · simp only [hc, if_true] at hch
      simp only [PolicyReconciler.createOrUpdate, PolicyReconciler.fetchVaultPolicy, hfetch, hc,
        if_true, hch, PolicyReconciler.updateVaultPolicy]
      cases r.Vault.PutPolicyWithContext
          (tr ++ [RAction.vault (VaultCall.getPolicy policy.ObjectMeta.Name)])
          policy.ObjectMeta.Name policy.Spec.Policy with
      | some err =>
        refine ⟨PolicyReconciler.withCondition policy ConditionFalse "FailedToUpdate"
          "Failed to push policy to Vault", ?_⟩
        dsimp only
        split <;> simp
      | none =>
        refine ⟨PolicyReconciler.withCondition policy ConditionTrue "Configured"
          "Successfully pushed policy to Vault", ?_⟩
        dsimp only
        split <;> simp
    · simp only [hc, if_false] at hch
      simp only [PolicyReconciler.createOrUpdate, PolicyReconciler.fetchVaultPolicy, hfetch, hc,
        if_false, hch, if_true, PolicyReconciler.updateVaultPolicy]
      cases r.Vault.PutPolicyWithContext
          (tr ++ [RAction.vault (VaultCall.getPolicy policy.ObjectMeta.Name)])
          policy.ObjectMeta.Name policy.Spec.Policy with
      | some err =>
        refine ⟨PolicyReconciler.withCondition policy ConditionFalse "FailedToUpdate"
          "Failed to push policy to Vault", ?_⟩
        dsimp only
        split <;> simp
      | none =>
        refine ⟨PolicyReconciler.withCondition policy ConditionTrue "Configured"
          "Successfully pushed policy to Vault", ?_⟩
        dsimp only
        split <;> simp

/-- After `SetStatusCondition`, the first condition of the type set has the status set. -/
theorem conditionStatus_setStatusCondition (conditions : List Condition) (c : Condition) :
    conditionStatus (SetStatusCondition conditions c) c.Type_ = some c.Status := by
  induction conditions with
  | nil => simp [SetStatusCondition, conditionStatus]
  | cons d rest ih =>
    unfold SetStatusCondition
    by_cases h : d.Type_ = c.Type_
    · simp [h, conditionStatus]
    · simp only [h, if_false]
      simp only [conditionStatus] at ih ⊢
      rw [List.find?_cons_of_neg _ (by simpa using h)]
      exact ih

/-- Lines 124 to 152 of the Auth reconciler: with an accessor recorded nothing is done;
without one the auth engine is enabled first and the only other call to Vault reads it
back; when enabling fails the object is sent with the condition `False` and the error
returned is that of the status update, if it failed, and else that of Vault. -/
theorem auth_create_trace (r : AuthReconciler) (auth : v1beta1.Auth)
    (tr : List (RAction v1beta1.Auth)) :
    (auth.Status.Accessor ≠ "" → AuthReconciler.create r auth tr = (none, tr)) ∧
    (auth.Status.Accessor = "" →
      ∃ post, (AuthReconciler.create r auth tr).2 =
          tr ++ [RAction.vault (VaultCall.enableAuth auth.ObjectMeta.Name
            { Type_ := auth.Spec.Type_, Description := auth.Spec.Description })] ++ post ∧
        ∀ a ∈ post, a.isVault = true →
          a = RAction.vault (VaultCall.getAuth auth.ObjectMeta.Name)) ∧
    (∀ err, auth.Status.Accessor = "" →
      r.Vault.EnableAuthWithOptionsWithContext tr auth.ObjectMeta.Name
        { Type_ := auth.Spec.Type_, Description := auth.Spec.Description } = some err →
      (AuthReconciler.create r auth tr).2 =
        tr ++ [RAction.vault (VaultCall.enableAuth auth.ObjectMeta.Name
            { Type_ := auth.Spec.Type_, Description := auth.Spec.Description }),
          RAction.statusUpdate (AuthReconciler.withCondition auth ConditionFalse
            "FailedToCreate" "Failed to create auth engine in Vault")] ∧
      (∀ o, r.Client.StatusUpdate
          (tr ++ [RAction.vault (VaultCall.enableAuth auth.ObjectMeta.Name
            { Type_ := auth.Spec.Type_, Description := auth.Spec.Description })])
          (AuthReconciler.withCondition auth ConditionFalse
            "FailedToCreate" "Failed to create auth engine in Vault") = Except.ok o →
        (AuthReconciler.create r auth tr).1 = some err) ∧
      (∀ err2, r.Client.StatusUpdate
          (tr ++ [RAction.vault (VaultCall.enableAuth auth.ObjectMeta.Name
            { Type_ := auth.Spec.Type_, Description := auth.Spec.Description })])
          (AuthReconciler.withCondition auth ConditionFalse
            "FailedToCreate" "Failed to create auth engine in Vault") = Except.error err2 →
        (AuthReconciler.create r auth tr).1 = some err2)) := by
  refine ⟨fun h => by simp [AuthReconciler.create, h], fun h => ?_, fun err h he => ?_⟩
  · simp only [AuthReconciler.create, h, if_true, AuthReconciler.createVaultAuth]
    cases he : r.Vault.EnableAuthWithOptionsWithContext tr auth.ObjectMeta.Name
        { Type_ := auth.Spec.Type_, Description := auth.Spec.Description } with
    | some err =>
      dsimp only
      split <;>
        exact ⟨[RAction.statusUpdate _], rfl, by simp [RAction.isVault]⟩
    | none =>
      dsimp only
      split
      · exact ⟨[RAction.vault (VaultCall.getAuth auth.ObjectMeta.Name)], rfl, by simp⟩
      · split <;>
          exact ⟨[RAction.vault (VaultCall.getAuth auth.ObjectMeta.Name),
            RAction.statusUpdate _], List.append_assoc _ _ _, by simp [RAction.isVault]⟩
  · simp only [AuthReconciler.create, h, if_true, AuthReconciler.createVaultAuth, he]
    refine ⟨?_, fun o ho => ?_, fun err2 ho => ?_⟩
    · split <;> simp
    · simp [ho]
    · simp [ho]

/-- The method `deleteK8sSecret` looks the target Secret up and deletes it exactly when it
is found and owned by the token; nothing else is done. -/
theorem token_deleteK8sSecret_trace (r : TokenReconciler) (token : v1beta1.Token)
    (tr : List (RAction v1beta1.Token)) :
    ∃ post, (TokenReconciler.deleteK8sSecret r token tr).2 =
        tr ++ RAction.getSecret (TokenReconciler.targetKey token) :: post ∧
      ((post = [] ∧ ∀ s, r.Client.GetSecret tr (TokenReconciler.targetKey token) = Except.ok s →
          s.OwnerReferences.any (fun uid => uid == token.ObjectMeta.UID) = false) ∨
        ∃ s, post = [RAction.deleteSecret s] ∧
          r.Client.GetSecret tr (TokenReconciler.targetKey token) = Except.ok s ∧
          s.OwnerReferences.any (fun uid => uid == token.ObjectMeta.UID) = true) := by
  unfold TokenReconciler.deleteK8sSecret
  cases hg : r.Client.GetSecret tr (TokenReconciler.targetKey token) with
  | error err =>
    dsimp only
    split <;> exact ⟨[], rfl, Or.inl ⟨rfl, fun s hs => by cases hs⟩⟩
  | ok secret =>
    dsimp only
    cases ho : secret.OwnerReferences.any (fun uid => uid == token.ObjectMeta.UID) with
    | true =>
      simp only [if_true]
      split <;> exact ⟨[RAction.deleteSecret secret], List.append_assoc _ _ _,
        Or.inr ⟨secret, rfl, rfl, ho⟩⟩
    | false =>
      refine ⟨[], by simp, Or.inl ⟨rfl, fun s hs => ?_⟩⟩
      cases hs
      exact ho

/-- A token that is being deleted and carries the finalizer: what `Reconcile` does, case
by case. -/
theorem token_deleting_shape (r : TokenReconciler) (req : NamespacedName)
    (tr : List (RAction v1beta1.Token)) (token : v1beta1.Token)
    (hget : r.Client.Get tr req = Except.ok token)
    (hdel : token.ObjectMeta.DeletionTimestamp ≠ none)
    (hf : ContainsFinalizer token.ObjectMeta TokenReconciler.tokenFinalizer = true) :
    (token.Spec.Target.DeletionPolicy ≠ "Delete" ∧
      TokenReconciler.Reconcile r req tr =
        ((match r.Client.Update (tr ++ [RAction.get req])
            { token with ObjectMeta := RemoveFinalizer token.ObjectMeta TokenReconciler.tokenFinalizer } with
          | Except.error err => some err
          | Except.ok _ => none),
          tr ++ [RAction.get req,
            RAction.update { token with ObjectMeta := RemoveFinalizer token.ObjectMeta TokenReconciler.tokenFinalizer }])) ∨
    (token.Spec.Target.DeletionPolicy = "Delete" ∧
      ∃ e tr1, TokenReconciler.deleteK8sSecret r token (tr ++ [RAction.get req]) = (e, tr1) ∧
        ((∃ err, e = some err ∧ TokenReconciler.Reconcile r req tr = (some err, tr1)) ∨
          (e = none ∧ ∃ err,
            r.Vault.RevokeAccessorWithContext tr1 token.Status.Accessor = some err ∧
            TokenReconciler.Reconcile r req tr =
              (some err,
                tr1 ++ [RAction.vault (VaultCall.revokeAccessor token.Status.Accessor)])) ∨
          (e = none ∧
            r.Vault.RevokeAccessorWithContext tr1 token.Status.Accessor = none ∧
            TokenReconciler.Reconcile r req tr =
              ((match r.Client.Update
                  (tr1 ++ [RAction.vault (VaultCall.revokeAccessor token.Status.Accessor)])
                  { token with ObjectMeta := RemoveFinalizer token.ObjectMeta TokenReconciler.tokenFinalizer } with
                | Except.error err => some err
                | Except.ok _ => none),
                tr1 ++ [RAction.vault (VaultCall.revokeAccessor token.Status.Accessor),
                  RAction.update { token with ObjectMeta := RemoveFinalizer token.ObjectMeta TokenReconciler.tokenFinalizer }])))) := by
  have hrec : TokenReconciler.Reconcile r req tr =
      TokenReconciler.finalize r token (tr ++ [RAction.get req]) := by
    simp [TokenReconciler.Reconcile, hget, hdel]
  rw [hrec]
  by_cases hp : token.Spec.Target.DeletionPolicy = "Delete"
  · refine Or.inr ⟨hp, ?_⟩
    simp only [TokenReconciler.finalize, hf, if_true, TokenReconciler.cleanup, hp]
    rcases hd : TokenReconciler.deleteK8sSecret r token (tr ++ [RAction.get req]) with ⟨e, tr1⟩
    refine ⟨e, tr1, rfl, ?_⟩
    cases e with
    | some err => exact Or.inl ⟨err, rfl, rfl⟩
    | none =>
      refine Or.inr ?_
      dsimp only
      cases hr : r.Vault.RevokeAccessorWithContext tr1 token.Status.Accessor with
      | some err => exact Or.inl ⟨rfl, err, rfl, rfl⟩
      | none =>
        refine Or.inr ⟨rfl, rfl, ?_⟩
        dsimp only
        split <;> simp [*]
  · refine Or.inl ⟨hp, ?_⟩
    simp only [TokenReconciler.finalize, hf, if_true, TokenReconciler.cleanup, hp, if_false]
    split <;> simp [*]

/-- Lines 109 to 116 of the Token reconciler add nothing to the trace, or one update of
the token. -/
theorem token_addFinalizer_trace (r : TokenReconciler) (token : v1beta1.Token)
    (tr : List (RAction v1beta1.Token)) :
    ∃ pre, (TokenReconciler.addFinalizer r token tr).2 = tr ++ pre ∧
      (pre = [] ∨ ∃ o, pre = [RAction.update o]) := by
  unfold TokenReconciler.addFinalizer
  split
  · dsimp only
    split <;> exact ⟨[RAction.update _], rfl, Or.inr ⟨_, rfl⟩⟩
  · exact ⟨[], by simp, Or.inl rfl⟩

/-- The method `createK8sSecret` makes no call to Vault and no status update. -/
theorem token_createK8sSecret_trace (r : TokenReconciler) (token : v1beta1.Token)
    (data : String) (tr : List (RAction v1beta1.Token)) :
    ∃ post, (TokenReconciler.createK8sSecret r token data tr).2 = tr ++ post ∧
      ∀ a ∈ post, a.isVault = false ∧ a.isStatusUpdate = false := by
  unfold TokenReconciler.createK8sSecret
  split
  · exact ⟨[], by simp, by simp⟩
  · dsimp only
    split
    · split
      · exact ⟨[RAction.getSecret _, RAction.createSecret _], List.append_assoc _ _ _,
          by simp [RAction.isVault, RAction.isStatusUpdate]⟩
      · exact ⟨[RAction.getSecret _], rfl, by simp [RAction.isVault, RAction.isStatusUpdate]⟩
    · exact ⟨[RAction.getSecret _], rfl, by simp [RAction.isVault, RAction.isStatusUpdate]⟩

/-- Lines 118 to 159 of the Token reconciler, case by case: with an accessor recorded
nothing is done; without one the token is created in Vault, then its Secret, and one
status update follows, whose object and whose result depend on which step failed. -/
theorem token_create_cases (r : TokenReconciler) (token : v1beta1.Token)
    (tr : List (RAction v1beta1.Token)) :
    (token.Status.Accessor ≠ "" → TokenReconciler.create r token tr = (none, tr)) ∧
    (token.Status.Accessor = "" →
      ∀ err, r.Vault.TokenCreate tr (TokenReconciler.createRequest token) = Except.error err →
        (TokenReconciler.create r token tr).2 =
          tr ++ [RAction.vault (VaultCall.createToken (TokenReconciler.createRequest token)),
            RAction.statusUpdate (TokenReconciler.withCondition token ConditionFalse
              "FailedToCreate" "Failed to create token engine in Vault")]) ∧
    (token.Status.Accessor = "" →
      ∀ t err tr2, r.Vault.TokenCreate tr (TokenReconciler.createRequest token) = Except.ok t →
        TokenReconciler.createK8sSecret r token t.ClientToken
          (tr ++ [RAction.vault (VaultCall.createToken (TokenReconciler.createRequest token))]) =
            (some err, tr2) →
        (TokenReconciler.create r token tr).2 =
          tr2 ++ [RAction.statusUpdate (TokenReconciler.withCondition token ConditionFalse
            "FailedToCreate" ("Failed to create k8s secret " ++ token.Spec.Target.Name))] ∧
        (∀ o, r.Client.StatusUpdate tr2 (TokenReconciler.withCondition token ConditionFalse
            "FailedToCreate" ("Failed to create k8s secret " ++ token.Spec.Target.Name)) =
              Except.ok o →
          (TokenReconciler.create r token tr).1 = some err) ∧
        (∀ err2, r.Client.StatusUpdate tr2 (TokenReconciler.withCondition token ConditionFalse
            "FailedToCreate" ("Failed to create k8s secret " ++ token.Spec.Target.Name)) =
              Except.error err2 →
          (TokenReconciler.create r token tr).1 = some err2)) ∧
    (token.Status.Accessor = "" →
      ∀ t tr2, r.Vault.TokenCreate tr (TokenReconciler.createRequest token) = Except.ok t →
        TokenReconciler.createK8sSecret r token t.ClientToken
          (tr ++ [RAction.vault (VaultCall.createToken (TokenReconciler.createRequest token))]) =
            (none, tr2) →
        (TokenReconciler.create r token tr).2 =
          tr2 ++ [RAction.statusUpdate (TokenReconciler.withCondition
            { token with Status := { token.Status with Accessor := t.Accessor } }
            ConditionTrue "Configured" "Successfully created token engine in Vault")]) := by
  refine ⟨fun h => by simp [TokenReconciler.create, h], fun h err he => ?_,
    fun h t err tr2 ht hs => ?_, fun h t tr2 ht hs => ?_⟩
  · simp only [TokenReconciler.create, h, if_true, he]
    split <;> simp
  · simp only [TokenReconciler.create, h, if_true, ht, hs]
    refine ⟨?_, fun o ho => ?_, fun err2 ho => ?_⟩
    · split <;> simp
    · simp [ho]
    · simp [ho]
  · simp only [TokenReconciler.create, h, if_true, ht, hs]
    split <;> simp

/-- In every pass of the loop of `PeriodicallyRenewLeases` (the pass after any number `n`
of earlier ones), `login` is called, once, exactly when the cycle ended with the done
channel of the watcher delivering a nil error.  A cycle that ended any other way calls no
login; when the done channel delivers a non-nil error the process ends. -/
theorem login_iff_doneCh_nil (env : Env) (n : Nat) (v0 : Vault) (authToken : Option Secret)
    (st0 : World) (v : Vault) (cur : Option Secret) (st : World)
    (hn : loopState env n v0 authToken st0 = some (v, cur, st)) :
    (PeriodicallyRenewLeases env (n + 1) v0 authToken st0).2 = (loopBody env v cur st).world ∧
    (sawDoneCh env v cur st none →
      loginCalls (passTrace env v cur st) = 1 ∧
      Action.login st.logins ∈ passTrace env v cur st) ∧
    (¬ sawDoneCh env v cur st none → loginCalls (passTrace env v cur st) = 0) ∧
    (∀ e, sawDoneCh env v cur st (some e) →
      loginCalls (passTrace env v cur st) = 0 ∧
      ∃ st1, loopBody env v cur st = Step.halt (Outcome.fatal ("renew error: " ++ e)) st1) := by
  refine ⟨?_, ?_⟩
  · rw [PeriodicallyRenewLeases_of_loopState env n 1 v0 authToken st0 v cur st hn,
      PeriodicallyRenewLeases_one]
  have hc := fun evs => loginCalls_cycleTrace st.watchers cur evs
  have hlt := loginCalls_loginTrace env v st.logins
  have hmem : Action.login st.logins ∈ loginTrace env v st.logins := by simp [loginTrace]
  unfold sawDoneCh cycleTraceOf passTrace
  obtain ⟨ds, h⟩ := loopBody_cases env v cur st
  rcases h with ⟨e, _, hr, hb⟩ | ⟨_, hr, hb⟩ | ⟨_, hr, hb⟩ | ⟨e, _, hr, hb⟩ |
    ⟨err, _, hr, _, hb⟩ | ⟨s, _, hr, _, hb⟩
  · rw [hr, hb]
    simp [Step.world, loginCalls, Action.isLogin]
  · rw [hr, hb]
    simp [Step.world, loginCalls, Action.isLogin, List.countP_eq_zero]
  · rw [hr, hb]
    simp only [Step.world, afterCycle, List.drop_left, recv_doneCh_mem_cycleTrace, hc]
    simp
  · rw [hr, hb]
    simp only [Step.world, afterCycle, List.drop_left, recv_doneCh_mem_cycleTrace, hc]
    simp
  · rw [hr, hb]
    simp only [Step.world, afterCycle, afterRelogin, List.drop_left,
      recv_doneCh_mem_cycleTrace]
    have h1 := hc (ds.map Event.renewCh ++ [Event.doneCh none])
    simp only [loginCalls, List.countP_append] at h1 hlt ⊢
    rw [h1, hlt]
    simp [hmem]
  · rw [hr, hb]
    simp only [Step.world, afterCycle, afterRelogin, List.drop_left,
      recv_doneCh_mem_cycleTrace]
    have h1 := hc (ds.map Event.renewCh ++ [Event.doneCh none])
    simp only [loginCalls, List.countP_append] at h1 hlt ⊢
    rw [h1, hlt]
    simp [hmem]

/-- C1, at a failing input: the loop is started on a secret whose renewal fails, so the
cycle of the first watcher ends on the terminal event of the watcher, the done channel
delivering a non-nil error.  The run calls no login: the process ends in `log.Fatalf`
with `renew error`. -/
theorem failed_renewal_ends_without_login :
    sawDoneCh rejectedRenewalEnv demoVault (some staleSecret) World.init
      (some "renewal failed") ∧
    (renewLeases rejectedRenewalEnv demoVault (some staleSecret) World.init).1 =
      some (expiringAuthToken, some "renewal failed") ∧
    loginCalls (runTrace rejectedRenewalEnv 5 demoVault (some staleSecret) World.init) = 0 ∧
    PeriodicallyRenewLeases rejectedRenewalEnv 5 demoVault (some staleSecret) World.init =
      (Outcome.fatal "renew error: renewal failed",
        { logins := 0, watchers := 1,
          trace := [Action.newLifetimeWatcher 0 (some staleSecret), Action.watcherStart 0,
            Action.recv 0 (Event.doneCh (some "renewal failed")), Action.watcherStop 0] }) := by
  decide

/-- C2: when the watcher is built and the `select` loop of `renewLeases` is delivered
`n` renewal notifications, then one terminal event, then anything else, `renewLeases`
receives exactly those `n + 1` events, stops the watcher and returns: `(exitRequested, nil)`
when the terminal event is the cancellation, `(expiringAuthToken, e)` when the done
channel delivers `e`.  Nothing after the terminal event is received. -/
theorem renewLeases_consumes_until_terminal (env : Env) (v : Vault)
    (authToken : Option Secret) (st : World) (ds : List Int) (rest : List Event)
    (hw : env.NewLifetimeWatcher st.watchers v.Client authToken = none) :
    (env.events st.watchers = ds.map Event.renewCh ++ Event.ctxDone :: rest →
      renewLeases env v authToken st =
        (some (exitRequested, none),
          { logins := st.logins, watchers := st.watchers + 1,
            trace := st.trace ++
            cycleTrace st.watchers authToken (ds.map Event.renewCh ++ [Event.ctxDone]) })) ∧
    (∀ e, env.events st.watchers = ds.map Event.renewCh ++ Event.doneCh e :: rest →
      renewLeases env v authToken st =
        (some (expiringAuthToken, e),
          { logins := st.logins, watchers := st.watchers + 1,
            trace := st.trace ++
            cycleTrace st.watchers authToken (ds.map Event.renewCh ++ [Event.doneCh e]) })) ∧
    (ds.map Event.renewCh ++ [Event.ctxDone]).length = ds.length + 1 := by
  refine ⟨?_, ?_, by simp⟩
  · intro hev
    simp [renewLeases, hw, hev, selectLoop_renewals, selectLoop, World.record, cycleTrace]
  · intro e hev
    simp [renewLeases, hw, hev, selectLoop_renewals, selectLoop, World.record, cycleTrace]

/-- Witness for C2, on the cancellation and on the done channel. -/
theorem renewLeases_consumes_until_terminal_witness :
    renewLeases cancelEnv demoVault (some (demoSecret 0))
        { logins := 1, watchers := 1, trace := [] } =
      (some (exitRequested, none),
        { logins := 1, watchers := 2,
          trace := [Action.newLifetimeWatcher 1 (some (demoSecret 0)), Action.watcherStart 1,
            Action.recv 1 (Event.renewCh 3600), Action.recv 1 Event.ctxDone,
            Action.watcherStop 1] }) ∧
    renewLeases demoEnv demoVault none World.init =
      (some (expiringAuthToken, none),
        { logins := 0, watchers := 1,
          trace := [Action.newLifetimeWatcher 0 none, Action.watcherStart 0,
            Action.recv 0 (Event.renewCh 3600), Action.recv 0 (Event.renewCh 3600),
            Action.recv 0 (Event.doneCh none), Action.watcherStop 0] }) :=
  ⟨(renewLeases_consumes_until_terminal cancelEnv demoVault (some (demoSecret 0))
      { logins := 1, watchers := 1, trace := [] } [3600]
      [Event.renewCh 1800, Event.doneCh none] rfl).1 rfl,
    (renewLeases_consumes_until_terminal demoEnv demoVault none World.init [3600, 3600] []
      rfl).2.1 none rfl⟩

/-- C3: after any number `n` of earlier passes of the loop, when the watcher is built and
the first event that is not a renewal is the cancellation, `renewLeases` stops the
watcher and returns `exitRequested` with a nil error, and `PeriodicallyRenewLeases`
returns in the world that cycle left: no login is called and no further watcher is
built. -/
theorem cancellation_stops_watcher_and_returns (env : Env) (n fuel : Nat) (v0 : Vault)
    (authToken : Option Secret) (st0 : World) (v : Vault) (cur : Option Secret) (st : World)
    (ds : List Int) (rest : List Event)
    (hn : loopState env n v0 authToken st0 = some (v, cur, st))
    (hw : env.NewLifetimeWatcher st.watchers v.Client cur = none)
    (hev : env.events st.watchers = ds.map Event.renewCh ++ Event.ctxDone :: rest) :
    (renewLeases env v cur st).1 = some (exitRequested, none) ∧
    (renewLeases env v cur st).2.trace.getLast? = some (Action.watcherStop st.watchers) ∧
    PeriodicallyRenewLeases env (n + (fuel + 1)) v0 authToken st0 =
      (Outcome.returned, (renewLeases env v cur st).2) ∧
    (renewLeases env v cur st).2 =
      { logins := st.logins, watchers := st.watchers + 1,
        trace := st.trace ++ ([Action.newLifetimeWatcher st.watchers cur,
          Action.watcherStart st.watchers] ++
          (ds.map Event.renewCh).map (Action.recv st.watchers) ++
          [Action.recv st.watchers Event.ctxDone, Action.watcherStop st.watchers]) } ∧
    loginCalls (renewLeases env v cur st).2.trace = loginCalls st.trace ∧
    watchersCreated (renewLeases env v cur st).2.trace = watchersCreated st.trace + 1 := by
  have hr : renewLeases env v cur st =
      (some (exitRequested, none),
        afterCycle st cur (ds.map Event.renewCh ++ [Event.ctxDone])) := by
    simp [renewLeases, hw, hev, selectLoop_renewals, selectLoop, World.record, cycleTrace,
      afterCycle]
  refine ⟨by rw [hr], ?_, ?_, ?_, ?_, ?_⟩
  · rw [hr]
    simp only [afterCycle, cycleTrace]
    rw [← List.append_assoc, List.getLast?_concat]
  · rw [PeriodicallyRenewLeases_of_loopState env n (fuel + 1) v0 authToken st0 v cur st hn,
      PeriodicallyRenewLeases_of_halt env fuel v cur st _ _ (loopBody_of_exit hr), hr]
  · rw [hr]
    simp [afterCycle, cycleTrace]
  · rw [hr]
    simp only [afterCycle, loginCalls, List.countP_append]
    have := loginCalls_cycleTrace st.watchers cur (ds.map Event.renewCh ++ [Event.ctxDone])
    simp only [loginCalls] at this
    omega
  · rw [hr]
    simp only [afterCycle, watchersCreated, List.countP_append]
    have := watchersCreated_cycleTrace st.watchers cur
      (ds.map Event.renewCh ++ [Event.ctxDone])
    simp only [watchersCreated] at this
    omega

/-- Witness for C3: one renew and re-login cycle, then the cancellation. -/
theorem cancellation_stops_watcher_and_returns_witness :
    PeriodicallyRenewLeases cancelEnv (1 + (2 + 1)) demoVault none World.init =
      (Outcome.returned,
        { logins := 1, watchers := 2,
          trace := [Action.newLifetimeWatcher 0 none, Action.watcherStart 0,
            Action.recv 0 (Event.renewCh 3600), Action.recv 0 (Event.doneCh none),
            Action.watcherStop 0, Action.login 0,
            Action.authLogin 0
              { roleName := "operator",
                tokenPath := "/var/run/secrets/kubernetes.io/serviceaccount/token",
                mountPath := "kubernetes" },
            Action.newLifetimeWatcher 1 (some (demoSecret 0)), Action.watcherStart 1,
            Action.recv 1 (Event.renewCh 3600), Action.recv 1 Event.ctxDone,
            Action.watcherStop 1] }) :=
  (cancellation_stops_watcher_and_returns cancelEnv 1 2 demoVault none World.init demoVault
    (some (demoSecret 0))
    { logins := 1, watchers := 1,
      trace := [Action.newLifetimeWatcher 0 none, Action.watcherStart 0,
        Action.recv 0 (Event.renewCh 3600), Action.recv 0 (Event.doneCh none),
        Action.watcherStop 0, Action.login 0,
        Action.authLogin 0
          { roleName := "operator",
            tokenPath := "/var/run/secrets/kubernetes.io/serviceaccount/token",
            mountPath := "kubernetes" }] }
    [3600] [Event.renewCh 1800, Event.doneCh none] rfl rfl rfl).2.2.1

/-- C4: call number `k + 1` of `renewLeases` in `PeriodicallyRenewLeases` (the pass after `k`
earlier ones) builds watcher number `k` of the run, and builds it for the current token:
the `authToken` argument when `k = 0`, and for `k = j + 1` the secret that login number
`j` of the run returned, with a nil error; `k` logins have been made by then, so that
secret is the latest one.  The pass builds no other watcher, and every watcher built
during a run is the one built at the start of such a pass. -/
theorem watcher_bound_to_latest_secret (env : Env) (v0 : Vault) (authToken : Option Secret)
    (st0 : World) :
    (∀ k v cur st, loopState env k v0 authToken st0 = some (v, cur, st) →
      (PeriodicallyRenewLeases env (k + 1) v0 authToken st0).2.trace =
        st.trace ++ passTrace env v cur st ∧
      (∃ tail, passTrace env v cur st =
          Action.newLifetimeWatcher (st0.watchers + k) cur :: tail ∧
        watchersCreated tail = 0) ∧
      st.logins = st0.logins + k ∧
      (k = 0 → cur = authToken) ∧
      (∀ j, k = j + 1 →
        ∃ s, cur = some s ∧ loginAnswer env v0 (st0.logins + j) = (some s, none))) ∧
    (∀ fuel w s, Action.newLifetimeWatcher w s ∈ runTrace env fuel v0 authToken st0 →
      ∃ k v cur st, loopState env k v0 authToken st0 = some (v, cur, st) ∧
        w = st0.watchers + k ∧ s = cur) := by
  refine ⟨?_, fun fuel w s h => newLifetimeWatcher_mem_runTrace env fuel v0 authToken st0 w s h⟩
  intro k v cur st hk
  obtain ⟨hv, hw, hl, h0, hj⟩ := loopState_invariant env k v0 authToken st0 v cur st hk
  refine ⟨?_, ?_, hl, h0, hj⟩
  · rw [PeriodicallyRenewLeases_of_loopState env k 1 v0 authToken st0 v cur st hk,
      PeriodicallyRenewLeases_one, loopBody_trace]
  · rw [← hw]
    exact passTrace_head env v cur st

/-- Witness for C4: in a run of three passes the watchers are built for the argument, then
for the secret of the first login, then for the secret of the second. -/
theorem watcher_bound_to_latest_secret_witness :
    (runTrace demoEnv 3 demoVault none World.init).filter Action.isNewWatcher =
      [Action.newLifetimeWatcher 0 none, Action.newLifetimeWatcher 1 (some (demoSecret 0)),
        Action.newLifetimeWatcher 2 (some (demoSecret 1))] ∧
    ∃ s, some (demoSecret 1) = some s ∧
      loginAnswer demoEnv demoVault (0 + 1) = (some s, none) :=
  ⟨by decide,
    ((watcher_bound_to_latest_secret demoEnv demoVault none World.init).1 2 demoVault
      (some (demoSecret 1)) (demoCycles 2) (by decide)).2.2.2.2 1 rfl⟩

/-- C5: in every run of `PeriodicallyRenewLeases`, after every initial part of the trace of
the run at most one watcher is started and not yet stopped; none is whenever the next
action builds a watcher; and none is at the end of the run, whether the loop returned,
the process ended or the fuel ran out, unless a `select` blocked for ever. -/
theorem one_watcher_at_a_time (env : Env) (fuel : Nat) (v : Vault)
    (authToken : Option Secret) (st : World) :
    (PeriodicallyRenewLeases env fuel v authToken st).2.trace =
      st.trace ++ runTrace env fuel v authToken st ∧
    (∀ p, p <+: runTrace env fuel v authToken st → (activeWatchers p).length ≤ 1) ∧
    (∀ p w s, p ++ [Action.newLifetimeWatcher w s] <+: runTrace env fuel v authToken st →
      activeWatchers p = []) ∧
    ((PeriodicallyRenewLeases env fuel v authToken st).1 = Outcome.returned →
      activeWatchers (runTrace env fuel v authToken st) = []) ∧
    ((PeriodicallyRenewLeases env fuel v authToken st).1 ≠ Outcome.blocked →
      activeWatchers (runTrace env fuel v authToken st) = []) := by
  obtain ⟨hd, ha⟩ := disciplined_runTrace env fuel v authToken st
  refine ⟨PeriodicallyRenewLeases_trace env fuel v authToken st,
    fun p hp => (disciplined_sound [] _ hd p hp).1,
    fun p w s hp =>
      (disciplined_sound [] _ hd p (List.IsPrefix.trans (List.prefix_append _ _) hp)).2 w s hp,
    fun h => ha (by rw [h]; decide), ha⟩

/-- Witness for C5: the run that logs in again once and is then cancelled ends with no
active watcher, and had one active watcher while its second cycle was receiving. -/
theorem one_watcher_at_a_time_witness :
    activeWatchers (runTrace cancelEnv 4 demoVault none World.init) = [] ∧
    activeWatchers ((runTrace cancelEnv 4 demoVault none World.init).take 10) = [1] :=
  ⟨(one_watcher_at_a_time cancelEnv 4 demoVault none World.init).2.2.2.1 (by decide),
    by decide⟩

/-- C6, as stated, fails: the backend refuses the first three logins and would accept the
fourth, and `PeriodicallyRenewLeases` ends the process after the first refusal; one
login was made and no second watcher was built. -/
theorem login_retry_counterexample :
    (loginAnswer flakyLoginEnv demoVault 0).2 ≠ none ∧
    (loginAnswer flakyLoginEnv demoVault 1).2 ≠ none ∧
    (loginAnswer flakyLoginEnv demoVault 2).2 ≠ none ∧
    loginAnswer flakyLoginEnv demoVault 3 = (some (demoSecret 3), none) ∧
    PeriodicallyRenewLeases flakyLoginEnv 10 demoVault none World.init =
      (Outcome.fatal
        "login authentication error: unable to log in with Kubernetes auth: connection refused",
        { logins := 1, watchers := 1,
          trace := [Action.newLifetimeWatcher 0 none, Action.watcherStart 0,
            Action.recv 0 (Event.doneCh none), Action.watcherStop 0, Action.login 0,
            Action.authLogin 0
              { roleName := "operator",
                tokenPath := "/var/run/secrets/kubernetes.io/serviceaccount/token",
                mountPath := "kubernetes" }] }) := by
  decide

/-- C6, amended: after any number `n` of earlier passes, when the watcher reports nil on
its done channel and the login that follows fails, `PeriodicallyRenewLeases` makes no
second attempt: the process ends with that error after one invocation of `login`,
whatever later logins would answer, and only the watcher of that cycle was built. -/
theorem first_failed_login_is_fatal (env : Env) (n fuel : Nat) (v0 : Vault)
    (authToken : Option Secret) (st0 : World) (v : Vault) (cur : Option Secret) (st : World)
    (ds : List Int) (rest : List Event) (err : Err)
    (hn : loopState env n v0 authToken st0 = some (v, cur, st))
    (hw : env.NewLifetimeWatcher st.watchers v.Client cur = none)
    (hev : env.events st.watchers = ds.map Event.renewCh ++ Event.doneCh none :: rest)
    (hl : (loginAnswer env v st.logins).2 = some err) :
    PeriodicallyRenewLeases env (n + (fuel + 1)) v0 authToken st0 =
      (Outcome.fatal ("login authentication error: " ++ err),
        afterRelogin env v st cur (ds.map Event.renewCh ++ [Event.doneCh none])) ∧
    (afterRelogin env v st cur (ds.map Event.renewCh ++ [Event.doneCh none])).logins =
      st.logins + 1 ∧
    loginCalls (afterRelogin env v st cur (ds.map Event.renewCh ++ [Event.doneCh none])).trace =
      loginCalls st.trace + 1 ∧
    watchersCreated
        (afterRelogin env v st cur (ds.map Event.renewCh ++ [Event.doneCh none])).trace =
      watchersCreated st.trace + 1 := by
  have hr : renewLeases env v cur st =
      (some (expiringAuthToken, none),
        afterCycle st cur (ds.map Event.renewCh ++ [Event.doneCh none])) := by
    simp [renewLeases, hw, hev, selectLoop_renewals, selectLoop, World.record, cycleTrace,
      afterCycle]
  have hb := loopBody_of_expiring hr
  rcases ha : loginAnswer env v st.logins with ⟨tok, e2⟩
  rw [ha] at hl
  simp only at hl
  subst hl
  simp only [afterCycle, ha, login_world] at hb
  have h1 := loginCalls_cycleTrace st.watchers cur (ds.map Event.renewCh ++ [Event.doneCh none])
  have h2 := loginCalls_loginTrace env v st.logins
  have h3 := watchersCreated_cycleTrace st.watchers cur
    (ds.map Event.renewCh ++ [Event.doneCh none])
  have h4 := watchersCreated_loginTrace env v st.logins
  simp only [loginCalls, watchersCreated] at h1 h2 h3 h4
  refine ⟨?_, rfl, ?_, ?_⟩
  · rw [PeriodicallyRenewLeases_of_loopState env n (fuel + 1) v0 authToken st0 v cur st hn,
      PeriodicallyRenewLeases_of_halt env fuel v cur st _ _ hb]
    simp [afterRelogin]
  · simp only [afterRelogin, loginCalls, List.countP_append]
    omega
  · simp only [afterRelogin, watchersCreated, List.countP_append]
    omega

/-- Witness for C6, amended: the backend that refuses three logins and accepts the fourth. -/
theorem first_failed_login_is_fatal_witness :
    PeriodicallyRenewLeases flakyLoginEnv (0 + (9 + 1)) demoVault none World.init =
      (Outcome.fatal
        ("login authentication error: " ++
          "unable to log in with Kubernetes auth: connection refused"),
        afterRelogin flakyLoginEnv demoVault World.init none
          (List.map Event.renewCh [] ++ [Event.doneCh none])) :=
  (first_failed_login_is_fatal flakyLoginEnv 0 9 demoVault none World.init demoVault none
    World.init [] [] "unable to log in with Kubernetes auth: connection refused" rfl rfl rfl
    rfl).1

/-- C7: after any number `n` of earlier passes, `PeriodicallyRenewLeases` ends the process
(a) when the lifetime watcher cannot be built: `renewLeases` returns `renewError` with a
non-nil error, the trace holds the failed `NewLifetimeWatcher` call and nothing else (no
watcher started, no login); (b) when the login after an expired token returns an error:
the trace grows by that one invocation of `login` only (no second login, no watcher). -/
theorem fatal_on_login_or_watcher_error (env : Env) (n fuel : Nat) (v0 : Vault)
    (authToken : Option Secret) (st0 : World) (v : Vault) (cur : Option Secret) (st : World)
    (hn : loopState env n v0 authToken st0 = some (v, cur, st)) :
    (∀ e, env.NewLifetimeWatcher st.watchers v.Client cur = some e →
      renewLeases env v cur st =
        (some (renewError, some ("unable to initialize auth token lifetime watcher: " ++ e)),
          { logins := st.logins, watchers := st.watchers + 1,
            trace := st.trace ++ [Action.newLifetimeWatcher st.watchers cur] }) ∧
      PeriodicallyRenewLeases env (n + (fuel + 1)) v0 authToken st0 =
        (Outcome.fatal
          ("renew error: " ++ ("unable to initialize auth token lifetime watcher: " ++ e)),
          { logins := st.logins, watchers := st.watchers + 1,
            trace := st.trace ++ [Action.newLifetimeWatcher st.watchers cur] })) ∧
    (∀ st1 err, renewLeases env v cur st = (some (expiringAuthToken, none), st1) →
      (login env v st1).1.2 = some err →
      PeriodicallyRenewLeases env (n + (fuel + 1)) v0 authToken st0 =
        (Outcome.fatal ("login authentication error: " ++ err),
          { logins := st1.logins + 1, watchers := st1.watchers,
            trace := st1.trace ++ loginTrace env v st1.logins }) ∧
      loginCalls (loginTrace env v st1.logins) = 1 ∧
      watchersCreated (loginTrace env v st1.logins) = 0) := by
  refine ⟨?_, ?_⟩
  · intro e he
    have hr : renewLeases env v cur st =
        (some (renewError, some ("unable to initialize auth token lifetime watcher: " ++ e)),
          { logins := st.logins, watchers := st.watchers + 1,
            trace := st.trace ++ [Action.newLifetimeWatcher st.watchers cur] }) := by
      simp [renewLeases, he]
    refine ⟨hr, ?_⟩
    rw [PeriodicallyRenewLeases_of_loopState env n (fuel + 1) v0 authToken st0 v cur st hn,
      PeriodicallyRenewLeases_of_halt env fuel v cur st _ _ (loopBody_of_error hr)]
  · intro st1 err hr hl
    refine ⟨?_, loginCalls_loginTrace env v _, watchersCreated_loginTrace env v _⟩
    have hb := loopBody_of_expiring hr
    rw [login_answer] at hl
    rcases ha : loginAnswer env v st1.logins with ⟨tok, e2⟩
    rw [ha] at hl hb
    simp only at hl
    subst hl
    simp only [login_world] at hb
    rw [PeriodicallyRenewLeases_of_loopState env n (fuel + 1) v0 authToken st0 v cur st hn,
      PeriodicallyRenewLeases_of_halt env fuel v cur st _ _ hb]

/-- Witness for C7: a watcher that cannot be built in the first pass, and a refused login
after the first cycle. -/
theorem fatal_on_login_or_watcher_error_witness :
    PeriodicallyRenewLeases noWatcherEnv (0 + (3 + 1)) demoVault none World.init =
      (Outcome.fatal
        "renew error: unable to initialize auth token lifetime watcher: missing secret",
        { logins := 0, watchers := 1, trace := [Action.newLifetimeWatcher 0 none] }) ∧
    PeriodicallyRenewLeases flakyLoginEnv (0 + (3 + 1)) demoVault none World.init =
      (Outcome.fatal
        "login authentication error: unable to log in with Kubernetes auth: connection refused",
        { logins := 1, watchers := 1,
          trace := [Action.newLifetimeWatcher 0 none, Action.watcherStart 0,
            Action.recv 0 (Event.doneCh none), Action.watcherStop 0, Action.login 0,
            Action.authLogin 0
              { roleName := "operator",
                tokenPath := "/var/run/secrets/kubernetes.io/serviceaccount/token",
                mountPath := "kubernetes" }] }) :=
  ⟨((fatal_on_login_or_watcher_error noWatcherEnv 0 3 demoVault none World.init demoVault
      none World.init rfl).1 "missing secret" rfl).2,
    ((fatal_on_login_or_watcher_error flakyLoginEnv 0 3 demoVault none World.init demoVault
      none World.init rfl).2
      { logins := 0, watchers := 1,
        trace := [Action.newLifetimeWatcher 0 none, Action.watcherStart 0,
          Action.recv 0 (Event.doneCh none), Action.watcherStop 0] }
      "unable to log in with Kubernetes auth: connection refused" rfl rfl).1⟩

/-- C8: `login` returns `(secret, nil)` exactly when the Kubernetes auth method was
constructed, the backend `Login` returned a nil error and non-nil auth info; the secret
is then the backend's auth info.  In every other case it returns a nil secret and a
non-nil error, so the secret is nil exactly when the error is not. -/
theorem login_result_cases (env : Env) (v : Vault) (st : World) :
    ((∃ s, (login env v st).1 = (some s, none)) ↔
      ∃ a, env.authMethod v st.logins = Except.ok a ∧
        (env.AuthLogin st.logins v.Client a).2 = none ∧
        (env.AuthLogin st.logins v.Client a).1 ≠ none) ∧
    (∀ a, env.authMethod v st.logins = Except.ok a →
        (env.AuthLogin st.logins v.Client a).2 = none →
        (env.AuthLogin st.logins v.Client a).1 ≠ none →
        (login env v st).1 = ((env.AuthLogin st.logins v.Client a).1, none)) ∧
    ((¬ ∃ s, (login env v st).1 = (some s, none)) →
        (login env v st).1.1 = none ∧ (login env v st).1.2 ≠ none) ∧
    ((login env v st).1.1 = none ↔ (login env v st).1.2 ≠ none) := by
  unfold login Env.authMethod
  cases h : env.NewKubernetesAuth st.logins v.parameters.Role v.parameters.TokenPath
      v.parameters.AuthPath with
  | error e => simp [h]
  | ok a =>
    rcases h2 : env.AuthLogin st.logins v.Client a with ⟨_ | s, _ | e⟩ <;> simp [h, h2]

/-- Witness for C8: a login the backend accepts returns the backend's auth info, and a
login the backend refuses returns a nil secret and an error. -/
theorem login_result_cases_witness :
    (login demoEnv demoVault World.init).1 = (some (demoSecret 0), none) ∧
    ((login flakyLoginEnv demoVault World.init).1.1 = none ∧
      (login flakyLoginEnv demoVault World.init).1.2 ≠ none) :=
  ⟨(login_result_cases demoEnv demoVault World.init).2.1
      { roleName := "operator",
        tokenPath := "/var/run/secrets/kubernetes.io/serviceaccount/token",
        mountPath := "kubernetes" } rfl rfl (by decide),
    (login_result_cases flakyLoginEnv demoVault World.init).2.2.1
      (by
        rintro ⟨s, hs⟩
        have h2 : (login flakyLoginEnv demoVault World.init).1.2 = none := by rw [hs]
        exact absurd h2 (by decide))⟩

/-- C10: `NewVaultKubernetesClient` returns a nil handle, a nil token and a non-nil error
when the client cannot be initialised or the first login fails; when both succeed it
returns a nil error, the handle for the given parameters and the token of that login.
So a handle is returned only after a successful login. -/
theorem newVaultKubernetesClient_handle_after_login (env : Env) (p : Parameters)
    (st : World) :
    (∀ e, env.NewClient p.Address = Except.error e →
      (NewVaultKubernetesClient env p st).1 =
        (none, none, some ("unable to initialize vault client: " ++ e))) ∧
    (∀ c e, env.NewClient p.Address = Except.ok c →
      (login env { Client := c, parameters := p } st).1.2 = some e →
      (NewVaultKubernetesClient env p st).1 =
        (none, none, some ("vault login error: " ++ e))) ∧
    (∀ c, env.NewClient p.Address = Except.ok c →
      (login env { Client := c, parameters := p } st).1.2 = none →
      (NewVaultKubernetesClient env p st).1 =
        (some { Client := c, parameters := p },
          (login env { Client := c, parameters := p } st).1.1, none)) ∧
    (∀ h, (NewVaultKubernetesClient env p st).1.1 = some h →
      h.parameters = p ∧ (NewVaultKubernetesClient env p st).1.2.2 = none ∧
      ∃ c s, env.NewClient p.Address = Except.ok c ∧
        (login env { Client := c, parameters := p } st).1 = (some s, none) ∧
        (NewVaultKubernetesClient env p st).1.2.1 = some s) := by
  unfold NewVaultKubernetesClient
  refine ⟨?_, ?_, ?_, ?_⟩
  · intro e he
    simp [he]
  · intro c e hc hl
    rcases hl2 : login env { Client := c, parameters := p } st with ⟨⟨tok, err⟩, v1, st1⟩
    rw [hl2] at hl
    simp only at hl
    subst hl
    simp [hc, hl2]
  · intro c hc hl
    have hvc := login_receiver env { Client := c, parameters := p } st
    rcases hl2 : login env { Client := c, parameters := p } st with ⟨⟨tok, err⟩, v1, st1⟩
    rw [hl2] at hl hvc
    simp only at hl hvc
    subst hl hvc
    simp [hc, hl2]
  · intro h hh
    cases hc : env.NewClient p.Address with
    | error e => simp [hc] at hh
    | ok c =>
      have hvc := login_receiver env { Client := c, parameters := p } st
      have hrc := login_nil_secret_iff env { Client := c, parameters := p } st
      rcases hl2 : login env { Client := c, parameters := p } st with ⟨⟨tok, _ | e⟩, v1, st1⟩
      · rw [hl2] at hvc hrc
        simp only at hvc hrc
        subst hvc
        cases tok with
        | none => simp at hrc
        | some s =>
          simp only [hc, hl2, Option.some.injEq] at hh
          subst hh
          simp [hc, hl2]
      · simp [hc, hl2] at hh

/-- Witness for C10: a handle and a token when the backend accepts the login, neither when
it refuses. -/
theorem newVaultKubernetesClient_handle_after_login_witness :
    (NewVaultKubernetesClient demoEnv demoParameters World.init).1 =
      (some demoVault, some (demoSecret 0), none) ∧
    (NewVaultKubernetesClient flakyLoginEnv demoParameters World.init).1 =
      (none, none,
        some ("vault login error: " ++
          "unable to log in with Kubernetes auth: connection refused")) :=
  ⟨(newVaultKubernetesClient_handle_after_login demoEnv demoParameters World.init).2.2.1
      demoClient rfl rfl,
    (newVaultKubernetesClient_handle_after_login flakyLoginEnv demoParameters
      World.init).2.1 demoClient "unable to log in with Kubernetes auth: connection refused"
      rfl rfl⟩

/-- C11: `IsDifferentFromSpec` returns false exactly when the four list fields are equal
with the same nil-ness (a nil list differs from an empty one) and the nine scalar fields
are equal; the `AuthPath` of the spec does not enter the result. -/
theorem isDifferentFromSpec_false_iff (k : vault.KubernetesRole)
    (s : v1beta1.KubernetesRoleSpec) :
    (k.IsDifferentFromSpec s = false ↔
      k.BoundServiceAccountNames = s.BoundServiceAccountNames ∧
      k.BoundServiceAccountNamespaces = s.BoundServiceAccountNamespaces ∧
      k.TokenPolicies = s.TokenPolicies ∧
      k.TokenBoundCIDRs = s.TokenBoundCIDRs ∧
      k.Audience = s.Audience ∧
      k.AliasNameSource = s.AliasNameSource ∧
      k.TokenTTL = s.TokenTTL ∧
      k.TokenMaxTTL = s.TokenMaxTTL ∧
      k.TokenExplicitMaxTTL = s.TokenExplicitMaxTTL ∧
      k.TokenNoDefaultPolicy = s.TokenNoDefaultPolicy ∧
      k.TokenNumUses = s.TokenNumUses ∧
      k.TokenPeriod = s.TokenPeriod ∧
      k.TokenType = s.TokenType) ∧
    (∀ authPath, k.IsDifferentFromSpec { s with AuthPath := authPath } =
      k.IsDifferentFromSpec s) ∧
    vault.DeepEqual none (some []) = false ∧ vault.DeepEqual (some []) none = false := by
  refine ⟨?_, fun _ => rfl, rfl, rfl⟩
  simp only [vault.KubernetesRole.IsDifferentFromSpec, Bool.or_eq_false_iff,
    Bool.not_eq_false', deepEqual_iff, bne_eq_false_iff_eq, and_assoc]

/-- C12: for a role object that exists, is not being deleted, whose status and finalizer
updates succeeded and whose remote fetch succeeds, `Reconcile` writes the role to Vault
exactly when the fetched remote role is absent or differs from the spec.  When the remote
role equals the spec, `Reconcile` returns success after the read; what it does after the
status and finalizer updates holds no Vault write and no status update, and the only
status update of the whole run is the first one of an object that had no conditions. -/
theorem role_write_iff_absent_or_different (r : KubernetesRoleReconciler)
    (req : NamespacedName) (tr : List (RAction v1beta1.KubernetesRole))
    (role0 role1 role : v1beta1.KubernetesRole)
    (tr1 tr2 tr3 : List (RAction v1beta1.KubernetesRole))
    (kr : Option vault.KubernetesRole)
    (hget : r.Client.Get tr req = Except.ok role0)
    (hinit : KubernetesRoleReconciler.initStatus r req role0 (tr ++ [RAction.get req]) =
      (Except.ok role1, tr1))
    (hz : Time.IsZero role1.ObjectMeta.DeletionTimestamp = true)
    (hfin : KubernetesRoleReconciler.ensureFinalizer r req role1 tr1 = (Except.ok role, tr2))
    (hfetch : KubernetesRoleReconciler.fetchVaultKubernetesRole r role tr2 =
      ((kr, none), tr3)) :
    ((∃ a ∈ (KubernetesRoleReconciler.Reconcile r req tr).2.drop tr.length,
        a.isVaultWrite = true) ↔
      (kr = none ∨ ∃ k, kr = some k ∧ k.IsDifferentFromSpec role.Spec = true)) ∧
    (∀ k, kr = some k → k.IsDifferentFromSpec role.Spec = false →
      KubernetesRoleReconciler.Reconcile r req tr =
        (none, tr2 ++ [RAction.vault
          (VaultCall.logicalRead (KubernetesRoleReconciler.rolePath role))]) ∧
      ((KubernetesRoleReconciler.Reconcile r req tr).2.drop tr.length).filter
          RAction.isStatusUpdate =
        (if role0.Status.Conditions.length = 0 then
          [RAction.statusUpdate
            (KubernetesRoleReconciler.withCondition role0 ConditionUnknown "Reconciling"
              "Starting reconciliation")]
        else []) ∧
      (∀ a ∈ (KubernetesRoleReconciler.Reconcile r req tr).2.drop tr2.length,
        a.isVaultWrite = false ∧ a.isStatusUpdate = false)) := by
  obtain ⟨pre1, hpre1, hv1, hs1⟩ := role_initStatus_trace r req role0 (tr ++ [RAction.get req])
  rw [hinit] at hpre1
  simp only at hpre1
  obtain ⟨pre2, hpre2, hv2⟩ := role_ensureFinalizer_trace r req role1 tr1
  rw [hfin] at hpre2
  simp only at hpre2
  have hrec : KubernetesRoleReconciler.Reconcile r req tr =
      KubernetesRoleReconciler.createOrUpdate r role tr2 := by
    simp [KubernetesRoleReconciler.Reconcile, hget, hinit, hz, hfin]
  obtain ⟨hsame, hdiff⟩ := role_createOrUpdate_trace r role tr2 tr3 kr hfetch
  have htr2 : tr2 = tr ++ ([RAction.get req] ++ pre1 ++ pre2) := by
    rw [hpre2, hpre1]
    simp
  have hnv : ∀ a ∈ [RAction.get req] ++ pre1 ++ pre2, a.isVaultWrite = false := by
    intro a ha
    simp only [List.mem_append, List.mem_singleton] at ha
    rcases ha with (rfl | ha) | ha
    · rfl
    · exact isVaultWrite_of_not_isVault a (hv1 a ha)
    · exact isVaultWrite_of_not_isVault a (hv2 a ha).1
  have hfs : pre2.filter RAction.isStatusUpdate = [] := by
    rw [List.filter_eq_nil_iff]
    intro a ha
    simp [(hv2 a ha).2]
  have hequal : ∀ k, kr = some k → k.IsDifferentFromSpec role.Spec = false →
      KubernetesRoleReconciler.Reconcile r req tr =
        (none, tr2 ++ [RAction.vault
          (VaultCall.logicalRead (KubernetesRoleReconciler.rolePath role))]) := by
    intro k hk hd
    rw [hrec]
    exact hsame k hk hd
  refine ⟨⟨?_, ?_⟩, fun k hk hd => ⟨hequal k hk hd, ?_, ?_⟩⟩
  · rintro ⟨a, ha, haw⟩
    cases kr with
    | none => exact Or.inl rfl
    | some k =>
      refine Or.inr ⟨k, rfl, ?_⟩
      cases hd : k.IsDifferentFromSpec role.Spec with
      | true => rfl
      | false =>
        exfalso
        rw [hequal k rfl hd, htr2] at ha
        simp only [List.append_assoc, List.drop_left] at ha
        simp only [List.mem_append, List.mem_singleton] at ha
        have : a.isVaultWrite = false := by
          rcases ha with rfl | ha | ha | rfl
          · rfl
          · exact isVaultWrite_of_not_isVault a (hv1 a ha)
          · exact isVaultWrite_of_not_isVault a (hv2 a ha).1
          · rfl
        rw [this] at haw
        cases haw
  · intro h
    obtain ⟨m, o, hm⟩ := hdiff h
    rw [hrec, hm, htr2]
    refine ⟨RAction.vault
      (VaultCall.logicalWrite (KubernetesRoleReconciler.rolePath role) m), ?_, rfl⟩
    simp
  · rw [hequal k hk hd, htr2]
    simp only [List.append_assoc, List.drop_left, List.filter_append, hfs, hs1]
    simp [RAction.isStatusUpdate]
  · rw [hequal k hk hd]
    intro a ha
    simp only [List.drop_left, List.mem_singleton] at ha
    subst ha
    exact ⟨rfl, rfl⟩

/-- C12: the statement at a concrete run, a configured role whose remote role equals the
spec: one read of Vault and success. -/
theorem role_write_iff_absent_or_different_witness :
    KubernetesRoleReconciler.Reconcile
        (demoReconciler (demoRole [demoConfigured]) demoRemoteRole "") demoReq [] =
      (none, [RAction.get demoReq] ++ [RAction.vault
        (VaultCall.logicalRead
          (KubernetesRoleReconciler.rolePath (demoRole [demoConfigured])))]) :=
  ((role_write_iff_absent_or_different
    (demoReconciler (demoRole [demoConfigured]) demoRemoteRole "") demoReq []
    (demoRole [demoConfigured]) (demoRole [demoConfigured]) (demoRole [demoConfigured])
    [RAction.get demoReq] [RAction.get demoReq]
    ([RAction.get demoReq] ++ [RAction.vault (VaultCall.logicalRead
      (KubernetesRoleReconciler.rolePath (demoRole [demoConfigured])))])
    (some demoRemoteRole) rfl rfl rfl rfl rfl).2 demoRemoteRole rfl (by decide)).1

/-- C13, as stated, fails: the policy `demo` asks for the empty text and the remote content
is empty, so the two are equal; `Reconcile` writes the policy all the same, because an
empty remote content is taken as a policy that is not there. -/
theorem policy_write_iff_counterexample :
    (demoPolicy "").ObjectMeta.Name ≠ "" ∧
    (demoVaultApi v1beta1.Policy "").GetPolicyWithContext [RAction.get demoReq] "demo" =
      ((demoPolicy "").Spec.Policy, none) ∧
    PolicyReconciler.Reconcile (demoReconciler (demoPolicy "") demoRemoteRole "") demoReq [] =
      (none,
        [RAction.get demoReq, RAction.vault (VaultCall.getPolicy "demo"),
          RAction.vault (VaultCall.putPolicy "demo" ""),
          RAction.statusUpdate
            (PolicyReconciler.withCondition (demoPolicy "") ConditionTrue "Configured"
              "Successfully pushed policy to Vault")]) := by
  decide

/-- C13, amended: for a policy object with a non-empty name that exists, is not being
deleted, and whose remote fetch succeeds, `Reconcile` writes the policy to Vault exactly
when the remote content is empty or differs from the text of the spec.  When the remote
content is non-empty and equals the text, `Reconcile` returns success after the fetch;
otherwise it writes the text of the spec. -/
theorem policy_write_iff_empty_or_different (r : PolicyReconciler)
    (req : NamespacedName) (tr : List (RAction v1beta1.Policy))
    (policy0 policy1 policy : v1beta1.Policy)
    (tr1 tr2 : List (RAction v1beta1.Policy)) (content : String)
    (hget : r.Client.Get tr req = Except.ok policy0)
    (hinit : PolicyReconciler.initStatus r req policy0 (tr ++ [RAction.get req]) =
      (Except.ok policy1, tr1))
    (hz : Time.IsZero policy1.ObjectMeta.DeletionTimestamp = true)
    (hfin : PolicyReconciler.ensureFinalizer r req policy1 tr1 = (Except.ok policy, tr2))
    (hname : policy.ObjectMeta.Name ≠ "")
    (hfetch : r.Vault.GetPolicyWithContext tr2 policy.ObjectMeta.Name = (content, none)) :
    ((∃ a ∈ (PolicyReconciler.Reconcile r req tr).2.drop tr.length, a.isVaultWrite = true) ↔
      (content = "" ∨ content ≠ policy.Spec.Policy)) ∧
    (content ≠ "" → content = policy.Spec.Policy →
      PolicyReconciler.Reconcile r req tr =
        (none, tr2 ++ [RAction.vault (VaultCall.getPolicy policy.ObjectMeta.Name)])) ∧
    ((content = "" ∨ content ≠ policy.Spec.Policy) →
      RAction.vault (VaultCall.putPolicy policy.ObjectMeta.Name policy.Spec.Policy) ∈
        (PolicyReconciler.Reconcile r req tr).2.drop tr.length) := by
  obtain ⟨pre1, hpre1, hv1, _⟩ := policy_initStatus_trace r req policy0 (tr ++ [RAction.get req])
  rw [hinit] at hpre1
  simp only at hpre1
  obtain ⟨pre2, hpre2, hv2⟩ := policy_ensureFinalizer_trace r req policy1 tr1
  rw [hfin] at hpre2
  simp only at hpre2
  have hrec : PolicyReconciler.Reconcile r req tr =
      PolicyReconciler.createOrUpdate r policy tr2 := by
    simp [PolicyReconciler.Reconcile, hget, hinit, hz, hfin]
  obtain ⟨hsame, hdiff⟩ := policy_createOrUpdate_trace r policy tr2 content hname hfetch
  have htr2 : tr2 = tr ++ ([RAction.get req] ++ pre1 ++ pre2) := by
    rw [hpre2, hpre1]
    simp
  have hput : (content = "" ∨ content ≠ policy.Spec.Policy) →
      RAction.vault (VaultCall.putPolicy policy.ObjectMeta.Name policy.Spec.Policy) ∈
        (PolicyReconciler.Reconcile r req tr).2.drop tr.length := by
    intro h
    obtain ⟨o, ho⟩ := hdiff h
    rw [hrec, ho, htr2]
    simp
  refine ⟨⟨?_, fun h => ⟨_, hput h, rfl⟩⟩, fun hc he => by rw [hrec]; exact hsame hc he, hput⟩
  rintro ⟨a, ha, haw⟩
  by_cases hc : content = ""
  · exact Or.inl hc
  · refine Or.inr ?_
    intro he
    rw [hrec, hsame hc he, htr2] at ha
    simp only [List.append_assoc, List.drop_left] at ha
    simp only [List.mem_append, List.mem_singleton] at ha
    have : a.isVaultWrite = false := by
      rcases ha with rfl | ha | ha | rfl
      · rfl
      · exact isVaultWrite_of_not_isVault a (hv1 a ha)
      · exact isVaultWrite_of_not_isVault a (hv2 a ha).1
      · rfl
    rw [this] at haw
    cases haw

/-- C13: the amended statement at a concrete run, a policy whose remote content differs
from the text of the spec: the text of the spec is written. -/
theorem policy_write_iff_empty_or_different_witness :
    RAction.vault (VaultCall.putPolicy "demo" "new rules") ∈
      (PolicyReconciler.Reconcile
        (demoReconciler (demoPolicy "new rules") demoRemoteRole "old")
        demoReq []).2 :=
  (policy_write_iff_empty_or_different
    (demoReconciler (demoPolicy "new rules") demoRemoteRole "old") demoReq []
    (demoPolicy "new rules") (demoPolicy "new rules")
    (demoPolicy "new rules")
    [RAction.get demoReq] [RAction.get demoReq] "old" rfl rfl rfl rfl (by decide) rfl).2.2
    (Or.inr (by decide))

/-- C14: in the KubernetesRole, Policy and Auth reconcilers, for an object that is being
deleted and carries the finalizer of the controller, `Reconcile` deletes the remote Vault
resource first.  When that delete fails, its error is returned and no update is sent, so
the finalizer stays; when it succeeds, the object is updated without the finalizer and
the result of that update is returned.  No call of the run creates or updates a
resource in Vault. -/
theorem remote_delete_before_finalizer_removal :
    (∀ (r : KubernetesRoleReconciler) (req : NamespacedName)
        (tr : List (RAction v1beta1.KubernetesRole)) (o0 o : v1beta1.KubernetesRole)
        (tr1 : List (RAction v1beta1.KubernetesRole)),
      r.Client.Get tr req = Except.ok o0 →
      KubernetesRoleReconciler.initStatus r req o0 (tr ++ [RAction.get req]) = (Except.ok o, tr1) →
      Time.IsZero o.ObjectMeta.DeletionTimestamp = false →
      ContainsFinalizer o.ObjectMeta KubernetesRoleReconciler.roleFinalizer = true →
      (∀ err, r.Vault.DeleteWithContext tr1 (KubernetesRoleReconciler.rolePath o) = some err →
        KubernetesRoleReconciler.Reconcile r req tr = (some err, tr1 ++ [RAction.vault (VaultCall.logicalDelete (KubernetesRoleReconciler.rolePath o))])) ∧
      (r.Vault.DeleteWithContext tr1 (KubernetesRoleReconciler.rolePath o) = none →
        (KubernetesRoleReconciler.Reconcile r req tr).2 =
          tr1 ++ [RAction.vault (VaultCall.logicalDelete (KubernetesRoleReconciler.rolePath o)),
            RAction.update
              { o with ObjectMeta := RemoveFinalizer o.ObjectMeta KubernetesRoleReconciler.roleFinalizer }] ∧
        (KubernetesRoleReconciler.Reconcile r req tr).1 =
          (match r.Client.Update (tr1 ++ [RAction.vault (VaultCall.logicalDelete (KubernetesRoleReconciler.rolePath o))])
              { o with ObjectMeta := RemoveFinalizer o.ObjectMeta KubernetesRoleReconciler.roleFinalizer } with
            | Except.error err => some err
            | Except.ok _ => none)) ∧
      ContainsFinalizer (RemoveFinalizer o.ObjectMeta KubernetesRoleReconciler.roleFinalizer) KubernetesRoleReconciler.roleFinalizer = false ∧
      (∀ a ∈ (KubernetesRoleReconciler.Reconcile r req tr).2.drop tr.length, a.isVaultWrite = false)) ∧
    (∀ (r : PolicyReconciler) (req : NamespacedName) (tr : List (RAction v1beta1.Policy))
        (o0 o : v1beta1.Policy) (tr1 : List (RAction v1beta1.Policy)),
      r.Client.Get tr req = Except.ok o0 →
      PolicyReconciler.initStatus r req o0 (tr ++ [RAction.get req]) = (Except.ok o, tr1) →
      Time.IsZero o.ObjectMeta.DeletionTimestamp = false →
      ContainsFinalizer o.ObjectMeta PolicyReconciler.policyFinalizer = true →
      (∀ err, r.Vault.DeletePolicyWithContext tr1 o.ObjectMeta.Name = some err →
        PolicyReconciler.Reconcile r req tr = (some err, tr1 ++ [RAction.vault (VaultCall.deletePolicy o.ObjectMeta.Name)])) ∧
      (r.Vault.DeletePolicyWithContext tr1 o.ObjectMeta.Name = none →
        (PolicyReconciler.Reconcile r req tr).2 =
          tr1 ++ [RAction.vault (VaultCall.deletePolicy o.ObjectMeta.Name),
            RAction.update
              { o with ObjectMeta := RemoveFinalizer o.ObjectMeta PolicyReconciler.policyFinalizer }] ∧
        (PolicyReconciler.Reconcile r req tr).1 =
          (match r.Client.Update (tr1 ++ [RAction.vault (VaultCall.deletePolicy o.ObjectMeta.Name)])
              { o with ObjectMeta := RemoveFinalizer o.ObjectMeta PolicyReconciler.policyFinalizer } with
            | Except.error err => some err
            | Except.ok _ => none)) ∧
      ContainsFinalizer (RemoveFinalizer o.ObjectMeta PolicyReconciler.policyFinalizer) PolicyReconciler.policyFinalizer = false ∧
      (∀ a ∈ (PolicyReconciler.Reconcile r req tr).2.drop tr.length, a.isVaultWrite = false)) ∧
    (∀ (r : AuthReconciler) (req : NamespacedName) (tr : List (RAction v1beta1.Auth))
        (o0 o : v1beta1.Auth) (tr1 : List (RAction v1beta1.Auth)),
      r.Client.Get tr req = Except.ok o0 →
      AuthReconciler.initStatus r req o0 (tr ++ [RAction.get req]) = (Except.ok o, tr1) →
      Time.IsZero o.ObjectMeta.DeletionTimestamp = false →
      ContainsFinalizer o.ObjectMeta AuthReconciler.authFinalizer = true →
      (∀ err, r.Vault.DisableAuthWithContext tr1 o.ObjectMeta.Name = some err →
        AuthReconciler.Reconcile r req tr = (some err, tr1 ++ [RAction.vault (VaultCall.disableAuth o.ObjectMeta.Name)])) ∧
      (r.Vault.DisableAuthWithContext tr1 o.ObjectMeta.Name = none →
        (AuthReconciler.Reconcile r req tr).2 =
          tr1 ++ [RAction.vault (VaultCall.disableAuth o.ObjectMeta.Name),
            RAction.update
              { o with ObjectMeta := RemoveFinalizer o.ObjectMeta AuthReconciler.authFinalizer }] ∧
        (AuthReconciler.Reconcile r req tr).1 =
          (match r.Client.Update (tr1 ++ [RAction.vault (VaultCall.disableAuth o.ObjectMeta.Name)])
              { o with ObjectMeta := RemoveFinalizer o.ObjectMeta AuthReconciler.authFinalizer } with
            | Except.error err => some err
            | Except.ok _ => none)) ∧
      ContainsFinalizer (RemoveFinalizer o.ObjectMeta AuthReconciler.authFinalizer) AuthReconciler.authFinalizer = false ∧
      (∀ a ∈ (AuthReconciler.Reconcile r req tr).2.drop tr.length, a.isVaultWrite = false)) :=
  ⟨role_deleting, policy_deleting, auth_deleting⟩

/-- C14: the statement at a concrete run, a role that is being deleted and carries the
finalizer: the remote role is deleted, then the object is updated without the
finalizer. -/
theorem remote_delete_before_finalizer_removal_witness :
    (KubernetesRoleReconciler.Reconcile
        (demoReconciler demoDeletedRole demoRemoteRole "") demoReq []).2 =
      [RAction.get demoReq] ++
        [RAction.vault (VaultCall.logicalDelete
          (KubernetesRoleReconciler.rolePath demoDeletedRole)),
        RAction.update
          { demoDeletedRole with
            ObjectMeta := RemoveFinalizer demoDeletedRole.ObjectMeta
              KubernetesRoleReconciler.roleFinalizer }] :=
  ((remote_delete_before_finalizer_removal.1
    (demoReconciler demoDeletedRole demoRemoteRole "") demoReq [] demoDeletedRole
    demoDeletedRole [RAction.get demoReq] rfl rfl rfl rfl).2.1 rfl).1

/-- C15, as stated, fails: the token is being deleted, carries the finalizer and asks for
the deletion policy `Delete`; its target Secret exists and is owned by another object.
`Reconcile` looks the Secret up and does not delete it, revokes the accessor, removes the
finalizer and returns success. -/
theorem token_secret_not_owned_counterexample :
    (demoToken "Delete").Spec.Target.DeletionPolicy = "Delete" ∧
    TokenReconciler.Reconcile
        (secretReconciler (demoToken "Delete") (demoTargetSecret ["uid-2"])) demoReq [] =
      (none,
        [RAction.get demoReq,
          RAction.getSecret { Namespace := "default", Name := "demo-token" },
          RAction.vault (VaultCall.revokeAccessor "accessor-1"),
          RAction.update
            { demoToken "Delete" with ObjectMeta := demoMeta (some 5) [] }]) := by
  decide

/-- C15, amended: for a Token object that is being deleted and carries the token
finalizer, with a deletion policy other than `Delete` the run of `Reconcile` is the fetch
and the update that removes the finalizer.  The deletion of the target Secret is
attempted exactly when the policy is `Delete` and the Secret is found and owned by the
token; a Secret that is absent or owned by another object is left alone.  The only call
to Vault revokes the accessor, and it is made exactly when the policy is `Delete` and
`deleteK8sSecret` returned no error.  The object is updated, without the finalizer,
exactly when the policy is not `Delete` or `deleteK8sSecret` and the revocation both
succeeded; an error of either is returned by `Reconcile`. -/
theorem token_cleanup_by_deletion_policy (r : TokenReconciler) (req : NamespacedName)
    (tr : List (RAction v1beta1.Token)) (token : v1beta1.Token)
    (hget : r.Client.Get tr req = Except.ok token)
    (hdel : token.ObjectMeta.DeletionTimestamp ≠ none)
    (hf : ContainsFinalizer token.ObjectMeta TokenReconciler.tokenFinalizer = true) :
    (token.Spec.Target.DeletionPolicy ≠ "Delete" →
      (TokenReconciler.Reconcile r req tr).2 =
        tr ++ [RAction.get req,
          RAction.update { token with ObjectMeta := RemoveFinalizer token.ObjectMeta TokenReconciler.tokenFinalizer }]) ∧
    (∀ s, RAction.deleteSecret s ∈ (TokenReconciler.Reconcile r req tr).2.drop tr.length ↔
      token.Spec.Target.DeletionPolicy = "Delete" ∧
      r.Client.GetSecret (tr ++ [RAction.get req]) (TokenReconciler.targetKey token) =
        Except.ok s ∧
      s.OwnerReferences.any (fun uid => uid == token.ObjectMeta.UID) = true) ∧
    (∀ a ∈ (TokenReconciler.Reconcile r req tr).2.drop tr.length, a.isVault = true →
      a = RAction.vault (VaultCall.revokeAccessor token.Status.Accessor)) ∧
    (RAction.vault (VaultCall.revokeAccessor token.Status.Accessor) ∈
        (TokenReconciler.Reconcile r req tr).2.drop tr.length ↔
      token.Spec.Target.DeletionPolicy = "Delete" ∧
      (TokenReconciler.deleteK8sSecret r token (tr ++ [RAction.get req])).1 = none) ∧
    (∀ o, RAction.update o ∈ (TokenReconciler.Reconcile r req tr).2.drop tr.length ↔
      o = { token with ObjectMeta := RemoveFinalizer token.ObjectMeta TokenReconciler.tokenFinalizer } ∧
      (token.Spec.Target.DeletionPolicy = "Delete" →
        (TokenReconciler.deleteK8sSecret r token (tr ++ [RAction.get req])).1 = none ∧
        r.Vault.RevokeAccessorWithContext
          (TokenReconciler.deleteK8sSecret r token (tr ++ [RAction.get req])).2
          token.Status.Accessor = none)) ∧
    ContainsFinalizer (RemoveFinalizer token.ObjectMeta TokenReconciler.tokenFinalizer)
      TokenReconciler.tokenFinalizer = false ∧
    (token.Spec.Target.DeletionPolicy = "Delete" →
      ∀ err, (TokenReconciler.deleteK8sSecret r token (tr ++ [RAction.get req])).1 = some err →
        TokenReconciler.Reconcile r req tr =
          (some err, (TokenReconciler.deleteK8sSecret r token (tr ++ [RAction.get req])).2)) ∧
    (token.Spec.Target.DeletionPolicy = "Delete" →
      (TokenReconciler.deleteK8sSecret r token (tr ++ [RAction.get req])).1 = none →
      ∀ err, r.Vault.RevokeAccessorWithContext
          (TokenReconciler.deleteK8sSecret r token (tr ++ [RAction.get req])).2
          token.Status.Accessor = some err →
        TokenReconciler.Reconcile r req tr =
          (some err,
            (TokenReconciler.deleteK8sSecret r token (tr ++ [RAction.get req])).2 ++
              [RAction.vault (VaultCall.revokeAccessor token.Status.Accessor)])) := by
  obtain ⟨post, hpost, hdesc⟩ :=
    token_deleteK8sSecret_trace r token (tr ++ [RAction.get req])
  have hfin := containsFinalizer_removeFinalizer token.ObjectMeta TokenReconciler.tokenFinalizer
  have hds : ∀ s, RAction.deleteSecret s ∈ post ↔
      (r.Client.GetSecret (tr ++ [RAction.get req]) (TokenReconciler.targetKey token) =
          Except.ok s ∧
        s.OwnerReferences.any (fun uid => uid == token.ObjectMeta.UID) = true) := by
    intro s
    rcases hdesc with ⟨rfl, hno⟩ | ⟨s0, rfl, hs0, hown⟩
    · constructor
      · intro h
        cases h
      · rintro ⟨hs, hown⟩
        rw [hno s hs] at hown
        exact absurd hown (by decide)
    · rw [List.mem_singleton]
      constructor
      · intro h
        cases h
        exact ⟨hs0, hown⟩
      · rintro ⟨hs, _⟩
        rw [hs0] at hs
        cases hs
        rfl
  have hpv : ∀ a ∈ post, a.isVault = false := by
    intro a ha
    rcases hdesc with ⟨rfl, _⟩ | ⟨s0, rfl, _, _⟩
    · cases ha
    · rw [List.mem_singleton.1 ha]
      rfl
  have hpu : ∀ o, RAction.update o ∉ post := by
    intro o ha
    rcases hdesc with ⟨rfl, _⟩ | ⟨s0, rfl, _, _⟩
    · cases ha
    · cases List.mem_singleton.1 ha
  rcases token_deleting_shape r req tr token hget hdel hf with
    ⟨hp, hrec⟩ | ⟨hp, e, tr1, hd, hcase⟩
  · rw [hrec]
    refine ⟨fun _ => rfl, fun s => ?_, ?_, ?_, fun o => ?_, hfin, fun h => absurd h hp,
      fun h => absurd h hp⟩
    · simp [hp]
    · simp [RAction.isVault]
    · simp [hp]
    · simp [hp]
  · rw [hd] at hpost
    simp only at hpost
    rw [hd]
    simp only
    subst hpost
    rcases hcase with ⟨err, rfl, hrec⟩ | ⟨rfl, err, hr, hrec⟩ | ⟨rfl, hr, hrec⟩
    · have hmem : ∀ a, a ∈ (TokenReconciler.Reconcile r req tr).2.drop tr.length ↔
          a = RAction.get req ∨ a = RAction.getSecret (TokenReconciler.targetKey token) ∨
            a ∈ post := by
        intro a
        rw [hrec]
        simp
      refine ⟨fun h => absurd hp h, fun s => ?_, fun a ha hav => ?_, ?_, fun o => ?_, hfin,
        ?_, ?_⟩
      · rw [hmem, hds s]
        simp [hp]
      · rcases (hmem a).1 ha with rfl | rfl | ha
        · cases hav
        · cases hav
        · rw [hpv a ha] at hav
          cases hav
      · rw [hmem]
        constructor
        · rintro (h | h | h)
          · cases h
          · cases h
          · have := hpv _ h
            cases this
        · rintro ⟨_, h⟩
          cases h
      · rw [hmem]
        constructor
        · rintro (h | h | h)
          · cases h
          · cases h
          · exact absurd h (hpu o)
        · rintro ⟨_, h⟩
          have := (h hp).1
          cases this
      · intro _ err2 he
        cases he
        exact hrec
      · intro _ he
        cases he
    · have hmem : ∀ a, a ∈ (TokenReconciler.Reconcile r req tr).2.drop tr.length ↔
          a = RAction.get req ∨ a = RAction.getSecret (TokenReconciler.targetKey token) ∨
            a ∈ post ∨ a = RAction.vault (VaultCall.revokeAccessor token.Status.Accessor) := by
        intro a
        rw [hrec]
        simp
      refine ⟨fun h => absurd hp h, fun s => ?_, fun a ha hav => ?_, ?_, fun o => ?_, hfin,
        ?_, ?_⟩
      · rw [hmem, hds s]
        simp [hp]
      · rcases (hmem a).1 ha with rfl | rfl | ha | rfl
        · cases hav
        · cases hav
        · rw [hpv a ha] at hav
          cases hav
        · rfl
      · rw [hmem]
        exact ⟨fun _ => ⟨hp, rfl⟩, fun _ => Or.inr (Or.inr (Or.inr rfl))⟩
      · rw [hmem]
        constructor
        · rintro (h | h | h | h)
          · cases h
          · cases h
          · exact absurd h (hpu o)
          · cases h
        · rintro ⟨_, h⟩
          have := (h hp).2
          rw [hr] at this
          cases this
      · intro _ err2 he
        cases he
      · intro _ _ err2 he
        rw [hr] at he
        cases he
        exact hrec
    · have hmem : ∀ a, a ∈ (TokenReconciler.Reconcile r req tr).2.drop tr.length ↔
          a = RAction.get req ∨ a = RAction.getSecret (TokenReconciler.targetKey token) ∨
            a ∈ post ∨ a = RAction.vault (VaultCall.revokeAccessor token.Status.Accessor) ∨
            a = RAction.update { token with ObjectMeta := RemoveFinalizer token.ObjectMeta TokenReconciler.tokenFinalizer } := by
        intro a
        rw [hrec]
        simp
      refine ⟨fun h => absurd hp h, fun s => ?_, fun a ha hav => ?_, ?_, fun o => ?_, hfin,
        ?_, ?_⟩
      · rw [hmem, hds s]
        simp [hp]
      · rcases (hmem a).1 ha with rfl | rfl | ha | rfl | rfl
        · cases hav
        · cases hav
        · rw [hpv a ha] at hav
          cases hav
        · rfl
        · cases hav
      · rw [hmem]
        exact ⟨fun _ => ⟨hp, rfl⟩, fun _ => Or.inr (Or.inr (Or.inr (Or.inl rfl)))⟩
      · rw [hmem]
        constructor
        · rintro (h | h | h | h | h)
          · cases h
          · cases h
          · exact absurd h (hpu o)
          · cases h
          · cases h
            exact ⟨rfl, fun _ => ⟨rfl, hr⟩⟩
        · rintro ⟨h, _⟩
          exact Or.inr (Or.inr (Or.inr (Or.inr (by rw [h]))))
      · intro _ err2 he
        cases he
      · intro _ _ err2 he
        rw [hr] at he
        cases he

/-- C15: the amended statement at a concrete run, a token with the deletion policy
`Delete` that owns its target Secret: the Secret is deleted. -/
theorem token_cleanup_by_deletion_policy_witness :
    RAction.deleteSecret (demoTargetSecret ["uid-1"]) ∈
      (TokenReconciler.Reconcile
        (secretReconciler (demoToken "Delete") (demoTargetSecret ["uid-1"]))
        demoReq []).2 :=
  ((token_cleanup_by_deletion_policy
    (secretReconciler (demoToken "Delete") (demoTargetSecret ["uid-1"])) demoReq []
    (demoToken "Delete") rfl (by decide) (by decide)).2.1
    (demoTargetSecret ["uid-1"])).2 ⟨rfl, rfl, by decide⟩

/-- C17: two runs of `PeriodicallyRenewLeases` from the same state, against the same
library and backend, whose watcher cycles have the same first terminal event but any
renewal notifications before it, end the same way and make the same calls in the same
order once the receipts of renewals are left out; in particular the same login calls
and the same watchers bound to the same secrets. -/
theorem renewals_do_not_influence (env : Env) (events2 : Nat → List Event) (fuel : Nat)
    (v : Vault) (authToken : Option Secret) (st : World)
    (h : ∀ w, firstTerminal (env.events w) = firstTerminal (events2 w)) :
    (PeriodicallyRenewLeases env fuel v authToken st).1 =
      (PeriodicallyRenewLeases { env with events := events2 } fuel v authToken st).1 ∧
    withoutRenewals (runTrace env fuel v authToken st) =
      withoutRenewals (runTrace { env with events := events2 } fuel v authToken st) ∧
    (runTrace env fuel v authToken st).filter Action.isLogin =
      (runTrace { env with events := events2 } fuel v authToken st).filter Action.isLogin ∧
    (runTrace env fuel v authToken st).filter Action.isNewWatcher =
      (runTrace { env with events := events2 } fuel v authToken st).filter
        Action.isNewWatcher := by
  obtain ⟨h1, _, _, h2⟩ := PeriodicallyRenewLeases_sameButRenewals env events2 fuel v
    authToken st st h ⟨rfl, rfl, rfl⟩
  have key : withoutRenewals (runTrace env fuel v authToken st) =
      withoutRenewals (runTrace { env with events := events2 } fuel v authToken st) := by
    rw [PeriodicallyRenewLeases_trace, PeriodicallyRenewLeases_trace] at h2
    simp only [withoutRenewals, List.filter_append] at h2 ⊢
    exact List.append_cancel_left h2
  refine ⟨h1, key, ?_, ?_⟩
  · rw [← filter_isLogin_withoutRenewals, key, filter_isLogin_withoutRenewals]
  · rw [← filter_isNewWatcher_withoutRenewals, key, filter_isNewWatcher_withoutRenewals]

/-- C17: the statement at a concrete pair of runs, the cycles of `demoEnv` with their
renewals and without them: both runs end the same way. -/
theorem renewals_do_not_influence_witness :
    (PeriodicallyRenewLeases demoEnv 3 demoVault none World.init).1 =
      (PeriodicallyRenewLeases { demoEnv with events := fun _ => [Event.doneCh none] } 3
        demoVault none World.init).1 :=
  (renewals_do_not_influence demoEnv (fun _ => [Event.doneCh none]) 3 demoVault none
    World.init (fun _ => rfl)).1

/-- C18: in the KubernetesRole and Policy reconcilers, for an object that is not being
deleted and lacks the finalizer of the controller, `Reconcile` first updates the object
with the finalizer added and fetches it again; when the update or the fetch fails, that
error is returned and the run holds no call to Vault; only then does it go on to create
or update.  So a run with a call to Vault is a run on an object fetched with the
finalizer, or a run in which the finalizer was stored and the object fetched again. -/
theorem vault_calls_after_finalizer :
    (∀ (r : KubernetesRoleReconciler) (req : NamespacedName)
        (tr : List (RAction v1beta1.KubernetesRole)) (o0 o1 : v1beta1.KubernetesRole)
        (tr1 : List (RAction v1beta1.KubernetesRole)),
      r.Client.Get tr req = Except.ok o0 →
      KubernetesRoleReconciler.initStatus r req o0 (tr ++ [RAction.get req]) = (Except.ok o1, tr1) →
      Time.IsZero o1.ObjectMeta.DeletionTimestamp = true →
      (ContainsFinalizer o1.ObjectMeta KubernetesRoleReconciler.roleFinalizer = false →
        ContainsFinalizer (AddFinalizer o1.ObjectMeta KubernetesRoleReconciler.roleFinalizer) KubernetesRoleReconciler.roleFinalizer = true ∧
        (∀ err, r.Client.Update tr1
            { o1 with ObjectMeta := AddFinalizer o1.ObjectMeta KubernetesRoleReconciler.roleFinalizer } = Except.error err →
          KubernetesRoleReconciler.Reconcile r req tr =
            (some err, tr1 ++ [RAction.update
              { o1 with ObjectMeta := AddFinalizer o1.ObjectMeta KubernetesRoleReconciler.roleFinalizer }])) ∧
        (∀ s err, r.Client.Update tr1
            { o1 with ObjectMeta := AddFinalizer o1.ObjectMeta KubernetesRoleReconciler.roleFinalizer } = Except.ok s →
          r.Client.Get (tr1 ++ [RAction.update
            { o1 with ObjectMeta := AddFinalizer o1.ObjectMeta KubernetesRoleReconciler.roleFinalizer }]) req =
              Except.error err →
          KubernetesRoleReconciler.Reconcile r req tr =
            (some err, tr1 ++ [RAction.update
              { o1 with ObjectMeta := AddFinalizer o1.ObjectMeta KubernetesRoleReconciler.roleFinalizer },
              RAction.get req])) ∧
        (∀ s o, r.Client.Update tr1
            { o1 with ObjectMeta := AddFinalizer o1.ObjectMeta KubernetesRoleReconciler.roleFinalizer } = Except.ok s →
          r.Client.Get (tr1 ++ [RAction.update
            { o1 with ObjectMeta := AddFinalizer o1.ObjectMeta KubernetesRoleReconciler.roleFinalizer }]) req =
              Except.ok o →
          KubernetesRoleReconciler.Reconcile r req tr =
            KubernetesRoleReconciler.createOrUpdate r o (tr1 ++ [RAction.update
              { o1 with ObjectMeta := AddFinalizer o1.ObjectMeta KubernetesRoleReconciler.roleFinalizer },
              RAction.get req]))) ∧
      (ContainsFinalizer o1.ObjectMeta KubernetesRoleReconciler.roleFinalizer = true →
        KubernetesRoleReconciler.Reconcile r req tr = KubernetesRoleReconciler.createOrUpdate r o1 tr1) ∧
      (∃ pre, tr1 = tr ++ pre ∧ ∀ a ∈ pre, a.isVault = false) ∧
      ((∃ a ∈ (KubernetesRoleReconciler.Reconcile r req tr).2.drop tr.length, a.isVault = true) →
        ContainsFinalizer o1.ObjectMeta KubernetesRoleReconciler.roleFinalizer = true ∨
        ∃ s o, r.Client.Update tr1
            { o1 with ObjectMeta := AddFinalizer o1.ObjectMeta KubernetesRoleReconciler.roleFinalizer } = Except.ok s ∧
          r.Client.Get (tr1 ++ [RAction.update
            { o1 with ObjectMeta := AddFinalizer o1.ObjectMeta KubernetesRoleReconciler.roleFinalizer }]) req =
              Except.ok o)) ∧
    (∀ (r : PolicyReconciler) (req : NamespacedName) (tr : List (RAction v1beta1.Policy))
        (o0 o1 : v1beta1.Policy) (tr1 : List (RAction v1beta1.Policy)),
      r.Client.Get tr req = Except.ok o0 →
      PolicyReconciler.initStatus r req o0 (tr ++ [RAction.get req]) = (Except.ok o1, tr1) →
      Time.IsZero o1.ObjectMeta.DeletionTimestamp = true →
      (ContainsFinalizer o1.ObjectMeta PolicyReconciler.policyFinalizer = false →
        ContainsFinalizer (AddFinalizer o1.ObjectMeta PolicyReconciler.policyFinalizer) PolicyReconciler.policyFinalizer = true ∧
        (∀ err, r.Client.Update tr1
            { o1 with ObjectMeta := AddFinalizer o1.ObjectMeta PolicyReconciler.policyFinalizer } = Except.error err →
          PolicyReconciler.Reconcile r req tr =
            (some err, tr1 ++ [RAction.update
              { o1 with ObjectMeta := AddFinalizer o1.ObjectMeta PolicyReconciler.policyFinalizer }])) ∧
        (∀ s err, r.Client.Update tr1
            { o1 with ObjectMeta := AddFinalizer o1.ObjectMeta PolicyReconciler.policyFinalizer } = Except.ok s →
          r.Client.Get (tr1 ++ [RAction.update
            { o1 with ObjectMeta := AddFinalizer o1.ObjectMeta PolicyReconciler.policyFinalizer }]) req =
              Except.error err →
          PolicyReconciler.Reconcile r req tr =
            (some err, tr1 ++ [RAction.update
              { o1 with ObjectMeta := AddFinalizer o1.ObjectMeta PolicyReconciler.policyFinalizer },
              RAction.get req])) ∧
        (∀ s o, r.Client.Update tr1
            { o1 with ObjectMeta := AddFinalizer o1.ObjectMeta PolicyReconciler.policyFinalizer } = Except.ok s →
          r.Client.Get (tr1 ++ [RAction.update
            { o1 with ObjectMeta := AddFinalizer o1.ObjectMeta PolicyReconciler.policyFinalizer }]) req =
              Except.ok o →
          PolicyReconciler.Reconcile r req tr =
            PolicyReconciler.createOrUpdate r o (tr1 ++ [RAction.update
              { o1 with ObjectMeta := AddFinalizer o1.ObjectMeta PolicyReconciler.policyFinalizer },
              RAction.get req]))) ∧
      (ContainsFinalizer o1.ObjectMeta PolicyReconciler.policyFinalizer = true →
        PolicyReconciler.Reconcile r req tr = PolicyReconciler.createOrUpdate r o1 tr1) ∧
      (∃ pre, tr1 = tr ++ pre ∧ ∀ a ∈ pre, a.isVault = false) ∧
      ((∃ a ∈ (PolicyReconciler.Reconcile r req tr).2.drop tr.length, a.isVault = true) →
        ContainsFinalizer o1.ObjectMeta PolicyReconciler.policyFinalizer = true ∨
        ∃ s o, r.Client.Update tr1
            { o1 with ObjectMeta := AddFinalizer o1.ObjectMeta PolicyReconciler.policyFinalizer } = Except.ok s ∧
          r.Client.Get (tr1 ++ [RAction.update
            { o1 with ObjectMeta := AddFinalizer o1.ObjectMeta PolicyReconciler.policyFinalizer }]) req =
              Except.ok o)) :=
  ⟨role_finalizer_first, policy_finalizer_first⟩

/-- C18: the statement at a concrete run, a role without the finalizer whose update the
API server refuses: the error is returned and no call to Vault is made. -/
theorem vault_calls_after_finalizer_witness :
    KubernetesRoleReconciler.Reconcile (readOnlyReconciler (demoNewRole [])) demoReq [] =
      (some (demoErr "forbidden"),
        [RAction.get demoReq] ++ [RAction.update
          { demoNewRole [] with
            ObjectMeta := AddFinalizer (demoNewRole []).ObjectMeta
              KubernetesRoleReconciler.roleFinalizer }]) :=
  ((vault_calls_after_finalizer.1 (readOnlyReconciler (demoNewRole [])) demoReq []
    (demoNewRole []) (demoNewRole []) [RAction.get demoReq] rfl rfl rfl).1 rfl).2.1
    (demoErr "forbidden") rfl

/-- C19, as stated, fails in two ways.  First: an Auth object that is not being deleted,
has an accessor recorded and has no conditions is sent in a status update with the
condition `Unknown`, so its status does not stay as it was.  Second: the accessor is
empty, Vault refuses to enable the auth engine and the status update that follows fails
as well; `Reconcile` returns the error of the status update, not the creation error. -/
theorem auth_create_counterexample :
    AuthReconciler.Reconcile
        (demoReconciler (demoAuth "auth_kubernetes_1" []) demoRemoteRole "") demoReq [] =
      (none,
        [RAction.get demoReq,
          RAction.statusUpdate
            (AuthReconciler.withCondition (demoAuth "auth_kubernetes_1" []) ConditionUnknown
              "Reconciling" "Starting reconciliation"),
          RAction.get demoReq]) ∧
    AuthReconciler.Reconcile
        (refusingAuthReconciler (demoAuth "" [demoConfigured]) true) demoReq [] =
      (some (demoErr "conflict"),
        [RAction.get demoReq,
          RAction.vault (VaultCall.enableAuth "demo"
            { Type_ := "kubernetes", Description := "kubernetes auth" }),
          RAction.statusUpdate
            (AuthReconciler.withCondition (demoAuth "" [demoConfigured]) ConditionFalse
              "FailedToCreate" "Failed to create auth engine in Vault")]) ∧
    demoErr "conflict" ≠ demoErr "permission denied" := by
  decide

/-- C19, amended: for an Auth object that exists, is not being deleted and whose first
status and finalizer updates succeeded, every call `Reconcile` makes to Vault is made
with an empty recorded accessor and either enables the auth engine or reads it back, and
with an empty accessor the engine is enabled.  With a non-empty accessor `Reconcile`
returns success with no call to Vault and no status update other than the first one of
an object that had no conditions.  When the accessor is empty and enabling fails, the
object is sent in a status update with the accessor still empty and the condition
`Configured` set to `False`, and `Reconcile` returns the creation error when that status
update succeeds and the error of the status update when it fails. -/
theorem auth_create_only_without_accessor (r : AuthReconciler) (req : NamespacedName)
    (tr : List (RAction v1beta1.Auth)) (auth0 auth1 auth : v1beta1.Auth)
    (tr1 tr2 : List (RAction v1beta1.Auth))
    (hget : r.Client.Get tr req = Except.ok auth0)
    (hinit : AuthReconciler.initStatus r req auth0 (tr ++ [RAction.get req]) =
      (Except.ok auth1, tr1))
    (hz : Time.IsZero auth1.ObjectMeta.DeletionTimestamp = true)
    (hfin : AuthReconciler.ensureFinalizer r req auth1 tr1 = (Except.ok auth, tr2)) :
    (∀ a ∈ (AuthReconciler.Reconcile r req tr).2.drop tr.length, a.isVault = true →
      auth.Status.Accessor = "" ∧
      (a = RAction.vault (VaultCall.enableAuth auth.ObjectMeta.Name
          { Type_ := auth.Spec.Type_, Description := auth.Spec.Description }) ∨
        a = RAction.vault (VaultCall.getAuth auth.ObjectMeta.Name))) ∧
    (auth.Status.Accessor = "" →
      RAction.vault (VaultCall.enableAuth auth.ObjectMeta.Name
          { Type_ := auth.Spec.Type_, Description := auth.Spec.Description }) ∈
        (AuthReconciler.Reconcile r req tr).2.drop tr.length) ∧
    (auth.Status.Accessor ≠ "" →
      AuthReconciler.Reconcile r req tr = (none, tr2) ∧
      ((AuthReconciler.Reconcile r req tr).2.drop tr.length).filter RAction.isStatusUpdate =
        (if auth0.Status.Conditions.length = 0 then
          [RAction.statusUpdate
            (AuthReconciler.withCondition auth0 ConditionUnknown "Reconciling"
              "Starting reconciliation")]
        else [])) ∧
    (∀ err, auth.Status.Accessor = "" →
      r.Vault.EnableAuthWithOptionsWithContext tr2 auth.ObjectMeta.Name
        { Type_ := auth.Spec.Type_, Description := auth.Spec.Description } = some err →
      (AuthReconciler.Reconcile r req tr).2 =
        tr2 ++ [RAction.vault (VaultCall.enableAuth auth.ObjectMeta.Name
            { Type_ := auth.Spec.Type_, Description := auth.Spec.Description }),
          RAction.statusUpdate (AuthReconciler.withCondition auth ConditionFalse
            "FailedToCreate" "Failed to create auth engine in Vault")] ∧
      (AuthReconciler.withCondition auth ConditionFalse
        "FailedToCreate" "Failed to create auth engine in Vault").Status.Accessor = "" ∧
      conditionStatus (AuthReconciler.withCondition auth ConditionFalse
          "FailedToCreate" "Failed to create auth engine in Vault").Status.Conditions
        AuthReconciler.typeConfiguredAuth = some ConditionFalse ∧
      (∀ o, r.Client.StatusUpdate
          (tr2 ++ [RAction.vault (VaultCall.enableAuth auth.ObjectMeta.Name
            { Type_ := auth.Spec.Type_, Description := auth.Spec.Description })])
          (AuthReconciler.withCondition auth ConditionFalse
            "FailedToCreate" "Failed to create auth engine in Vault") = Except.ok o →
        (AuthReconciler.Reconcile r req tr).1 = some err) ∧
      (∀ err2, r.Client.StatusUpdate
          (tr2 ++ [RAction.vault (VaultCall.enableAuth auth.ObjectMeta.Name
            { Type_ := auth.Spec.Type_, Description := auth.Spec.Description })])
          (AuthReconciler.withCondition auth ConditionFalse
            "FailedToCreate" "Failed to create auth engine in Vault") = Except.error err2 →
        (AuthReconciler.Reconcile r req tr).1 = some err2)) := by
  obtain ⟨pre1, hpre1, hv1, hs1⟩ := auth_initStatus_trace r req auth0 (tr ++ [RAction.get req])
  rw [hinit] at hpre1
  simp only at hpre1
  obtain ⟨pre2, hpre2, hv2⟩ := auth_ensureFinalizer_trace r req auth1 tr1
  rw [hfin] at hpre2
  simp only at hpre2
  have hrec : AuthReconciler.Reconcile r req tr = AuthReconciler.create r auth tr2 := by
    simp [AuthReconciler.Reconcile, hget, hinit, hz, hfin]
  obtain ⟨hset, hempty, hfail⟩ := auth_create_trace r auth tr2
  have htr2 : tr2 = tr ++ ([RAction.get req] ++ pre1 ++ pre2) := by
    rw [hpre2, hpre1]
    simp
  have hnv : ∀ a ∈ [RAction.get req] ++ pre1 ++ pre2, a.isVault = false := by
    intro a ha
    simp only [List.mem_append, List.mem_singleton] at ha
    rcases ha with (rfl | ha) | ha
    · rfl
    · exact hv1 a ha
    · exact (hv2 a ha).1
  have hfs : pre2.filter RAction.isStatusUpdate = [] := by
    rw [List.filter_eq_nil_iff]
    intro a ha
    simp [(hv2 a ha).2]
  refine ⟨fun a ha hav => ?_, fun h => ?_, fun h => ⟨by rw [hrec]; exact hset h, ?_⟩,
    fun err h he => ?_⟩
  · by_cases h : auth.Status.Accessor = ""
    · refine ⟨h, ?_⟩
      obtain ⟨post, hpost, hp⟩ := hempty h
      rw [hrec, hpost, htr2] at ha
      simp only [List.append_assoc, List.drop_left] at ha
      rw [← List.append_assoc, ← List.append_assoc] at ha
      rcases List.mem_append.1 ha with ha | ha
      · rw [hnv a ha] at hav
        exact absurd hav (by decide)
      · rcases List.mem_append.1 ha with ha | ha
        · exact Or.inl (List.mem_singleton.1 ha)
        · exact Or.inr (hp a ha hav)
    · exfalso
      rw [hrec, hset h, htr2] at ha
      simp only [List.drop_left] at ha
      rw [hnv a ha] at hav
      exact absurd hav (by decide)
  · obtain ⟨post, hpost, _⟩ := hempty h
    rw [hrec, hpost, htr2]
    simp
  · rw [hrec, hset h, htr2]
    simp only [List.drop_left, List.filter_append, hfs, List.append_nil]
    rw [hs1]
    simp [RAction.isStatusUpdate]
  · obtain ⟨h1, h2, h3⟩ := hfail err h he
    refine ⟨by rw [hrec]; exact h1, h, ?_, fun o ho => by rw [hrec]; exact h2 o ho,
      fun err2 ho => by rw [hrec]; exact h3 err2 ho⟩
    exact conditionStatus_setStatusCondition _
      { Type_ := AuthReconciler.typeConfiguredAuth, Status := ConditionFalse,
        Reason := "FailedToCreate", Message := "Failed to create auth engine in Vault" }

/-- C19: the amended statement at a concrete run, an Auth object without an accessor
whose auth engine Vault refuses to enable. -/
theorem auth_create_only_without_accessor_witness :
    AuthReconciler.Reconcile
        (refusingAuthReconciler (demoAuth "" [demoConfigured]) false) demoReq [] =
      (some (demoErr "permission denied"),
        [RAction.get demoReq,
          RAction.vault (VaultCall.enableAuth "demo"
            { Type_ := "kubernetes", Description := "kubernetes auth" }),
          RAction.statusUpdate
            (AuthReconciler.withCondition (demoAuth "" [demoConfigured]) ConditionFalse
              "FailedToCreate" "Failed to create auth engine in Vault")]) := by
  have h := auth_create_only_without_accessor
    (refusingAuthReconciler (demoAuth "" [demoConfigured]) false) demoReq []
    (demoAuth "" [demoConfigured]) (demoAuth "" [demoConfigured])
    (demoAuth "" [demoConfigured]) [RAction.get demoReq] [RAction.get demoReq]
    rfl rfl rfl rfl
  obtain ⟨h1, _, _, h4, _⟩ := h.2.2.2 (demoErr "permission denied") rfl rfl
  exact Prod.ext (h4 _ rfl) h1

/-- C20: a value returned by `renewLeases` is exactly one of the flags `renewError` (1),
`exitRequested` (2), `expiringAuthToken` (4); so at most one of the two bit tests of
`PeriodicallyRenewLeases` holds on it; `renewError` comes with a non-nil error and
`exitRequested` with a nil error. -/
theorem renewLeases_one_flag (env : Env) (v : Vault) (authToken : Option Secret)
    (st st1 : World) (renewed : renewResult) (err : Option Err)
    (h : renewLeases env v authToken st = (some (renewed, err), st1)) :
    (renewed = renewError ∨ renewed = exitRequested ∨ renewed = expiringAuthToken) ∧
    (renewError = 1 ∧ exitRequested = 2 ∧ expiringAuthToken = 4) ∧
    ¬ (renewed &&& exitRequested ≠ 0 ∧ renewed &&& expiringAuthToken ≠ 0) ∧
    (renewed &&& exitRequested ≠ 0 ↔ renewed = exitRequested) ∧
    (renewed &&& expiringAuthToken ≠ 0 ↔ renewed = expiringAuthToken) ∧
    (renewed = renewError → err ≠ none) ∧
    (renewed = exitRequested → err = none) := by
  rcases renewLeases_shape env v authToken st with ⟨e, _, hr⟩ | ⟨_, ds, hr | hr | ⟨e, hr⟩⟩
  · rw [hr] at h
    simp only [Prod.mk.injEq, Option.some.injEq] at h
    obtain ⟨⟨rfl, rfl⟩, _⟩ := h
    refine ⟨Or.inl rfl, by decide, by decide, by decide, by decide, by simp,
      fun hx => absurd hx (by decide)⟩
  · rw [hr] at h
    cases h
  · rw [hr] at h
    simp only [Prod.mk.injEq, Option.some.injEq] at h
    obtain ⟨⟨rfl, rfl⟩, _⟩ := h
    refine ⟨Or.inr (Or.inl rfl), by decide, by decide, by decide, by decide,
      fun hx => absurd hx (by decide), by simp⟩
  · rw [hr] at h
    simp only [Prod.mk.injEq, Option.some.injEq] at h
    obtain ⟨⟨rfl, rfl⟩, _⟩ := h
    refine ⟨Or.inr (Or.inr rfl), by decide, by decide, by decide, by decide,
      fun hx => absurd hx (by decide), fun hx => absurd hx (by decide)⟩

/-- C20: the statement at a concrete cycle, the second watcher of `cancelEnv`, which ends
on the cancellation: the flag is `exitRequested`, the error is nil, and the two bit tests
do not both hold. -/
theorem renewLeases_one_flag_witness :
    (renewLeases cancelEnv demoVault (some (demoSecret 0))
      { logins := 1, watchers := 1, trace := [] }).1 = some (exitRequested, none) ∧
    ¬ (exitRequested &&& exitRequested ≠ 0 ∧ exitRequested &&& expiringAuthToken ≠ 0) :=
  ⟨rfl,
    (renewLeases_one_flag cancelEnv demoVault (some (demoSecret 0))
      { logins := 1, watchers := 1, trace := [] }
      (renewLeases cancelEnv demoVault (some (demoSecret 0))
        { logins := 1, watchers := 1, trace := [] }).2
      exitRequested none rfl).2.2.1⟩

/-- C21: when the watcher is built and its done channel delivers a non-nil error after
any number of renewals, `renewLeases` returns `(expiringAuthToken, err)` and
`PeriodicallyRenewLeases` ends the process with the fatal message `renew error`, in the
world the cycle left, so without an invocation of `login`.  In any pass of the loop, an
invocation of `login` means that the done channel of the cycle delivered a nil error. -/
theorem renewal_failure_is_fatal (env : Env) (v : Vault) (cur : Option Secret) (st : World)
    (ds : List Int) (e : Err) (rest : List Event) (fuel : Nat)
    (hw : env.NewLifetimeWatcher st.watchers v.Client cur = none)
    (hev : env.events st.watchers = ds.map Event.renewCh ++ Event.doneCh (some e) :: rest) :
    (renewLeases env v cur st).1 = some (expiringAuthToken, some e) ∧
    PeriodicallyRenewLeases env (fuel + 1) v cur st =
      (Outcome.fatal ("renew error: " ++ e), (renewLeases env v cur st).2) ∧
    runTrace env (fuel + 1) v cur st =
      cycleTrace st.watchers cur (ds.map Event.renewCh ++ [Event.doneCh (some e)]) ∧
    loginCalls (runTrace env (fuel + 1) v cur st) = 0 ∧
    (∀ (v1 : Vault) (cur1 : Option Secret) (st1 : World),
      0 < loginCalls (passTrace env v1 cur1 st1) → sawDoneCh env v1 cur1 st1 none) := by
  have hr : renewLeases env v cur st =
      (some (expiringAuthToken, some e),
        { logins := st.logins, watchers := st.watchers + 1,
          trace := st.trace ++
            cycleTrace st.watchers cur (ds.map Event.renewCh ++ [Event.doneCh (some e)]) }) := by
    simp [renewLeases, hw, hev, selectLoop_renewals, selectLoop, World.record, cycleTrace]
  have hp := PeriodicallyRenewLeases_of_halt env fuel v cur st _ _ (loopBody_of_error hr)
  have ht : runTrace env (fuel + 1) v cur st =
      cycleTrace st.watchers cur (ds.map Event.renewCh ++ [Event.doneCh (some e)]) := by
    simp [runTrace, hp]
  refine ⟨by rw [hr], by rw [hp, hr], ht, by rw [ht]; exact loginCalls_cycleTrace _ _ _, ?_⟩
  intro v1 cur1 st1
  have hc := fun evs => loginCalls_cycleTrace st1.watchers cur1 evs
  unfold sawDoneCh cycleTraceOf passTrace
  obtain ⟨ds1, h⟩ := loopBody_cases env v1 cur1 st1
  rcases h with ⟨e1, _, hr1, hb⟩ | ⟨_, hr1, hb⟩ | ⟨_, hr1, hb⟩ | ⟨e1, _, hr1, hb⟩ |
    ⟨err, _, hr1, _, hb⟩ | ⟨s, _, hr1, _, hb⟩
  · rw [hr1, hb]
    simp [Step.world, loginCalls, Action.isLogin]
  · rw [hr1, hb]
    simp [Step.world, loginCalls, Action.isLogin, List.countP_eq_zero]
  · rw [hr1, hb]
    simp only [Step.world, afterCycle, List.drop_left, recv_doneCh_mem_cycleTrace, hc]
    simp
  · rw [hr1, hb]
    simp only [Step.world, afterCycle, List.drop_left, recv_doneCh_mem_cycleTrace, hc]
    simp
  · rw [hr1, hb]
    simp only [Step.world, afterCycle, afterRelogin, List.drop_left,
      recv_doneCh_mem_cycleTrace]
    simp
  · rw [hr1, hb]
    simp only [Step.world, afterCycle, afterRelogin, List.drop_left,
      recv_doneCh_mem_cycleTrace]
    simp

/-- C21: the statement at a concrete run, a first watcher whose renewal fails: the run is
fatal and calls no login. -/
theorem renewal_failure_is_fatal_witness :
    PeriodicallyRenewLeases failedRenewalEnv 5 demoVault none World.init =
      (Outcome.fatal ("renew error: " ++ "renewal failed"),
        (renewLeases failedRenewalEnv demoVault none World.init).2) ∧
    loginCalls (runTrace failedRenewalEnv 5 demoVault none World.init) = 0 :=
  ⟨(renewal_failure_is_fatal failedRenewalEnv demoVault none World.init [] "renewal failed"
      [] 4 rfl rfl).2.1,
    (renewal_failure_is_fatal failedRenewalEnv demoVault none World.init [] "renewal failed"
      [] 4 rfl rfl).2.2.2.1⟩

/-- C22: the `vault.KubernetesRole` that `updateVaultKubernetesRole` builds from a spec,
a copy of its thirteen fields, is what the method encodes and writes, and
`IsDifferentFromSpec` applied to it and the spec returns false, for every spec. -/
theorem built_role_is_not_different (r : KubernetesRoleReconciler)
    (role : v1beta1.KubernetesRole) (tr : List (RAction v1beta1.KubernetesRole)) :
    KubernetesRoleReconciler.updateVaultKubernetesRole r role tr =
      (match r.json.MarshalRole (KubernetesRoleReconciler.builtRole role.Spec) with
        | Except.error err => (some err, tr)
        | Except.ok jsonBytes =>
          match r.json.UnmarshalMap jsonBytes with
          | Except.error err => (some err, tr)
          | Except.ok m =>
            (r.Vault.WriteWithContext tr (KubernetesRoleReconciler.rolePath role) m,
              tr ++ [RAction.vault
                (VaultCall.logicalWrite (KubernetesRoleReconciler.rolePath role) m)])) ∧
    (∀ s : v1beta1.KubernetesRoleSpec,
      (KubernetesRoleReconciler.builtRole s).IsDifferentFromSpec s = false) ∧
    (KubernetesRoleReconciler.builtRole role.Spec).IsDifferentFromSpec role.Spec = false := by
  have h : ∀ s : v1beta1.KubernetesRoleSpec,
      (KubernetesRoleReconciler.builtRole s).IsDifferentFromSpec s = false := by
    intro s
    simp [vault.KubernetesRole.IsDifferentFromSpec, KubernetesRoleReconciler.builtRole,
      deepEqual_iff]
  exact ⟨rfl, h, h role.Spec⟩

/-- C23, as stated, fails: the token is not being deleted and has no accessor; Vault
creates the token, the creation of the Secret fails because a Secret of that name exists,
and the status update that follows fails as well.  `Reconcile` returns the error of the
status update, not the error of the Secret creation. -/
theorem token_secret_error_counterexample :
    TokenReconciler.Reconcile
        (occupiedReconciler (demoLiveToken [TokenReconciler.tokenFinalizer] "") true)
        demoReq [] =
      (some (demoErr "conflict"),
        [RAction.get demoReq,
          RAction.vault (VaultCall.createToken (TokenReconciler.createRequest
            (demoLiveToken [TokenReconciler.tokenFinalizer] ""))),
          RAction.getSecret { Namespace := "default", Name := "demo-token" },
          RAction.statusUpdate
            (TokenReconciler.withCondition (demoLiveToken [TokenReconciler.tokenFinalizer] "")
              ConditionFalse "FailedToCreate" "Failed to create k8s secret demo-token")]) ∧
    (TokenReconciler.createK8sSecret
        (occupiedReconciler (demoLiveToken [TokenReconciler.tokenFinalizer] "") true)
        (demoLiveToken [TokenReconciler.tokenFinalizer] "") "hvs.token" []).1 =
      some (TokenReconciler.alreadyExists "demo-token") ∧
    demoErr "conflict" ≠ TokenReconciler.alreadyExists "demo-token" := by
  decide

/-- C23, amended: for a Token object that is not being deleted and whose finalizer is in
place, a status update of `Reconcile` carries a non-empty accessor only when the token
had none, Vault created the token and `createK8sSecret` succeeded, and the accessor is
that of the created token.  When the token was created and `createK8sSecret` fails, the
token is sent in a status update with the accessor still empty and the condition
`Configured` set to `False`, and `Reconcile` returns the error of `createK8sSecret` when
that status update succeeds and the error of the status update when it fails. -/
theorem token_accessor_recorded_after_both (r : TokenReconciler) (req : NamespacedName)
    (tr : List (RAction v1beta1.Token)) (token0 token : v1beta1.Token)
    (tr1 : List (RAction v1beta1.Token))
    (hget : r.Client.Get tr req = Except.ok token0)
    (hdel : token0.ObjectMeta.DeletionTimestamp = none)
    (hfin : TokenReconciler.addFinalizer r token0 (tr ++ [RAction.get req]) =
      (Except.ok token, tr1)) :
    (∀ o, RAction.statusUpdate o ∈ (TokenReconciler.Reconcile r req tr).2.drop tr.length →
      o.Status.Accessor ≠ "" →
      token.Status.Accessor = "" ∧
      ∃ t tr2, r.Vault.TokenCreate tr1 (TokenReconciler.createRequest token) = Except.ok t ∧
        TokenReconciler.createK8sSecret r token t.ClientToken
          (tr1 ++ [RAction.vault
            (VaultCall.createToken (TokenReconciler.createRequest token))]) = (none, tr2) ∧
        o.Status.Accessor = t.Accessor) ∧
    (token.Status.Accessor = "" →
      ∀ t err tr2, r.Vault.TokenCreate tr1 (TokenReconciler.createRequest token) = Except.ok t →
        TokenReconciler.createK8sSecret r token t.ClientToken
          (tr1 ++ [RAction.vault
            (VaultCall.createToken (TokenReconciler.createRequest token))]) = (some err, tr2) →
        (TokenReconciler.Reconcile r req tr).2 =
          tr2 ++ [RAction.statusUpdate (TokenReconciler.withCondition token ConditionFalse
            "FailedToCreate" ("Failed to create k8s secret " ++ token.Spec.Target.Name))] ∧
        (TokenReconciler.withCondition token ConditionFalse "FailedToCreate"
          ("Failed to create k8s secret " ++ token.Spec.Target.Name)).Status.Accessor = "" ∧
        conditionStatus (TokenReconciler.withCondition token ConditionFalse "FailedToCreate"
            ("Failed to create k8s secret " ++ token.Spec.Target.Name)).Status.Conditions
          TokenReconciler.typeConfiguredToken = some ConditionFalse ∧
        (∀ o, r.Client.StatusUpdate tr2 (TokenReconciler.withCondition token ConditionFalse
            "FailedToCreate" ("Failed to create k8s secret " ++ token.Spec.Target.Name)) =
              Except.ok o →
          (TokenReconciler.Reconcile r req tr).1 = some err) ∧
        (∀ err2, r.Client.StatusUpdate tr2 (TokenReconciler.withCondition token ConditionFalse
            "FailedToCreate" ("Failed to create k8s secret " ++ token.Spec.Target.Name)) =
              Except.error err2 →
          (TokenReconciler.Reconcile r req tr).1 = some err2)) := by
  have hrec : TokenReconciler.Reconcile r req tr = TokenReconciler.create r token tr1 := by
    simp [TokenReconciler.Reconcile, hget, hdel, hfin]
  obtain ⟨pre, hpre, hshape⟩ := token_addFinalizer_trace r token0 (tr ++ [RAction.get req])
  rw [hfin] at hpre
  simp only at hpre
  have hpn : ∀ o, RAction.statusUpdate o ∉ pre := by
    intro o ho
    rcases hshape with rfl | ⟨u, rfl⟩
    · cases ho
    · cases List.mem_singleton.1 ho
  obtain ⟨hset, hfail, hsec, hok⟩ := token_create_cases r token tr1
  refine ⟨fun o ho hacc => ?_, fun h t err tr2 ht hs => ?_⟩
  · by_cases h : token.Status.Accessor = ""
    · refine ⟨h, ?_⟩
      cases ht : r.Vault.TokenCreate tr1 (TokenReconciler.createRequest token) with
      | error err =>
        exfalso
        rw [hrec, hfail h err ht, hpre] at ho
        simp only [List.append_assoc, List.drop_left] at ho
        simp only [List.mem_append, List.mem_cons, List.mem_singleton, List.not_mem_nil,
          or_false] at ho
        rcases ho with ho | ho | ho | ho
        · cases ho
        · exact hpn o ho
        · cases ho
        · cases ho
          exact hacc h
      | ok t =>
        rcases hs : TokenReconciler.createK8sSecret r token t.ClientToken
          (tr1 ++ [RAction.vault
            (VaultCall.createToken (TokenReconciler.createRequest token))]) with ⟨e, tr2⟩
        obtain ⟨post, hpost, hpv⟩ := token_createK8sSecret_trace r token t.ClientToken
          (tr1 ++ [RAction.vault
            (VaultCall.createToken (TokenReconciler.createRequest token))])
        rw [hs] at hpost
        simp only at hpost
        have hpostn : ∀ o, RAction.statusUpdate o ∉ post := by
          intro o ho
          have := (hpv _ ho).2
          cases this
        cases e with
        | some err =>
          exfalso
          rw [hrec, (hsec h t err tr2 ht hs).1, hpost, hpre] at ho
          simp only [List.append_assoc, List.drop_left] at ho
          simp only [List.mem_append, List.mem_cons, List.mem_singleton, List.not_mem_nil,
            or_false] at ho
          rcases ho with ho | ho | ho | ho | ho
          · cases ho
          · exact hpn o ho
          · cases ho
          · exact hpostn o ho
          · cases ho
            exact hacc h
        | none =>
          refine ⟨t, tr2, rfl, hs, ?_⟩
          rw [hrec, hok h t tr2 ht hs, hpost, hpre] at ho
          simp only [List.append_assoc, List.drop_left] at ho
          simp only [List.mem_append, List.mem_cons, List.mem_singleton, List.not_mem_nil,
            or_false] at ho
          rcases ho with ho | ho | ho | ho | ho
          · cases ho
          · exact absurd ho (hpn o)
          · cases ho
          · exact absurd ho (hpostn o)
          · cases ho
            rfl
    · exfalso
      rw [hrec, hset h, hpre] at ho
      simp only [List.append_assoc, List.drop_left] at ho
      simp only [List.mem_append, List.mem_cons, List.mem_singleton, List.not_mem_nil,
        or_false] at ho
      rcases ho with ho | ho
      · cases ho
      · exact hpn o ho
  · obtain ⟨h1, h2, h3⟩ := hsec h t err tr2 ht hs
    refine ⟨by rw [hrec]; exact h1, h, ?_, fun o ho => by rw [hrec]; exact h2 o ho,
      fun err2 ho => by rw [hrec]; exact h3 err2 ho⟩
    exact conditionStatus_setStatusCondition _
      { Type_ := TokenReconciler.typeConfiguredToken, Status := ConditionFalse,
        Reason := "FailedToCreate",
        Message := "Failed to create k8s secret " ++ token.Spec.Target.Name }

/-- C23: the amended statement at a concrete run, a token created in Vault whose Secret
cannot be created because one of that name exists: the error of the Secret creation is
returned. -/
theorem token_accessor_recorded_after_both_witness :
    (TokenReconciler.Reconcile
        (occupiedReconciler (demoLiveToken [TokenReconciler.tokenFinalizer] "") false)
        demoReq []).1 =
      some (TokenReconciler.alreadyExists "demo-token") :=
  ((token_accessor_recorded_after_both
    (occupiedReconciler (demoLiveToken [TokenReconciler.tokenFinalizer] "") false) demoReq []
    (demoLiveToken [TokenReconciler.tokenFinalizer] "")
    (demoLiveToken [TokenReconciler.tokenFinalizer] "") [RAction.get demoReq]
    rfl rfl rfl).2 rfl
    { ClientToken := "hvs.token", Accessor := "accessor-1" }
    (TokenReconciler.alreadyExists "demo-token")
    [RAction.get demoReq,
      RAction.vault (VaultCall.createToken (TokenReconciler.createRequest
        (demoLiveToken [TokenReconciler.tokenFinalizer] ""))),
      RAction.getSecret { Namespace := "default", Name := "demo-token" }]
    rfl rfl).2.2.2.1 _ rfl

/-- C24, as stated, fails: the token is not being deleted, has an accessor recorded and
lacks the finalizer, and the API server refuses the update that adds the finalizer.
`Reconcile` creates no token and no Secret, and it does not return success: it returns
the error of the update. -/
theorem token_update_refused_counterexample :
    (demoLiveToken [] "accessor-1").ObjectMeta.DeletionTimestamp = none ∧
    (demoLiveToken [] "accessor-1").Status.Accessor ≠ "" ∧
    TokenReconciler.Reconcile (readOnlyReconciler (demoLiveToken [] "accessor-1"))
        demoReq [] =
      (some (demoErr "forbidden"),
        [RAction.get demoReq,
          RAction.update
            (TokenReconciler.withCondition
              (demoLiveToken [TokenReconciler.tokenFinalizer] "accessor-1")
              ConditionUnknown "Reconciling" "Starting reconciliation")]) := by
  decide

/-- C24, amended: for a Token object that is not being deleted, a token with the
finalizer and a non-empty accessor makes `Reconcile` return success after the fetch alone.
A token without the finalizer is first updated with it: when that update fails its error
is returned, and when it succeeds and the token as stored has a non-empty accessor
`Reconcile` returns success after the update.  A call to Vault or a creation of a Secret
in the run means that the token, with its finalizer in place, had an empty accessor. -/
theorem token_no_creation_with_accessor (r : TokenReconciler) (req : NamespacedName)
    (tr : List (RAction v1beta1.Token)) (token0 : v1beta1.Token)
    (hget : r.Client.Get tr req = Except.ok token0)
    (hdel : token0.ObjectMeta.DeletionTimestamp = none) :
    (ContainsFinalizer token0.ObjectMeta TokenReconciler.tokenFinalizer = true →
      token0.Status.Accessor ≠ "" →
      TokenReconciler.Reconcile r req tr = (none, tr ++ [RAction.get req])) ∧
    (ContainsFinalizer token0.ObjectMeta TokenReconciler.tokenFinalizer = false →
      ∀ err, r.Client.Update (tr ++ [RAction.get req])
          (TokenReconciler.withCondition
            { token0 with ObjectMeta := AddFinalizer token0.ObjectMeta TokenReconciler.tokenFinalizer }
            ConditionUnknown "Reconciling" "Starting reconciliation") = Except.error err →
        TokenReconciler.Reconcile r req tr =
          (some err, tr ++ [RAction.get req,
            RAction.update (TokenReconciler.withCondition
              { token0 with ObjectMeta := AddFinalizer token0.ObjectMeta TokenReconciler.tokenFinalizer }
              ConditionUnknown "Reconciling" "Starting reconciliation")])) ∧
    (ContainsFinalizer token0.ObjectMeta TokenReconciler.tokenFinalizer = false →
      ∀ token, r.Client.Update (tr ++ [RAction.get req])
          (TokenReconciler.withCondition
            { token0 with ObjectMeta := AddFinalizer token0.ObjectMeta TokenReconciler.tokenFinalizer }
            ConditionUnknown "Reconciling" "Starting reconciliation") = Except.ok token →
        token.Status.Accessor ≠ "" →
        TokenReconciler.Reconcile r req tr =
          (none, tr ++ [RAction.get req,
            RAction.update (TokenReconciler.withCondition
              { token0 with ObjectMeta := AddFinalizer token0.ObjectMeta TokenReconciler.tokenFinalizer }
              ConditionUnknown "Reconciling" "Starting reconciliation")])) ∧
    (∀ a ∈ (TokenReconciler.Reconcile r req tr).2.drop tr.length,
      (a.isVault = true ∨ ∃ s, a = RAction.createSecret s) →
      ∃ token tr1,
        TokenReconciler.addFinalizer r token0 (tr ++ [RAction.get req]) =
          (Except.ok token, tr1) ∧
        token.Status.Accessor = "") := by
  have hrec : TokenReconciler.Reconcile r req tr =
      (match TokenReconciler.addFinalizer r token0 (tr ++ [RAction.get req]) with
        | (Except.error err, tr1) => (some err, tr1)
        | (Except.ok token, tr1) => TokenReconciler.create r token tr1) := by
    simp [TokenReconciler.Reconcile, hget, hdel]
  refine ⟨fun hf ha => ?_, fun hf err hu => ?_, fun hf token hu ha => ?_, fun a ha hav => ?_⟩
  · rw [hrec]
    simp [TokenReconciler.addFinalizer, hf, TokenReconciler.create, ha]
  · rw [hrec]
    simp [TokenReconciler.addFinalizer, hf, hu]
  · rw [hrec]
    simp [TokenReconciler.addFinalizer, hf, hu, TokenReconciler.create, ha]
  · obtain ⟨pre, hpre, hshape⟩ := token_addFinalizer_trace r token0 (tr ++ [RAction.get req])
    have hno : ∀ b ∈ [RAction.get req] ++ pre,
        ¬ (b.isVault = true ∨ ∃ s, b = RAction.createSecret s) := by
      intro b hb
      simp only [List.mem_append, List.mem_singleton] at hb
      rcases hb with rfl | hb
      · rintro (h | ⟨s, h⟩)
        · cases h
        · cases h
      · rcases hshape with rfl | ⟨u, rfl⟩
        · cases hb
        · rw [List.mem_singleton.1 hb]
          rintro (h | ⟨s, h⟩)
          · cases h
          · cases h
    rcases hadd : TokenReconciler.addFinalizer r token0 (tr ++ [RAction.get req]) with
      ⟨res, tr1⟩
    rw [hadd] at hpre
    simp only at hpre
    cases res with
    | error err =>
      exfalso
      rw [hrec, hadd] at ha
      simp only [hpre, List.append_assoc, List.drop_left] at ha
      exact hno a ha hav
    | ok token =>
      refine ⟨token, tr1, rfl, ?_⟩
      by_contra h
      rw [hrec, hadd] at ha
      simp only at ha
      rw [(token_create_cases r token tr1).1 h, hpre] at ha
      simp only [List.append_assoc, List.drop_left] at ha
      exact hno a ha hav

/-- C24: the amended statement at a concrete run, a token with the finalizer and an
accessor: `Reconcile` fetches it and returns success. -/
theorem token_no_creation_with_accessor_witness :
    TokenReconciler.Reconcile
        (demoReconciler (demoLiveToken [TokenReconciler.tokenFinalizer] "accessor-1")
          demoRemoteRole "")
        demoReq [] =
      (none, [] ++ [RAction.get demoReq]) :=
  (token_no_creation_with_accessor
    (demoReconciler (demoLiveToken [TokenReconciler.tokenFinalizer] "accessor-1")
      demoRemoteRole "")
    demoReq [] (demoLiveToken [TokenReconciler.tokenFinalizer] "accessor-1") rfl rfl).1
    (by decide) (by decide)

end VaultOperator
